import Mathlib

/-!
# Device SDK: entity caches, command dispatch and value transforms

A shallow embedding of the in-memory caches (`internal/cache`), the command
handler (`internal/handler/command.go`), the value transformer
(`internal/transformer`) and the asynchronous ingestion loop (`async.go`).

Go maps keyed by strings are association lists with at most one entry per key;
a Go `(value, ok)` result is an `Option`; a Go `error` result is an
`Option String` (`none` is `nil`).  Methods that mutate their receiver return
the error together with the receiver's new state.
-/

namespace DeviceSdk

deriving instance DecidableEq for Except

/-! ## Go maps with string keys -/

/-- A Go `map[string]α`: an association list, newest binding first. -/
abbrev GoMap (α : Type) : Type := List (String × α)

namespace GoMap

/-- The lookup `v, ok := m[key]`. -/
def get {α : Type} : GoMap α → String → Option α
  | [], _ => none
  | (k, v) :: m, key => if k = key then some v else get m key

/-- The builtin `delete(m, key)`. -/
def del {α : Type} : GoMap α → String → GoMap α
  | [], _ => []
  | (k, v) :: m, key => if k = key then del m key else (k, v) :: del m key

/-- The assignment `m[key] = v`. -/
def set {α : Type} (m : GoMap α) (key : String) (v : α) : GoMap α :=
  (key, v) :: del m key

/-- An assignment through the pointer stored under `key`: the value is changed
where it is, and the map itself is not touched. -/
def modify {α : Type} : GoMap α → String → (α → α) → GoMap α
  | [], _, _ => []
  | (k, v) :: m, key, f =>
    if k = key then (k, f v) :: modify m key f else (k, v) :: modify m key f

/-- The values met by `for _, v := range m`, in one enumeration order. -/
def vals {α : Type} (m : GoMap α) : List α := m.map Prod.snd

/-- The keys of the map, in the same enumeration order as `vals`. -/
def keys {α : Type} (m : GoMap α) : List String := m.map Prod.fst

end GoMap

/-- The function `strings.ToLower` as far as the code uses it, which is to
compare the result with ASCII literals (`"get"`, the type names): ASCII
capitals are lowered, and so are the two characters outside ASCII whose
lower case is an ASCII letter (U+0130 to `i`, U+212A to `k`); the other
characters, whose lower case is not ASCII, are left as they are. -/
def ToLower (s : String) : String :=
  ⟨s.data.map (fun c =>
    if c.toNat = 0x130 then 'i' else if c.toNat = 0x212A then 'k' else c.toLower)⟩

/-! ## Data model (`models` package of the metadata service) -/

/-- The administrative state of a device, `models.AdminState`. -/
inductive AdminState where
  | Locked
  | Unlocked
deriving DecidableEq, Repr

/-- The operating state of a device, `models.OperatingState`. -/
inductive OperatingState where
  | Enabled
  | Disabled
deriving DecidableEq, Repr

/-- The correction parameters and assertion of a device object,
`models.PropertyValue`. -/
structure PropertyValue where
  Base : String
  Scale : String
  Offset : String
  Assertion : String
deriving DecidableEq, Repr

/-- A named protocol-level resource, `models.DeviceObject`; `Value` is the
field `Properties.Value`. -/
structure DeviceObject where
  Name : String
  Value : PropertyValue
deriving DecidableEq, Repr

/-- One operation of a profile resource, `models.ResourceOperation`. -/
structure ResourceOperation where
  Object : String
  Parameter : String
  Mappings : GoMap String
deriving DecidableEq, Repr

/-- A command of a profile with its get and set lists,
`models.ProfileResource`. -/
structure ProfileResource where
  Name : String
  Get : List ResourceOperation
  Set : List ResourceOperation
deriving DecidableEq, Repr

/-- A declared command, `models.Command`. -/
structure Command where
  Name : String
deriving DecidableEq, Repr

/-- A device profile, `models.DeviceProfile`; `Id` is `profile.Id.Hex()`. -/
structure DeviceProfile where
  Id : String
  Name : String
  DeviceResources : List DeviceObject
  Resources : List ProfileResource
  Commands : List Command
deriving DecidableEq, Repr

/-- A device, `models.Device`; `Id` is `device.Id.Hex()`, `ProfileName` is
`device.Profile.Name` and `Addressable` names the device's address. -/
structure Device where
  Id : String
  Name : String
  AdminState : AdminState
  OperatingState : OperatingState
  ProfileName : String
  Addressable : String
deriving DecidableEq, Repr

/-- A value descriptor, `models.ValueDescriptor`; `TypeName` is its field
`Type`, the declared scalar type as written in the descriptor. -/
structure ValueDescriptor where
  Name : String
  TypeName : String
deriving DecidableEq, Repr

/-! ## Device cache (`internal/cache/devices.go`) -/

/-- The device cache: `dMap` is keyed by device name, `nameMap` by device id
and holds the device name. -/
structure deviceCache where
  dMap : GoMap Device
  nameMap : GoMap String
deriving DecidableEq, Repr

namespace deviceCache

/-- The method `ForName` returns the device with the given name. -/
def ForName (d : deviceCache) (name : String) : Option Device :=
  match GoMap.get d.dMap name with
  | some device => some device
  | none => none

/-- The method `ForId` returns the device with the given id. -/
def ForId (d : deviceCache) (id : String) : Option Device :=
  match GoMap.get d.nameMap id with
  | none => none
  | some name =>
    match GoMap.get d.dMap name with
    | some dev => some dev
    | none => none

/-- The method `All` returns the current list of devices in the cache. -/
def All (d : deviceCache) : List Device := GoMap.vals d.dMap

/-- The method `Add` adds a new device to the cache. -/
def Add (d : deviceCache) (device : Device) : deviceCache × Option String :=
  match GoMap.get d.dMap device.Name with
  | some _ => (d, some ("device " ++ device.Name ++ " has already existed in cache"))
  | none =>
    ({ dMap := GoMap.set d.dMap device.Name device,
       nameMap := GoMap.set d.nameMap device.Id device.Name }, none)

/-- The method `Update` updates the device in the cache. -/
def Update (d : deviceCache) (device : Device) : deviceCache × Option String :=
  match GoMap.get d.nameMap device.Id with
  | none => (d, some ("device " ++ device.Id ++ " does not exist in cache"))
  | some name =>
    match GoMap.get d.dMap name with
    | none => (d, some ("device " ++ device.Name ++ " does not exist in cache"))
    | some _ =>
      ({ dMap := GoMap.set (GoMap.del d.dMap name) device.Name device,
         nameMap := GoMap.set d.nameMap device.Id device.Name }, none)

/-- The method `RemoveByName` removes the specified device by name from the cache. -/
def RemoveByName (d : deviceCache) (name : String) : deviceCache × Option String :=
  match GoMap.get d.dMap name with
  | none => (d, some ("device " ++ name ++ " does not exist in cache"))
  | some device =>
    ({ dMap := GoMap.del d.dMap name,
       nameMap := GoMap.del d.nameMap device.Id }, none)

/-- The method `Remove` removes the specified device by id from the cache. -/
def Remove (d : deviceCache) (id : String) : deviceCache × Option String :=
  match GoMap.get d.nameMap id with
  | none => (d, some ("device " ++ id ++ " does not exist in cache"))
  | some name => RemoveByName d name

/-- The method `UpdateAdminState` updates the device admin state in cache by
id.  The result `none` is the run-time panic of the assignment
`d.dMap[name].AdminState = state` when `dMap` has no entry for `name`, whose
lookup yields a nil pointer. -/
def UpdateAdminState (d : deviceCache) (id : String) (state : AdminState) :
    Option (deviceCache × Option String) :=
  match GoMap.get d.nameMap id with
  | none => some (d, some ("device " ++ id ++ " cannot be found in cache"))
  | some name =>
    match GoMap.get d.dMap name with
    | none => none
    | some _ =>
      some ({ d with
        dMap := GoMap.modify d.dMap name (fun dev => { dev with AdminState := state }) },
        none)

end deviceCache

/-- The constructor `newDeviceCache`: both maps are filled from the snapshot,
in order. -/
def newDeviceCache (devices : List Device) : deviceCache :=
  devices.foldl
    (fun c d => { dMap := GoMap.set c.dMap d.Name d,
                  nameMap := GoMap.set c.nameMap d.Id d.Name })
    { dMap := [], nameMap := [] }

/-- One mutating call on the device cache. -/
inductive DeviceOp where
  | add (device : Device)
  | update (device : Device)
  | remove (id : String)
  | removeByName (name : String)
deriving DecidableEq, Repr

/-- The cache after one call, whether or not the call returned an error. -/
def deviceCache.step (d : deviceCache) : DeviceOp → deviceCache
  | .add device => (d.Add device).1
  | .update device => (d.Update device).1
  | .remove id => (d.Remove id).1
  | .removeByName name => (d.RemoveByName name).1

/-- The cache after a sequence of calls. -/
def deviceCache.run (d : deviceCache) (ops : List DeviceOp) : deviceCache :=
  ops.foldl deviceCache.step d

/-- The helper `deviceObjectSliceToMap`. -/
def deviceObjectSliceToMap (deviceObjects : List DeviceObject) : GoMap DeviceObject :=
  deviceObjects.foldl (fun result o => GoMap.set result o.Name o) []

/-- The helper `profileResourceSliceToMaps`: the get lists and the set lists,
both keyed by resource name. -/
def profileResourceSliceToMaps (profileResources : List ProfileResource) :
    GoMap (List ResourceOperation) × GoMap (List ResourceOperation) :=
  profileResources.foldl
    (fun r pr => (GoMap.set r.1 pr.Name pr.Get, GoMap.set r.2 pr.Name pr.Set))
    ([], [])

/-- The helper `commandSliceToMap`. -/
def commandSliceToMap (commands : List Command) : GoMap Command :=
  commands.foldl (fun result cmd => GoMap.set result cmd.Name cmd) []

/-- The profile cache: `dpMap` is keyed by profile name, `nameMap` by profile
id; the four derived indices are keyed by profile name. -/
structure profileCache where
  dpMap : GoMap DeviceProfile
  nameMap : GoMap String
  doMap : GoMap (GoMap DeviceObject)
  getOpMap : GoMap (GoMap (List ResourceOperation))
  setOpMap : GoMap (GoMap (List ResourceOperation))
  cmdMap : GoMap (GoMap Command)
deriving DecidableEq, Repr

namespace profileCache

/-- The method `ForName` on the profile cache. -/
def ForName (p : profileCache) (name : String) : Option DeviceProfile :=
  GoMap.get p.dpMap name

/-- The method `ForId` on the profile cache. -/
def ForId (p : profileCache) (id : String) : Option DeviceProfile :=
  match GoMap.get p.nameMap id with
  | none => none
  | some name => GoMap.get p.dpMap name

/-- The method `All` on the profile cache. -/
def All (p : profileCache) : List DeviceProfile := GoMap.vals p.dpMap

/-- The five assignments shared by `Add` and `Update`. -/
def store (p : profileCache) (dpMap : GoMap DeviceProfile) (profile : DeviceProfile) :
    profileCache :=
  { dpMap := GoMap.set dpMap profile.Name profile,
    nameMap := GoMap.set p.nameMap profile.Id profile.Name,
    doMap := GoMap.set p.doMap profile.Name (deviceObjectSliceToMap profile.DeviceResources),
    getOpMap := GoMap.set p.getOpMap profile.Name (profileResourceSliceToMaps profile.Resources).1,
    setOpMap := GoMap.set p.setOpMap profile.Name (profileResourceSliceToMaps profile.Resources).2,
    cmdMap := GoMap.set p.cmdMap profile.Name (commandSliceToMap profile.Commands) }

/-- The method `Add` on the profile cache. -/
def Add (p : profileCache) (profile : DeviceProfile) : profileCache × Option String :=
  match GoMap.get p.dpMap profile.Name with
  | some _ =>
    (p, some ("device profile " ++ profile.Name ++ " has already existed in cache"))
  | none => (p.store p.dpMap profile, none)

/-- The method `Update` on the profile cache. -/
def Update (p : profileCache) (profile : DeviceProfile) : profileCache × Option String :=
  match GoMap.get p.nameMap profile.Id with
  | none => (p, some ("device profile " ++ profile.Id ++ " does not exist in cache"))
  | some name =>
    match GoMap.get p.dpMap name with
    | none => (p, some ("device profile " ++ profile.Name ++ " does not exist in cache"))
    | some _ => (p.store (GoMap.del p.dpMap name) profile, none)

/-- The method `RemoveByName` on the profile cache. -/
def RemoveByName (p : profileCache) (name : String) : profileCache × Option String :=
  match GoMap.get p.dpMap name with
  | none => (p, some ("device profile " ++ name ++ " does not exist in cache"))
  | some profile =>
    ({ dpMap := GoMap.del p.dpMap name,
       nameMap := GoMap.del p.nameMap profile.Id,
       doMap := GoMap.del p.doMap name,
       getOpMap := GoMap.del p.getOpMap name,
       setOpMap := GoMap.del p.setOpMap name,
       cmdMap := GoMap.del p.cmdMap name }, none)

/-- The method `Remove` on the profile cache. -/
def Remove (p : profileCache) (id : String) : profileCache × Option String :=
  match GoMap.get p.nameMap id with
  | none => (p, some ("device profile " ++ id ++ " does not exist in cache"))
  | some name => RemoveByName p name

/-- The method `DeviceObject` looks an object up by profile name and object name. -/
def DeviceObject (p : profileCache) (profileName objectName : String) :
    Option DeviceSdk.DeviceObject :=
  match GoMap.get p.doMap profileName with
  | none => none
  | some objs => GoMap.get objs objectName

/-- The method `CommandExists` reports whether the command is declared for the profile;
an error is returned when the profile is unknown. -/
def CommandExists (p : profileCache) (prfName cmd : String) : Except String Bool :=
  match GoMap.get p.cmdMap prfName with
  | none =>
    .error ("profiles: CommandExists: specified profile: " ++ prfName ++ " not found")
  | some commands =>
    match GoMap.get commands cmd with
    | none => .ok false
    | some _ => .ok true

/-- The method `ResourceOperations` returns the operation list of a command in one
direction. -/
def ResourceOperations (p : profileCache) (prfName cmd method : String) :
    Except String (List ResourceOperation) :=
  match GoMap.get (if ToLower method = "get" then p.getOpMap else p.setOpMap) prfName with
  | none =>
    .error ("profiles: ResourceOperations: specified profile: " ++ prfName ++ " not found")
  | some rosMap =>
    match GoMap.get rosMap cmd with
    | none => .error ("profiles: ResourceOperations: specified cmd: " ++ cmd ++ " not found")
    | some resOps => .ok resOps

end profileCache

/-- The helper `retrieveFirstRObyObject`, on the operation lists of the map in
the order in which `range` visits them (Go leaves that order unspecified): the
first operation met whose Object is the requested one. -/
def retrieveFirstRObyObject :
    List (List ResourceOperation) → String → Option ResourceOperation
  | [], _ => none
  | ros :: rest, object =>
    match ros.find? (fun ro => decide (ro.Object = object)) with
    | some ro => some ro
    | none => retrieveFirstRObyObject rest object

/-- The method `ResourceOperation` returns the first matched operation.
`visit` lists the keys of the profile's operation map in the order in which
`range` visits them. -/
def profileCache.ResourceOperation (p : profileCache) (prfName object method : String)
    (visit : List String) : Except String ResourceOperation :=
  if ToLower method = "get" then
    match GoMap.get p.getOpMap prfName with
    | none =>
      .error ("profiles: ResourceOperation: specified profile: " ++ prfName ++ " not found")
    | some rosMap =>
      match retrieveFirstRObyObject (visit.filterMap (GoMap.get rosMap)) object with
      | none =>
        .error ("profiles: specified ResourceOperation by object " ++ object ++ " not found")
      | some ro => .ok ro
  else
    match GoMap.get p.setOpMap prfName with
    | none =>
      .error ("profiles: ResourceOperations: specified profile: " ++ prfName ++ " not found")
    | some rosMap =>
      match retrieveFirstRObyObject (visit.filterMap (GoMap.get rosMap)) object with
      | none =>
        .error ("profiles: specified ResourceOperation by object " ++ object ++ " not found")
      | some ro => .ok ro

/-- One mutating call on the profile cache. -/
inductive ProfileOp where
  | add (profile : DeviceProfile)
  | update (profile : DeviceProfile)
  | remove (id : String)
  | removeByName (name : String)
deriving DecidableEq, Repr

/-- The profile cache after one call, whether or not the call returned an
error. -/
def profileCache.step (p : profileCache) : ProfileOp → profileCache
  | .add profile => (p.Add profile).1
  | .update profile => (p.Update profile).1
  | .remove id => (p.Remove id).1
  | .removeByName name => (p.RemoveByName name).1

/-- The profile cache after a sequence of calls. -/
def profileCache.run (p : profileCache) (ops : List ProfileOp) : profileCache :=
  ops.foldl profileCache.step p

/-- The constructor `newProfileCache`. -/
def newProfileCache (profiles : List DeviceProfile) : profileCache :=
  profiles.foldl (fun p dp => p.store p.dpMap dp)
    { dpMap := [], nameMap := [], doMap := [], getOpMap := [], setOpMap := [], cmdMap := [] }

/-! ## Value descriptor cache (`internal/cache/valuedescriptors.go`) -/

/-- The value descriptor cache, keyed by descriptor name. -/
structure valueDescriptorCache where
  vdMap : GoMap ValueDescriptor
deriving DecidableEq, Repr

namespace valueDescriptorCache

/-- The method `ForName` on the value descriptor cache. -/
def ForName (v : valueDescriptorCache) (name : String) : Option ValueDescriptor :=
  GoMap.get v.vdMap name

/-- The method `All` on the value descriptor cache. -/
def All (v : valueDescriptorCache) : List ValueDescriptor := GoMap.vals v.vdMap

/-- The method `Add` on the value descriptor cache. -/
def Add (v : valueDescriptorCache) (descriptor : ValueDescriptor) :
    valueDescriptorCache × Option String :=
  match GoMap.get v.vdMap descriptor.Name with
  | some _ =>
    (v, some ("value descriptor " ++ descriptor.Name ++ " has already existed in cache"))
  | none => ({ vdMap := GoMap.set v.vdMap descriptor.Name descriptor }, none)

/-- The method `Update` on the value descriptor cache. -/
def Update (v : valueDescriptorCache) (descriptor : ValueDescriptor) :
    valueDescriptorCache × Option String :=
  match GoMap.get v.vdMap descriptor.Name with
  | none =>
    (v, some ("value descriptor " ++ descriptor.Name ++ " does not exist in cache"))
  | some _ => ({ vdMap := GoMap.set v.vdMap descriptor.Name descriptor }, none)

/-- The method `Remove` on the value descriptor cache. -/
def Remove (v : valueDescriptorCache) (name : String) :
    valueDescriptorCache × Option String :=
  match GoMap.get v.vdMap name with
  | none => (v, some ("value descriptor " ++ name ++ " does not exist in cache"))
  | some _ => ({ vdMap := GoMap.del v.vdMap name }, none)

end valueDescriptorCache

/-- The constructor `newValueDescriptorCache`. -/
def newValueDescriptorCache (descriptors : List ValueDescriptor) : valueDescriptorCache :=
  { vdMap := descriptors.foldl (fun m vd => GoMap.set m vd.Name vd) [] }

/-- Every entry of `dMap` is stored under the name of its device. -/
def deviceCache.NameKeyed (d : deviceCache) : Prop :=
  ∀ k dev, GoMap.get d.dMap k = some dev → dev.Name = k

/-- A `float64` value: `fin neg m e` is `(-1)^neg * m * 2^e` (both zeros are
`m = 0`), `inf neg` an infinity, `nan` a NaN.  One value may have several
representations; no definition depends on which one is used. -/
inductive F64 where
  | fin (neg : Bool) (m : Nat) (e : Int)
  | inf (neg : Bool)
  | nan
deriving DecidableEq, Repr

/-- The bit length of `n`, by halving at most `fuel` times. -/
def bitLen : Nat → Nat → Nat
  | 0, _ => 0
  | fuel + 1, n => if n = 0 then 0 else bitLen fuel (n / 2) + 1

/-- The bit length of `n`: `bits 0 = 0`, `bits 5 = 3`. -/
def bits (n : Nat) : Nat := bitLen n n

namespace F64

/-- Rounds `(-1)^neg * m * 2^e` to nearest, ties to even, on the grid with
`p`-bit mantissas and exponents no smaller than `emin`; a rounded magnitude of
`2^emax` or more overflows to an infinity. -/
def round (p : Nat) (emin emax : Int) (neg : Bool) (m : Nat) (e : Int) : F64 :=
  let shift : Int := max ((bits m : Int) - p) (emin - e)
  if m = 0 then .fin neg 0 0
  else if shift ≤ 0 then
    if (bits m : Int) + e > emax then .inf neg else .fin neg m e
  else
    let s := shift.toNat
    let q := m / 2 ^ s
    let r := m % 2 ^ s
    let q1 := if 2 ^ (s - 1) < r ∨ (2 ^ (s - 1) = r ∧ q % 2 = 1) then q + 1 else q
    if (bits q1 : Int) + (e + shift) > emax then .inf neg else .fin neg q1 (e + shift)

/-- Rounding to `float64`. -/
def round64 (neg : Bool) (m : Nat) (e : Int) : F64 := round 53 (-1074) 1024 neg m e

/-- Rounding to `float32`, the conversion `float32(f)` of a finite value. -/
def round32 (neg : Bool) (m : Nat) (e : Int) : F64 := round 24 (-149) 128 neg m e

/-- The correctly rounded quotient `(-1)^neg * (m / n) * 2^e` for `m, n > 0`:
the quotient is taken to at least 55 bits and the remainder kept as a sticky
bit. -/
def divRound (neg : Bool) (m n : Nat) (e : Int) : F64 :=
  let k := bits n + 55 - bits m
  let q := m * 2 ^ k / n
  let r := m * 2 ^ k % n
  round64 neg (2 * q + (if r = 0 then 0 else 1)) (e - k - 1)

/-- The conversion `float64(v)` of an integer. -/
def ofInt (v : Int) : F64 := round64 (decide (v < 0)) v.natAbs 0

/-- The comparison `f == 0`, true of both zeros. -/
def isZero : F64 → Bool
  | .fin _ m _ => decide (m = 0)
  | _ => false

/-- Negation. -/
def neg : F64 → F64
  | .fin s m e => .fin (!s) m e
  | .inf s => .inf (!s)
  | .nan => .nan

/-- The product `a * b`. -/
def mul : F64 → F64 → F64
  | .nan, _ => .nan
  | _, .nan => .nan
  | .inf s, .inf t => .inf (xor s t)
  | .inf s, .fin t n _ => if n = 0 then .nan else .inf (xor s t)
  | .fin s m _, .inf t => if m = 0 then .nan else .inf (xor s t)
  | .fin s m e, .fin t n f => round64 (xor s t) (m * n) (e + f)

/-- The sum `a + b`; an exact zero sum is `+0` unless both operands are
negative. -/
def add : F64 → F64 → F64
  | .nan, _ => .nan
  | _, .nan => .nan
  | .inf s, .inf t => if s = t then .inf s else .nan
  | .inf s, .fin _ _ _ => .inf s
  | .fin _ _ _, .inf t => .inf t
  | .fin s m e, .fin t n f =>
    let e0 := min e f
    let x : Int := (if s then -1 else 1) * ((m : Int) * 2 ^ (e - e0).toNat)
    let y : Int := (if t then -1 else 1) * ((n : Int) * 2 ^ (f - e0).toNat)
    if x + y = 0 then .fin (s && t) 0 e0
    else round64 (decide (x + y < 0)) (x + y).natAbs e0

/-- The difference `a - b`. -/
def sub (a b : F64) : F64 := add a (neg b)

/-- The quotient `a / b`. -/
def div : F64 → F64 → F64
  | .nan, _ => .nan
  | _, .nan => .nan
  | .inf _, .inf _ => .nan
  | .inf s, .fin t _ _ => .inf (xor s t)
  | .fin s _ _, .inf t => .fin (xor s t) 0 0
  | .fin s m e, .fin t n f =>
    if n = 0 then (if m = 0 then .nan else .inf (xor s t))
    else if m = 0 then .fin (xor s t) 0 0
    else divRound (xor s t) m n (e - f)

/-- The value with its fraction discarded (truncation towards zero); `none`
for an infinity or a NaN. -/
def trunc : F64 → Option Int
  | .fin s m e =>
    let a : Nat := if 0 ≤ e then m * 2 ^ e.toNat else m / 2 ^ (-e).toNat
    some (if s then -(a : Int) else (a : Int))
  | _ => none

/-- The natural number that `m * 2^e` equals exactly, if it is one. -/
def intMag (m : Nat) (e : Int) : Option Nat :=
  if 0 ≤ e then some (m * 2 ^ e.toNat)
  else if m % 2 ^ (-e).toNat = 0 then some (m / 2 ^ (-e).toNat)
  else none

/-- The integer that the value equals exactly, if it is one. -/
def toInt? : F64 → Option Int
  | .fin s m e => (intMag m e).map (fun a => if s then -(a : Int) else (a : Int))
  | _ => none

/-- The conversion `float32(f)`, kept as the double it widens back to. -/
def toFloat32 : F64 → F64
  | .fin s m e => round32 s m e
  | f => f

end F64

/-! ## Command values (`model` package) -/

/-- The declared type of a command value, `model.ValueType`. -/
inductive ValueType where
  | Bool | String
  | Uint8 | Uint16 | Uint32 | Uint64
  | Int8 | Int16 | Int32 | Int64
  | Float32 | Float64
deriving DecidableEq, Repr

/-- The content of `NumericValue`, held decoded: the big-endian buffer written
by `binary.Write` and read back by `binary.Read` is not modelled byte by byte.
`empty` is the nil buffer of a string value. -/
inductive Numeric where
  | empty
  | bool (b : Bool)
  | int (n : Int)
  | float (f : F64)
deriving DecidableEq, Repr

/-- Modelled from the spec: the struct `model.CommandValue` (the `model`
package is not among the sources), "a typed, addressable value: its
ResourceOperation, declared type, origin timestamp, and a canonical
fixed-width binary representation".  `Type_` is the field `Type`. -/
structure CommandValue where
  RO : ResourceOperation
  Origin : Int
  Type_ : ValueType
  NumericValue : Numeric
  stringValue : String
deriving DecidableEq, Repr

/-- Modelled from the spec: the constructor `model.NewStringValue`, "a new
string-typed CommandValue carrying the mapped string". -/
def NewStringValue (ro : ResourceOperation) (origin : Int) (value : String) : CommandValue :=
  { RO := ro, Origin := origin, Type_ := .String, NumericValue := .empty, stringValue := value }

/-- The inclusive range of an integer type; `none` for the other types. -/
def ValueType.intRange : ValueType → Option (Int × Int)
  | .Uint8 => some (0, 2 ^ 8 - 1)
  | .Uint16 => some (0, 2 ^ 16 - 1)
  | .Uint32 => some (0, 2 ^ 32 - 1)
  | .Uint64 => some (0, 2 ^ 64 - 1)
  | .Int8 => some (-2 ^ 7, 2 ^ 7 - 1)
  | .Int16 => some (-2 ^ 15, 2 ^ 15 - 1)
  | .Int32 => some (-2 ^ 31, 2 ^ 31 - 1)
  | .Int64 => some (-2 ^ 63, 2 ^ 63 - 1)
  | _ => none

/-- A command value whose buffer holds a value of its declared type. -/
def CommandValue.WellFormed (cv : CommandValue) : Prop :=
  match cv.Type_, cv.NumericValue with
  | .String, _ => True
  | .Bool, .bool _ => True
  | .Float32, .float _ => True
  | .Float64, .float _ => True
  | t, .int n =>
    match t.intRange with
    | some (lo, hi) => lo ≤ n ∧ n ≤ hi
    | none => False
  | _, _ => False

/-- What the code takes from outside the repository sources: library
functions of the Go runtime, results the language leaves to the
implementation, and the string rendering of the `model` package. -/
structure Platform where
  /-- The call `strconv.ParseFloat(s, 64)`; an error result is `Except.error`. -/
  ParseFloat : String → Except String F64
  /-- The function `math.Pow`. -/
  Pow : F64 → F64 → F64
  /-- The function `math.Log`. -/
  Log : F64 → F64
  /-- The result of converting to an integer type a NaN, an infinity or a
  value outside the type's range, which Go leaves to the implementation. -/
  ConvertOverflow : ValueType → F64 → Int
  /-- The method `CommandValue.ValueToString` of the `model` package, the
  value's canonical string form. -/
  ValueToString : CommandValue → String
  /-- The call `json.Unmarshal` of a write body into `[]map[string]string`. -/
  Unmarshal : String → Except String (List (GoMap String))
  /-- The call `strconv.ParseBool`. -/
  ParseBool : String → Except String Bool
  /-- The call `strconv.ParseUint(s, 10, bitSize)`. -/
  ParseUint : String → Nat → Except String Int
  /-- The call `strconv.ParseInt(s, 10, bitSize)`. -/
  ParseInt : String → Nat → Except String Int
  /-- The call `strconv.ParseFloat(s, 32)`. -/
  ParseFloat32 : String → Except String F64

/-! ## Value transforms (`internal/transformer`) -/

/-- The helper `commandValueToFloat64`: the stored value as a double.  A
typed accessor fails when the buffer does not decode to the declared type; the
default branch of the source returns `0` with a nil error. -/
def commandValueToFloat64 (cv : CommandValue) : Except String F64 :=
  match cv.Type_ with
  | .Bool => .ok (.fin false 0 0)
  | .String => .ok (.fin false 0 0)
  | .Float32 =>
    match cv.NumericValue with
    | .float f => .ok f
    | _ => .error "decode"
  | .Float64 =>
    match cv.NumericValue with
    | .float f => .ok f
    | _ => .error "decode"
  | _ =>
    match cv.NumericValue with
    | .int n => .ok (F64.ofInt n)
    | _ => .error "decode"

/-- The integer conversion `T(f64)` of an integer type with range `lo..hi`:
the fraction is discarded; a value the type cannot hold gives the platform's
result. -/
def convertToInt (P : Platform) (t : ValueType) (lo hi : Int) (f64 : F64) : Int :=
  match f64.trunc with
  | some n => if lo ≤ n ∧ n ≤ hi then n else P.ConvertOverflow t f64
  | none => P.ConvertOverflow t f64

/-- The helper `convertNumericFromFloat64`. -/
def convertNumericFromFloat64 (P : Platform) (f64 : F64) (t : ValueType) :
    Except String Numeric :=
  match t with
  | .Float32 => .ok (.float f64.toFloat32)
  | .Float64 => .ok (.float f64)
  | .Bool => .error "wrong data type of CommandValue to convert from float64"
  | .String => .error "wrong data type of CommandValue to convert from float64"
  | t =>
    match t.intRange with
    | some (lo, hi) => .ok (.int (convertToInt P t lo hi f64))
    | none => .error "wrong data type of CommandValue to convert from float64"

/-- The helper `replaceCommandValueFromFloat64`: the converted value replaces
the buffer (`binary.Write` of a fixed-width value does not fail). -/
def replaceCommandValueFromFloat64 (P : Platform) (cv : CommandValue) (f64 : F64) :
    CommandValue × Option String :=
  match convertNumericFromFloat64 P f64 cv.Type_ with
  | .error err => (cv, some err)
  | .ok value => ({ cv with NumericValue := value }, none)

/-- The step `transformReadBase`. -/
def transformReadBase (P : Platform) (cv : CommandValue) (base : String) :
    CommandValue × Option String :=
  match commandValueToFloat64 cv with
  | .error err => (cv, some err)
  | .ok v =>
    match P.ParseFloat base with
    | .error err => (cv, some err)
    | .ok b =>
      if b.isZero then (cv, none)
      else replaceCommandValueFromFloat64 P cv (P.Pow b v)

/-- The step `transformReadScale`. -/
def transformReadScale (P : Platform) (cv : CommandValue) (scale : String) :
    CommandValue × Option String :=
  match commandValueToFloat64 cv with
  | .error err => (cv, some err)
  | .ok v =>
    match P.ParseFloat scale with
    | .error err => (cv, some err)
    | .ok s => replaceCommandValueFromFloat64 P cv (F64.mul v s)

/-- The step `transformReadOffset`. -/
def transformReadOffset (P : Platform) (cv : CommandValue) (offset : String) :
    CommandValue × Option String :=
  match commandValueToFloat64 cv with
  | .error err => (cv, some err)
  | .ok v =>
    match P.ParseFloat offset with
    | .error err => (cv, some err)
    | .ok o => replaceCommandValueFromFloat64 P cv (F64.add v o)

/-- The function `TransformReadResult`: the command value after the call and
the error returned. -/
def TransformReadResult (P : Platform) (cv : CommandValue) (pv : PropertyValue) :
    CommandValue × Option String :=
  if cv.Type_ = .String ∨ cv.Type_ = .Bool then (cv, none)
  else
    let r1 := if pv.Base ≠ "" then transformReadBase P cv pv.Base else (cv, none)
    match r1.2 with
    | some err => (r1.1, some err)
    | none =>
      let r2 := if pv.Scale ≠ "" then transformReadScale P r1.1 pv.Scale else (r1.1, none)
      match r2.2 with
      | some err => (r2.1, some err)
      | none =>
        if pv.Offset ≠ "" then transformReadOffset P r2.1 pv.Offset else (r2.1, none)

/-- The step `transformWriteBase`. -/
def transformWriteBase (P : Platform) (cv : CommandValue) (base : String) :
    CommandValue × Option String :=
  match commandValueToFloat64 cv with
  | .error err => (cv, some err)
  | .ok v =>
    match P.ParseFloat base with
    | .error err => (cv, some err)
    | .ok b =>
      if b.isZero then (cv, none)
      else replaceCommandValueFromFloat64 P cv (F64.div (P.Log v) (P.Log b))

/-- The step `transformWriteScale`. -/
def transformWriteScale (P : Platform) (cv : CommandValue) (scale : String) :
    CommandValue × Option String :=
  match commandValueToFloat64 cv with
  | .error err => (cv, some err)
  | .ok v =>
    match P.ParseFloat scale with
    | .error err => (cv, some err)
    | .ok s =>
      if s.isZero then (cv, some "scale is 0")
      else replaceCommandValueFromFloat64 P cv (F64.div v s)

/-- The step `transformWriteOffset`. -/
def transformWriteOffset (P : Platform) (cv : CommandValue) (offset : String) :
    CommandValue × Option String :=
  match commandValueToFloat64 cv with
  | .error err => (cv, some err)
  | .ok v =>
    match P.ParseFloat offset with
    | .error err => (cv, some err)
    | .ok o => replaceCommandValueFromFloat64 P cv (F64.sub v o)

/-- The function `TransformWriteParameter`: the command value after the call
and the error returned. -/
def TransformWriteParameter (P : Platform) (cv : CommandValue) (pv : PropertyValue) :
    CommandValue × Option String :=
  if cv.Type_ = .String ∨ cv.Type_ = .Bool then (cv, none)
  else
    let r1 := if pv.Offset ≠ "" then transformWriteOffset P cv pv.Offset else (cv, none)
    match r1.2 with
    | some err => (r1.1, some err)
    | none =>
      let r2 := if pv.Scale ≠ "" then transformWriteScale P r1.1 pv.Scale else (r1.1, none)
      match r2.2 with
      | some err => (r2.1, some err)
      | none =>
        if pv.Base ≠ "" then transformWriteBase P r2.1 pv.Base else (r2.1, none)

/-- The function `CheckAssertion`: the device after the call, the error
returned, and whether the operating-state notification was launched. -/
def CheckAssertion (P : Platform) (cv : CommandValue) (assertion : String)
    (device : Device) : Device × Option String × Bool :=
  if assertion ≠ "" ∧ P.ValueToString cv ≠ assertion then
    ({ device with OperatingState := .Disabled },
      some ("assertion (" ++ assertion ++ ") failed with value: " ++ P.ValueToString cv), true)
  else (device, none, false)

/-- The function `MapCommandValue`: the substituted value when the mapping
table has an entry for the value's string form. -/
def MapCommandValue (P : Platform) (value : CommandValue) : Option CommandValue :=
  match GoMap.get value.RO.Mappings (P.ValueToString value) with
  | some newValue => some (NewStringValue value.RO value.Origin newValue)
  | none => none

/-! ## Command dispatch (`internal/handler/command.go`) -/

/-- A request handed to the driver, `model.CommandRequest`. -/
structure CommandRequest where
  RO : ResourceOperation
  DeviceObject : DeviceObject
deriving DecidableEq, Repr

/-- A reading, `models.Reading`. -/
structure Reading where
  Device : String
  Name : String
  Value : String
  Origin : Int
deriving DecidableEq, Repr

/-- An event, `models.Event`. -/
structure Event where
  Device : String
  Readings : List Reading
  Origin : Int
deriving DecidableEq, Repr

/-- Modelled from the spec: the error classes of `common.AppError` (the file
that declares them is not among the sources), "NotFound, Locked, BadRequest,
ServerError".  Messages are not modelled. -/
inductive AppError where
  | NotFound
  | Locked
  | BadRequest
  | ServerError
deriving DecidableEq, Repr

/-- The two driver entry points used by dispatch, `model.ProtocolDriver`; the
first argument is the device's addressable. -/
structure ProtocolDriver where
  HandleReadCommands : String → List CommandRequest → Except String (List CommandValue)
  HandleWriteCommands : String → List CommandRequest → List CommandValue → Option String

/-- What a dispatch does to the outside, in program order: the driver calls
and the goroutines it launches. -/
inductive Effect where
  | driverRead (addr : String) (reqs : List CommandRequest)
  | driverWrite (addr : String) (reqs : List CommandRequest) (params : List CommandValue)
  | sendEvent (event : Event)
  | updateOpState (name : String) (state : OperatingState)
deriving DecidableEq, Repr

/-- The package-level state a dispatch reads: the three caches, the two
configuration values, the driver, the platform, the helper
`common.CommandValueToReading` (not among the sources) and the clock, in
milliseconds.  `MaxCmdOps` is a natural number: `execReadCmd` starts by
allocating a slice of that capacity, which a negative value would make
panic. -/
structure Env where
  Devices : deviceCache
  Profiles : profileCache
  ValueDescriptors : valueDescriptorCache
  MaxCmdOps : Nat
  DataTransform : Bool
  Driver : ProtocolDriver
  P : Platform
  CommandValueToReading : CommandValue → String → Reading
  Now : Int

/-- The result of a read dispatch: the event and error returned, the device
pointed to by `device` after the call, and the effects. -/
structure ReadResult where
  event : Option Event
  err : Option AppError
  device : Device
  effects : List Effect
deriving DecidableEq, Repr

/-- The first loop of `execReadCmd`: one request per operation, or `none` as
soon as an operation's device object is missing. -/
def buildReadRequests (env : Env) (device : Device) :
    List ResourceOperation → Option (List CommandRequest)
  | [] => some []
  | op :: ops =>
    match env.Profiles.DeviceObject device.ProfileName op.Object with
    | none => none
    | some devObj =>
      match buildReadRequests env device ops with
      | none => none
      | some reqs => some ({ RO := op, DeviceObject := devObj } :: reqs)

/-- The loop state of the second loop of `execReadCmd`. -/
structure ReadLoop where
  readings : List Reading
  transformsOK : Bool
  device : Device
  effects : List Effect
deriving DecidableEq, Repr

/-- The second loop of `execReadCmd` over the driver's results; `Sum.inl` is
the early return taken when a result's device object is missing, with the
state reached so far. -/
def readResultsLoop (env : Env) : List CommandValue → ReadLoop → ReadLoop ⊕ ReadLoop
  | [], st => .inr st
  | cv :: rest, st =>
    match env.Profiles.DeviceObject st.device.ProfileName cv.RO.Object with
    | none => .inl st
    | some dobj =>
      let t := if env.DataTransform then TransformReadResult env.P cv dobj.Value else (cv, none)
      let ok1 := st.transformsOK && t.2.isNone
      let a := CheckAssertion env.P t.1 dobj.Value.Assertion st.device
      let ok2 := ok1 && a.2.1.isNone
      let effects :=
        if a.2.2 then st.effects ++ [.updateOpState a.1.Name .Disabled] else st.effects
      let cv1 :=
        if t.1.RO.Mappings.length > 0 then
          match MapCommandValue env.P t.1 with
          | some newCV => newCV
          | none => t.1
        else t.1
      let reading := env.CommandValueToReading cv1 a.1.Name
      readResultsLoop env rest
        { readings := st.readings ++ [reading], transformsOK := ok2, device := a.1,
          effects := effects }

/-- The function `execReadCmd`. -/
def execReadCmd (env : Env) (device : Device) (cmd : String) : ReadResult :=
  match env.Profiles.ResourceOperations device.ProfileName cmd "get" with
  | .error _ => { event := none, err := some .NotFound, device := device, effects := [] }
  | .ok ros =>
    if ros.length > env.MaxCmdOps then
      { event := none, err := some .ServerError, device := device, effects := [] }
    else
      match buildReadRequests env device ros with
      | none => { event := none, err := some .ServerError, device := device, effects := [] }
      | some reqs =>
        match env.Driver.HandleReadCommands device.Addressable reqs with
        | .error _ =>
          { event := none, err := some .ServerError, device := device,
            effects := [.driverRead device.Addressable reqs] }
        | .ok results =>
          match readResultsLoop env results
              { readings := [], transformsOK := true, device := device,
                effects := [.driverRead device.Addressable reqs] } with
          | .inl st =>
            { event := none, err := some .ServerError, device := st.device,
              effects := st.effects }
          | .inr st =>
            let event : Event :=
              { Device := st.device.Name, Readings := st.readings, Origin := env.Now }
            { event := some event,
              err := if st.transformsOK then none else some .ServerError,
              device := st.device,
              effects := st.effects ++ [.sendEvent event] }

/-- A value of type `interface{}` as passed to `model.NewCommandValue`. -/
inductive ParamValue where
  | nil
  | string (s : String)
  | bool (b : Bool)
  | int (n : Int)
  | float (f : F64)
deriving DecidableEq, Repr

/-- Modelled from the spec: the constructor `model.NewCommandValue` (the
`model` package is not among the sources), which "construct[s] a
CommandValue" of the given type from the parsed value; a value that has no
fixed-width binary form for the type is an error. -/
def NewCommandValue (ro : ResourceOperation) (origin : Int) (value : ParamValue)
    (t : ValueType) : Except String CommandValue :=
  match t, value with
  | .String, .string s =>
    .ok { RO := ro, Origin := origin, Type_ := t, NumericValue := .empty, stringValue := s }
  | .String, _ => .error "NewCommandValue: not a string"
  | _, .bool b =>
    .ok { RO := ro, Origin := origin, Type_ := t, NumericValue := .bool b, stringValue := "" }
  | _, .int n =>
    .ok { RO := ro, Origin := origin, Type_ := t, NumericValue := .int n, stringValue := "" }
  | _, .float f =>
    .ok { RO := ro, Origin := origin, Type_ := t, NumericValue := .float f, stringValue := "" }
  | _, _ => .error "binary.Write: invalid type"

/-- The helper `roSliceToMap`: the operations keyed by parameter name. -/
def roSliceToMap (ros : List ResourceOperation) : GoMap ResourceOperation :=
  ros.foldl (fun roMap ro => GoMap.set roMap ro.Parameter ro) []

/-- The parse selected by the descriptor's type in
`createCommandValueForParam`: the parsed value and the value type; an unknown
type name leaves the value nil and the type at its zero value. -/
def parseParamValue (P : Platform) (typeName v : String) :
    Except String (ParamValue × ValueType) :=
  if typeName = "bool" then (P.ParseBool v).map (fun b => (.bool b, .Bool))
  else if typeName = "string" then .ok (.string v, .String)
  else if typeName = "uint8" then (P.ParseUint v 8).map (fun n => (.int n, .Uint8))
  else if typeName = "uint16" then (P.ParseUint v 16).map (fun n => (.int n, .Uint16))
  else if typeName = "uint32" then (P.ParseUint v 32).map (fun n => (.int n, .Uint32))
  else if typeName = "uint64" then (P.ParseUint v 64).map (fun n => (.int n, .Uint64))
  else if typeName = "int8" then (P.ParseInt v 8).map (fun n => (.int n, .Int8))
  else if typeName = "int16" then (P.ParseInt v 16).map (fun n => (.int n, .Int16))
  else if typeName = "int32" then (P.ParseInt v 32).map (fun n => (.int n, .Int32))
  else if typeName = "int64" then (P.ParseInt v 64).map (fun n => (.int n, .Int64))
  else if typeName = "float32" then (P.ParseFloat32 v).map (fun f => (.float f, .Float32))
  else if typeName = "float64" then (P.ParseFloat v).map (fun f => (.float f, .Float64))
  else .ok (.nil, .Bool)

/-- The function `createCommandValueForParam`. -/
def createCommandValueForParam (env : Env) (ro : ResourceOperation) (v : String) :
    Except String CommandValue :=
  match env.ValueDescriptors.ForName ro.Object with
  | none =>
    .error ("Handler - Command: The parameter " ++ ro.Parameter
      ++ " cannot find the matched Value Descriptor")
  | some vd =>
    match parseParamValue env.P (ToLower vd.TypeName) v with
    | .error err => .error err
    | .ok (value, t) => NewCommandValue ro env.Now value t

/-- The loops of `parseWriteParams` over the entries of the decoded maps, in
order; `result` is the slice built so far. -/
def parseWriteParamsLoop (env : Env) (roMap : GoMap ResourceOperation) :
    List (String × String) → List CommandValue → List CommandValue × Option String
  | [], result => (result, none)
  | (k, v) :: rest, result =>
    match GoMap.get roMap k with
    | some ro =>
      match createCommandValueForParam env ro v with
      | .ok cv => parseWriteParamsLoop env roMap rest (result ++ [cv])
      | .error err => (result, some err)
    | none => parseWriteParamsLoop env roMap rest result

/-- The function `parseWriteParams`. -/
def parseWriteParams (env : Env) (roMap : GoMap ResourceOperation) (params : String) :
    List CommandValue × Option String :=
  match env.P.Unmarshal params with
  | .error err => ([], some err)
  | .ok paramMaps => parseWriteParamsLoop env roMap paramMaps.flatten []

/-- The loop of `execWriteCmd` over `cvs`: the requests built and the slice
`cvs` after the loop.  The transform writes through the pointer held in the
slice; the mapped value is assigned to the loop variable `cv` only, which
nothing reads afterwards. -/
def writeValuesLoop (env : Env) (device : Device) :
    List CommandValue → Except AppError (List CommandRequest × List CommandValue)
  | [] => .ok ([], [])
  | cv :: rest =>
    match env.Profiles.DeviceObject device.ProfileName cv.RO.Object with
    | none => .error .ServerError
    | some devObj =>
      let t :=
        if env.DataTransform then TransformWriteParameter env.P cv devObj.Value else (cv, none)
      match t.2 with
      | some _ => .error .ServerError
      | none =>
        let _cv :=
          if t.1.RO.Mappings.length > 0 then
            match MapCommandValue env.P t.1 with
            | some newCV => newCV
            | none => t.1
          else t.1
        match writeValuesLoop env device rest with
        | .error err => .error err
        | .ok (reqs, cvs) => .ok ({ RO := cv.RO, DeviceObject := devObj } :: reqs, t.1 :: cvs)

/-- The function `execWriteCmd`: the error returned and the effects. -/
def execWriteCmd (env : Env) (device : Device) (cmd params : String) :
    Option AppError × List Effect :=
  match env.Profiles.ResourceOperations device.ProfileName cmd "set" with
  | .error _ => (some .BadRequest, [])
  | .ok ros =>
    if ros.length > env.MaxCmdOps then (some .ServerError, [])
    else
      match parseWriteParams env (roSliceToMap ros) params with
      | (_, some _) => (some .BadRequest, [])
      | (cvs, none) =>
        match writeValuesLoop env device cvs with
        | .error err => (some err, [])
        | .ok (reqs, cvs1) =>
          match env.Driver.HandleWriteCommands device.Addressable reqs cvs1 with
          | some _ => (some .ServerError, [.driverWrite device.Addressable reqs cvs1])
          | none => (none, [.driverWrite device.Addressable reqs cvs1])

/-- The result of `CommandHandler`: the event and error returned, the local
copy `d` of the device after the call (`none` when no device was found), and
the effects. -/
structure HandlerResult where
  event : Option Event
  err : Option AppError
  device : Option Device
  effects : List Effect
deriving DecidableEq, Repr

/-- The function `CommandHandler`, with `id` and `cmd` the entries `id` and
`command` of `vars`.  `ForId` hands out a copy of the cached device; neither
this function nor any function it calls invokes a mutating method of a cache,
so the caches after the call are those of `env`. -/
def CommandHandler (env : Env) (id cmd body method : String) : HandlerResult :=
  match env.Devices.ForId id with
  | none => { event := none, err := some .NotFound, device := none, effects := [] }
  | some d =>
    if d.AdminState = .Locked then
      { event := none, err := some .Locked, device := some d, effects := [] }
    else
      match env.Profiles.CommandExists d.ProfileName cmd with
      | .error _ =>
        { event := none, err := some .ServerError, device := some d, effects := [] }
      | .ok false =>
        { event := none, err := some .NotFound, device := some d, effects := [] }
      | .ok true =>
        if ToLower method = "get" then
          let r := execReadCmd env d cmd
          { event := r.event, err := r.err, device := some r.device, effects := r.effects }
        else
          let r := execWriteCmd env d cmd body
          { event := none, err := r.1, device := some d, effects := r.2 }

/-- Whether the effect is the launch of `common.SendEvent`. -/
def Effect.isSendEvent : Effect → Bool
  | .sendEvent _ => true
  | _ => false

/-- Whether the effect is a call of the driver's `HandleReadCommands` or
`HandleWriteCommands`. -/
def Effect.isDriverCall : Effect → Bool
  | .driverRead _ _ => true
  | .driverWrite _ _ _ => true
  | _ => false

/-- The function `filterOperationalDevices`. -/
def filterOperationalDevices : List Device → List Device
  | [] => []
  | d :: devices =>
    if d.AdminState = .Locked ∨ d.OperatingState = .Disabled then
      filterOperationalDevices devices
    else d :: filterOperationalDevices devices

/-- What one goroutine of `CommandAllHandler` sends on the channel
`cmdResults`. -/
structure CmdResult where
  event : Option Event
  appErr : Option AppError
deriving DecidableEq, Repr

/-- The body of the goroutine that `CommandAllHandler` starts for one device. -/
def dispatchToDevice (env : Env) (cmd body method : String) (device : Device) : CmdResult :=
  if ToLower method = "get" then
    let r := execReadCmd env device cmd
    { event := r.event, appErr := r.err }
  else { event := none, appErr := (execWriteCmd env device cmd body).1 }

/-- What the goroutine of a read sends: the event and the error returned by
`execReadCmd`. -/
def readOutcome (env : Env) (cmd : String) (device : Device) : CmdResult :=
  { event := (execReadCmd env device cmd).event, appErr := (execReadCmd env device cmd).err }

/-- The variables `errCount`, `getResults` and `appErr` of
`CommandAllHandler`. -/
structure Drain where
  errCount : Nat
  getResults : List Event
  appErr : Option AppError
deriving DecidableEq, Repr

/-- The loop of `CommandAllHandler` that drains the closed channel. -/
def drainResults : List CmdResult → Drain → Drain
  | [], st => st
  | r :: rest, st =>
    match r.appErr with
    | some err =>
      drainResults rest
        { errCount := st.errCount + 1, getResults := st.getResults, appErr := some err }
    | none =>
      match r.event with
      | some event => drainResults rest { st with getResults := st.getResults ++ [event] }
      | none => drainResults rest st

/-- The function `CommandAllHandler`.  One goroutine per operational device
runs the dispatch and sends its result; the handler waits for all of them and
then drains the channel.  `completion` lists the devices in the order in which
their goroutines sent their results, a permutation of the operational devices:
the dispatches read the caches and mutate none, so that order is all that the
schedule decides. -/
def CommandAllHandler (env : Env) (cmd body method : String) (completion : List Device) :
    List Event × Option AppError :=
  let devices := filterOperationalDevices env.Devices.All
  let devCount := devices.length
  let cmdResults := completion.map (dispatchToDevice env cmd body method)
  let st := drainResults cmdResults { errCount := 0, getResults := [], appErr := none }
  (st.getResults, if st.errCount < devCount then none else st.appErr)

/-- The goroutine that sends next: the one at position `k` among the
goroutines still running, the last one when `k` is past the end; and the
others, in launch order. -/
def takeOut {α : Type} : Nat → α → List α → α × List α
  | 0, x, xs => (x, xs)
  | _ + 1, x, [] => (x, [])
  | k + 1, x, y :: ys => ((takeOut k y ys).1, x :: (takeOut k y ys).2)

/-- An order in which the goroutines launched send their outcomes to the
channel: `schedule` names, step by step, which of the goroutines still running
sends next; when the schedule ends early the others send in launch order. -/
def arrivalOrder {α : Type} : List Nat → List α → List α
  | _, [] => []
  | [], x :: xs => x :: xs
  | k :: schedule, x :: xs =>
    (takeOut k x xs).1 :: arrivalOrder schedule (takeOut k x xs).2

/-- The launch loop of `CommandAllHandler`,
`for i, _ := range devices { go func(device *models.Device) {...}(devices[i]) }`:
one goroutine per element of `devices`, which runs one dispatch on its device
and sends the outcome.  The goroutines launched, in launch order, each with
its device and the outcome it sends. -/
def launchDispatches (env : Env) (cmd body method : String) (devices : List Device) :
    List (Device × CmdResult) :=
  devices.map (fun d => (d, dispatchToDevice env cmd body method d))

/-- The function `CommandAllHandler` from its first statement, under a schedule
of the goroutines it launches: the devices dispatched to with their outcomes,
in the order in which they reach the channel, and the events and the error
returned. -/
def CommandAllHandlerScheduled (env : Env) (cmd body method : String)
    (schedule : List Nat) : List (Device × CmdResult) × List Event × Option AppError :=
  let devices := filterOperationalDevices env.Devices.All
  let devCount := devices.length
  let arrived := arrivalOrder schedule (launchDispatches env cmd body method devices)
  let st := drainResults (arrived.map (fun x => x.2))
    { errCount := 0, getResults := [], appErr := none }
  (arrived, st.getResults, if st.errCount < devCount then none else st.appErr)

/-! ## Asynchronous ingestion (`async.go`) -/

/-- A batch pushed by the driver, `model.AsyncValues`. -/
structure AsyncValues where
  DeviceName : String
  CommandValues : List CommandValue
deriving DecidableEq, Repr

/-- The inner loop of `processAsyncResults` over the values of one batch. -/
def asyncValuesLoop (env : Env) : List CommandValue → ReadLoop → ReadLoop
  | [], st => st
  | cv :: rest, st =>
    match env.Profiles.DeviceObject st.device.ProfileName cv.RO.Object with
    | none => asyncValuesLoop env rest st
    | some dobj =>
      let t := if env.DataTransform then TransformReadResult env.P cv dobj.Value else (cv, none)
      let a := CheckAssertion env.P t.1 dobj.Value.Assertion st.device
      let effects :=
        if a.2.2 then st.effects ++ [.updateOpState a.1.Name .Disabled] else st.effects
      let cv1 :=
        if t.1.RO.Mappings.length > 0 then
          match MapCommandValue env.P t.1 with
          | some newCV => newCV
          | none => t.1
        else t.1
      let reading := env.CommandValueToReading cv1 a.1.Name
      asyncValuesLoop env rest
        { readings := st.readings ++ [reading],
          transformsOK := st.transformsOK && t.2.isNone && a.2.1.isNone,
          device := a.1, effects := effects }

/-- One iteration of the loop of `processAsyncResults` on the batch received
from the channel: `none` when the device is unknown, otherwise the loop state
at the end of the batch, whose effects end with the submission of the event.
The field `transformsOK` has no counterpart in the source (failures are only
logged); it records whether a transform or assertion failed. -/
def processAsyncBatch (env : Env) (acv : AsyncValues) : Option ReadLoop :=
  match env.Devices.ForName acv.DeviceName with
  | none => none
  | some device =>
    let st := asyncValuesLoop env acv.CommandValues
      { readings := [], transformsOK := true, device := device, effects := [] }
    some { st with
      effects := st.effects ++
        [.sendEvent { Device := acv.DeviceName, Readings := st.readings, Origin := 0 }] }

/-- The loop of `processAsyncResults` over the batches it receives from the
channel while the service is not stopped, in the order received: the effects
of the iterations, in program order.  An iteration whose device is unknown
takes the `continue`.  No iteration invokes a mutating method of a cache, so
every iteration reads the caches of `env`. -/
def processAsyncResults (env : Env) : List AsyncValues → List Effect
  | [] => []
  | acv :: rest =>
    match processAsyncBatch env acv with
    | none => processAsyncResults env rest
    | some st => st.effects ++ processAsyncResults env rest

/-! ## The service constructor (`service.go`) -/

/-- The structure `Service`, as `NewService` creates it: every field has its
zero value (the fields that hold interfaces, channels and pointers are nil and
are not modelled). -/
structure Service where
  initAttempts : Int
  initialized : Bool
  stopped : Bool
deriving DecidableEq, Repr

/-- The package-level variables `NewService` reads and assigns: `svc`,
`common.ServiceName` and `common.Driver`. -/
structure Globals where
  svc : Option Service
  ServiceName : String
  Driver : Option ProtocolDriver

/-- The function `NewService`: the package-level variables after the call and
the service or the error returned; `proto` is `none` for a nil driver. -/
def NewService (g : Globals) (proto : Option ProtocolDriver) :
    Globals × Except String Service :=
  if g.svc ≠ none then (g, .error "NewService: service already exists!\n")
  else if g.ServiceName.length = 0 then (g, .error "NewService: empty name specified\n")
  else
    match proto with
    | none => (g, .error "NewService: no Driver specified\n")
    | some driver =>
      ({ g with
          svc := some { initAttempts := 0, initialized := false, stopped := false },
          Driver := some driver },
        .ok { initAttempts := 0, initialized := false, stopped := false })

/-- The derived indices agree with the stored profiles: under the name of
every profile of `dpMap`, each index holds the map built from that profile. -/
def profileCache.Derived (p : profileCache) : Prop :=
  ∀ name P, GoMap.get p.dpMap name = some P →
    GoMap.get p.doMap name = some (deviceObjectSliceToMap P.DeviceResources) ∧
    GoMap.get p.getOpMap name = some (profileResourceSliceToMaps P.Resources).1 ∧
    GoMap.get p.setOpMap name = some (profileResourceSliceToMaps P.Resources).2 ∧
    GoMap.get p.cmdMap name = some (commandSliceToMap P.Commands)

/-- The value that `parseWriteParams` builds for one entry of the body: the
value created from the entry when its key matches an operation, none for an
unmatched key (or a value that cannot be created). -/
def paramValueFor (env : Env) (roMap : GoMap ResourceOperation) (kv : String × String) :
    Option CommandValue :=
  match GoMap.get roMap kv.1 with
  | none => none
  | some ro =>
    match createCommandValueForParam env ro kv.2 with
    | .ok cv => some cv
    | .error _ => none

/-- A numeric command value: its type is neither String nor Bool, the test
both transforms start with. -/
def CommandValue.IsNumeric (cv : CommandValue) : Prop :=
  cv.Type_ ≠ .String ∧ cv.Type_ ≠ .Bool

/-- The stored value decodes to the declared type: `commandValueToFloat64`
returns a value. -/
def CommandValue.Decodes (cv : CommandValue) : Prop :=
  ∃ v, commandValueToFloat64 cv = .ok v

/-- A non-empty parameter string that fails to parse as a float64. -/
def ParseFails (P : Platform) (param : String) : Prop :=
  param ≠ "" ∧ ∃ err, P.ParseFloat param = .error err

/-- What one transform step does to the value `c`: a step that returns an
error leaves the value as it found it; operation, origin and type are kept; a
step that returns no error on a numeric value that decodes leaves a value that
decodes; and on such a value the step returns an error exactly when `fails`
holds. -/
def StepOutcome (fails : Prop) (c : CommandValue) (r : CommandValue × Option String) :
    Prop :=
  (r.2.isSome = true → r.1 = c) ∧
  (r.1.RO = c.RO ∧ r.1.Origin = c.Origin ∧ r.1.Type_ = c.Type_) ∧
  (c.IsNumeric → c.Decodes → r.2 = none → r.1.Decodes) ∧
  (c.IsNumeric → c.Decodes → (r.2.isSome = true ↔ fails))

/-- Three steps run in order on the value each one leaves, stopping at the
first error: the shape `TransformReadResult` and `TransformWriteParameter`
share after their type test. -/
def threeSteps (s1 s2 s3 : CommandValue → CommandValue × Option String)
    (cv : CommandValue) : CommandValue × Option String :=
  match (s1 cv).2 with
  | some err => ((s1 cv).1, some err)
  | none =>
    match (s2 (s1 cv).1).2 with
    | some err => ((s2 (s1 cv).1).1, some err)
    | none => s3 (s2 (s1 cv).1).1

/-- The read steps of a property value, each skipped when its string is
empty. -/
def readSteps (P : Platform) (pv : PropertyValue) (c : CommandValue) :
    CommandValue × Option String :=
  threeSteps
    (fun c => if pv.Base ≠ "" then transformReadBase P c pv.Base else (c, none))
    (fun c => if pv.Scale ≠ "" then transformReadScale P c pv.Scale else (c, none))
    (fun c => if pv.Offset ≠ "" then transformReadOffset P c pv.Offset else (c, none)) c

/-- The write steps of a property value, each skipped when its string is
empty. -/
def writeSteps (P : Platform) (pv : PropertyValue) (c : CommandValue) :
    CommandValue × Option String :=
  threeSteps
    (fun c => if pv.Offset ≠ "" then transformWriteOffset P c pv.Offset else (c, none))
    (fun c => if pv.Scale ≠ "" then transformWriteScale P c pv.Scale else (c, none))
    (fun c => if pv.Base ≠ "" then transformWriteBase P c pv.Base else (c, none)) c

/-! ## The per-value pipeline of a read, as the specification words it -/

/-- The value after the read transform: the transform's output when
transforms are enabled, the driver's value otherwise. -/
def readTransformed (env : Env) (dobj : DeviceObject) (cv : CommandValue) : CommandValue :=
  if env.DataTransform then (TransformReadResult env.P cv dobj.Value).1 else cv

/-- Value mapping: "a hit replaces the value with a new string-typed
CommandValue carrying the mapped string; a miss leaves the value unchanged". -/
def substituteMapping (P : Platform) (cv : CommandValue) : CommandValue :=
  match GoMap.get cv.RO.Mappings (P.ValueToString cv) with
  | some mappedString => NewStringValue cv.RO cv.Origin mappedString
  | none => cv

/-- The transform of the value was enabled and returned an error. -/
def transformFailed (env : Env) (dobj : DeviceObject) (cv : CommandValue) : Bool :=
  env.DataTransform && (TransformReadResult env.P cv dobj.Value).2.isSome

/-- The object declares an assertion and the string form of the value after
the transform differs from it. -/
def assertionFailed (env : Env) (dobj : DeviceObject) (cv : CommandValue) : Bool :=
  decide (dobj.Value.Assertion ≠ "" ∧
    env.P.ValueToString (readTransformed env dobj cv) ≠ dobj.Value.Assertion)

/-- The reading produced for one value of a read: transform, then mapping,
then conversion; `none` when the value's device object does not resolve. -/
def readingFor (env : Env) (profileName deviceName : String) (cv : CommandValue) :
    Option Reading :=
  match env.Profiles.DeviceObject profileName cv.RO.Object with
  | none => none
  | some dobj =>
    some (env.CommandValueToReading
      (substituteMapping env.P (readTransformed env dobj cv)) deviceName)

/-- The value's device object resolves and its transform or its assertion
failed. -/
def valueFailed (env : Env) (profileName : String) (cv : CommandValue) : Bool :=
  match env.Profiles.DeviceObject profileName cv.RO.Object with
  | none => false
  | some dobj => transformFailed env dobj cv || assertionFailed env dobj cv

/-- The value's device object resolves and its assertion failed. -/
def valueAssertionFailed (env : Env) (profileName : String) (cv : CommandValue) : Bool :=
  match env.Profiles.DeviceObject profileName cv.RO.Object with
  | none => false
  | some dobj => assertionFailed env dobj cv

/-- The double that the next transform step reads back after a step stored
`f` in a value of type `t`: `f` narrowed to `t` and widened again. -/
def narrowed (P : Platform) (t : ValueType) (f : F64) : F64 :=
  match t with
  | .Float32 => f.toFloat32
  | .Float64 => f
  | t =>
    match t.intRange with
    | some (lo, hi) => F64.ofInt (convertToInt P t lo hi f)
    | none => f

/-- The correction parameter `param` is empty and stands for the neutral
value `dflt`, or it parses to a double whose value is the integer `k`. -/
def ParamIs (P : Platform) (param : String) (dflt k : Int) : Prop :=
  (param = "" ∧ k = dflt) ∨
    (param ≠ "" ∧ ∃ f, P.ParseFloat param = .ok f ∧ f.toInt? = some k)

/-- The base step is off: `Base` is empty or parses to zero. -/
def BaseOff (P : Platform) (base : String) : Prop :=
  base = "" ∨ ∃ b, P.ParseFloat base = .ok b ∧ b.isZero = true

/-- The integer that the base step of a read leaves for the integer `v` of a
type with the range `lo..hi`: `v` when the step is off (`Base` empty or zero),
otherwise `Pow(Base, v)` converted to the type. -/
def baseRead (P : Platform) (base : String) (t : ValueType) (lo hi v : Int) : Int :=
  if base = "" then v
  else
    match P.ParseFloat base with
    | .ok b => if b.isZero then v else convertToInt P t lo hi (P.Pow b (F64.ofInt v))
    | .error _ => v

/-- The integer that the base step of a write leaves for the integer `p` of a
type with the range `lo..hi`: `p` when the step is off, otherwise the quotient
`Log(p) / Log(Base)`, computed in double precision, converted to the type. -/
def baseWrite (P : Platform) (base : String) (t : ValueType) (lo hi p : Int) : Int :=
  if base = "" then p
  else
    match P.ParseFloat base with
    | .ok b =>
      if b.isZero then p
      else convertToInt P t lo hi (F64.div (P.Log (F64.ofInt p)) (P.Log b))
    | .error _ => p

/-! ## A reference platform for worked examples -/

/-- The number written by a list of decimal digits; `none` if a character is
not a digit. -/
def digitsValue (cs : List Char) : Option Nat :=
  cs.foldl
    (fun acc c =>
      match acc with
      | none => none
      | some n => if c.isDigit then some (10 * n + (c.toNat - 48)) else none)
    (some 0)

/-- A parser that agrees with `strconv.ParseFloat(s, 64)` on plain decimal
literals, an optional sign, digits and an optional fraction (`"10"`, `"-0"`,
`"0.5"`): the literal's exact value, correctly rounded.  Every other string is
rejected, so it is used on such literals only. -/
def parseDecimal (s : String) : Except String F64 :=
  let cs := s.toList
  let sign : Bool × List Char :=
    match cs with
    | '-' :: r => (true, r)
    | '+' :: r => (false, r)
    | r => (false, r)
  let ip := sign.2.takeWhile (fun c => c ≠ '.')
  let rest := sign.2.dropWhile (fun c => c ≠ '.')
  let fp := rest.drop 1
  if ip = [] ∨ (rest ≠ [] ∧ fp = []) then .error "strconv.ParseFloat: invalid syntax"
  else
    match digitsValue ip, digitsValue fp with
    | some a, some b =>
      let n := a * 10 ^ fp.length + b
      if n = 0 then .ok (.fin sign.1 0 0)
      else
        match F64.divRound sign.1 n (10 ^ fp.length) 0 with
        | .fin neg m e => .ok (.fin neg m e)
        | _ => .error "strconv.ParseFloat: value out of range"
    | _, _ => .error "strconv.ParseFloat: invalid syntax"

/-- A string rendering for worked examples: a string value is itself, a
boolean is `true` or `false`, an integer is written in decimal.  The rendering
of floating-point values is left out (no example uses one). -/
def sampleValueToString (cv : CommandValue) : String :=
  if cv.Type_ = .String then cv.stringValue
  else
    match cv.NumericValue with
    | .bool b => if b then "true" else "false"
    | .int n => toString n
    | _ => ""

/-- The platform used in worked examples.  Of `math.Pow` only the special
cases that its documentation fixes are modelled (`Pow(x, ±0) = 1`,
`Pow(1, y) = 1`, `Pow(x, 1) = x`); NaN stands in for every other result of
`math.Pow` and for `math.Log`, and no example goes through them.  Conversions that overflow give `0`.  The integer parsers
read unsigned decimal digits without a range check, and the JSON decoder is a
stand-in that examples replace by the decoded body. -/
def samplePlatform : Platform :=
  { ParseFloat := parseDecimal,
    Pow := fun x y =>
      if y.isZero ∨ x.toInt? = some 1 then F64.ofInt 1
      else if y.toInt? = some 1 then x
      else .nan,
    Log := fun _ => .nan,
    ConvertOverflow := fun _ _ => 0,
    ValueToString := sampleValueToString,
    Unmarshal := fun _ => .error "json: not modelled",
    ParseBool := fun s =>
      if s = "true" then .ok true else if s = "false" then .ok false
      else .error "strconv.ParseBool: invalid syntax",
    ParseUint := fun s _ =>
      match digitsValue s.toList with
      | some n => if s = "" then .error "strconv.ParseUint: invalid syntax" else .ok (n : Int)
      | none => .error "strconv.ParseUint: invalid syntax",
    ParseInt := fun s _ =>
      match digitsValue s.toList with
      | some n => if s = "" then .error "strconv.ParseInt: invalid syntax" else .ok (n : Int)
      | none => .error "strconv.ParseInt: invalid syntax",
    ParseFloat32 := fun s =>
      match parseDecimal s with
      | .ok f => .ok f.toFloat32
      | .error err => .error err }

/-- A resource operation on the object `temperature` without mappings. -/
def roTemperature : ResourceOperation :=
  { Object := "temperature", Parameter := "temperature", Mappings := [] }

/-- An `int32` command value holding `n`. -/
def int32Value (n : Int) : CommandValue :=
  { RO := roTemperature, Origin := 1, Type_ := .Int32, NumericValue := .int n,
    stringValue := "" }

/-! ## Sample data -/

/-- A sample device named `thermostat` with id `5b1`. -/
def devThermostat : Device :=
  { Id := "5b1", Name := "thermostat", AdminState := .Unlocked,
    OperatingState := .Enabled, ProfileName := "hvac", Addressable := "addr-1" }

/-- A sample device named `valve` with id `5b2`. -/
def devValve : Device :=
  { Id := "5b2", Name := "valve", AdminState := .Unlocked,
    OperatingState := .Enabled, ProfileName := "hvac", Addressable := "addr-2" }

/-- The device `5b2` renamed to `valve-2`. -/
def devValveRenamed : Device := { devValve with Name := "valve-2" }

/-- The device `5b1` renamed to `valve`, the name of another device. -/
def devThermostatAsValve : Device := { devThermostat with Name := "valve" }

/-- A resource operation on the object `switch` that maps `1` to `ON` and `0`
to `OFF`. -/
def roSwitch : ResourceOperation :=
  { Object := "switch", Parameter := "switch", Mappings := [("1", "ON"), ("0", "OFF")] }

/-- A profile named `hvac` with the objects `temperature` (no correction, no
assertion) and `switch` (asserted to read `0`), and the commands `temp` and
`power`. -/
def profileHvac : DeviceProfile :=
  { Id := "7a1", Name := "hvac",
    DeviceResources :=
      [{ Name := "temperature",
         Value := { Base := "", Scale := "", Offset := "", Assertion := "" } },
       { Name := "switch",
         Value := { Base := "", Scale := "", Offset := "", Assertion := "0" } }],
    Resources :=
      [{ Name := "temp", Get := [roTemperature], Set := [roTemperature] },
       { Name := "power", Get := [roSwitch], Set := [roSwitch] }],
    Commands := [{ Name := "temp" }, { Name := "power" }] }

/-- An `int32` command value of the operation `roSwitch` holding `n`. -/
def switchValue (n : Int) : CommandValue :=
  { RO := roSwitch, Origin := 1, Type_ := .Int32, NumericValue := .int n, stringValue := "" }

/-- A driver that answers every read with the single switch value `1` and
accepts every write. -/
def sampleDriver : ProtocolDriver :=
  { HandleReadCommands := fun _ _ => .ok [switchValue 1],
    HandleWriteCommands := fun _ _ _ => none }

/-- A reading for worked examples: the object name, the value's string form
and the value's origin. -/
def sampleCommandValueToReading (cv : CommandValue) (devName : String) : Reading :=
  { Device := devName, Name := cv.RO.Object, Value := sampleValueToString cv,
    Origin := cv.Origin }

/-- The sample platform with a JSON decoder that knows the one write body
`[{"switch":"1"}]`. -/
def samplePlatformJson : Platform :=
  { samplePlatform with
    Unmarshal := fun s =>
      if s = "[\x7b\"switch\":\"1\"\x7d]" then .ok [[("switch", "1")]]
      else .error "json: cannot unmarshal" }

/-- An environment with the devices `thermostat` and `valve`, the profile
`hvac`, int32 descriptors for both objects, the given operation ceiling and
transform switch. -/
def sampleEnv (maxCmdOps : Nat) (dataTransform : Bool) : Env :=
  { Devices := newDeviceCache [devThermostat, devValve],
    Profiles := newProfileCache [profileHvac],
    ValueDescriptors :=
      newValueDescriptorCache
        [{ Name := "temperature", TypeName := "Int32" }, { Name := "switch", TypeName := "Int32" }],
    MaxCmdOps := maxCmdOps,
    DataTransform := dataTransform,
    Driver := sampleDriver,
    P := samplePlatformJson,
    CommandValueToReading := sampleCommandValueToReading,
    Now := 1 }

/-- A parser that agrees with `strconv.ParseUint(s, 10, bitSize)` on strings of
decimal digits: the number, or a range error when it does not fit in
`bitSize` bits; every other string is a syntax error. -/
def parseUintDecimal (s : String) (bitSize : Nat) : Except String Int :=
  if s = "" then .error "strconv.ParseUint: invalid syntax"
  else
    match digitsValue s.toList with
    | none => .error "strconv.ParseUint: invalid syntax"
    | some n =>
      if n < 2 ^ bitSize then .ok (n : Int) else .error "strconv.ParseUint: value out of range"

/-- A parser that agrees with `strconv.ParseInt(s, 10, bitSize)` on strings of
decimal digits with an optional sign. -/
def parseIntDecimal (s : String) (bitSize : Nat) : Except String Int :=
  let sign : Bool × List Char :=
    match s.toList with
    | '-' :: r => (true, r)
    | '+' :: r => (false, r)
    | r => (false, r)
  if sign.2 = [] then .error "strconv.ParseInt: invalid syntax"
  else
    match digitsValue sign.2 with
    | none => .error "strconv.ParseInt: invalid syntax"
    | some n =>
      let v : Int := if sign.1 then -(n : Int) else (n : Int)
      if -(2 ^ (bitSize - 1) : Int) ≤ v ∧ v < 2 ^ (bitSize - 1) then .ok v
      else .error "strconv.ParseInt: value out of range"

/-- The sample platform with range-checked integer parsers and a JSON decoder
that knows the write bodies `[{"switch":"1"}]`, `[{"switch":"abc"}]` and
`[{"switch":"300"}]`. -/
def samplePlatformBodies : Platform :=
  { samplePlatform with
    ParseUint := parseUintDecimal,
    ParseInt := parseIntDecimal,
    Unmarshal := fun s =>
      if s = "[\x7b\"switch\":\"1\"\x7d]" then .ok [[("switch", "1")]]
      else if s = "[\x7b\"switch\":\"abc\"\x7d]" then .ok [[("switch", "abc")]]
      else if s = "[\x7b\"switch\":\"300\"\x7d]" then .ok [[("switch", "300")]]
      else .error "json: cannot unmarshal" }

/-- The device `valve`, locked. -/
def devValveLocked : Device := { devValve with AdminState := .Locked }

/-- The device `valve` with a profile name that no cached profile has. -/
def devValveOrphan : Device := { devValve with ProfileName := "ghost" }

/-- A sample device named `pump` with id `5b3`. -/
def devPump : Device :=
  { Id := "5b3", Name := "pump", AdminState := .Unlocked,
    OperatingState := .Enabled, ProfileName := "hvac", Addressable := "addr-3" }

/-- The profile `hvac` with a further declared command `reset` that has no
profile resource. -/
def profileHvacReset : DeviceProfile :=
  { profileHvac with Commands := [{ Name := "temp" }, { Name := "power" }, { Name := "reset" }] }

/-- The profile `hvac` renamed to `hvac-2`. -/
def profileHvacRenamed : DeviceProfile := { profileHvac with Name := "hvac-2" }

/-- The profile `hvac` with a Scale of `0` on the object `switch` and no
assertion. -/
def profileHvacScaleZero : DeviceProfile :=
  { profileHvac with
    DeviceResources :=
      [{ Name := "temperature",
         Value := { Base := "", Scale := "", Offset := "", Assertion := "" } },
       { Name := "switch",
         Value := { Base := "", Scale := "0", Offset := "", Assertion := "" } }] }

/-- A driver whose reads return the temperature 21, except at the address
`addr-3`, where they fail; it accepts every write. -/
def sampleDriverByAddr : ProtocolDriver :=
  { HandleReadCommands := fun addr _ =>
      if addr = "addr-3" then .error "timeout" else .ok [int32Value 21],
    HandleWriteCommands := fun _ _ _ => none }

/-- The sample environment with the devices `thermostat`, `valve` and `pump`
and the driver that fails at the pump's address. -/
def sampleEnvThree : Env :=
  { sampleEnv 5 true with
    Devices := newDeviceCache [devThermostat, devValve, devPump],
    Driver := sampleDriverByAddr }

/-- A string command value of the operation `roSwitch`. -/
def switchText (text : String) : CommandValue := NewStringValue roSwitch 1 text

/-- A property value whose Base and Offset do not parse and whose Scale is
zero. -/
def malformedProperty : PropertyValue :=
  { Base := "x", Scale := "0", Offset := "1e", Assertion := "" }

/-- A driver that answers every read with the single switch value `2`, for
which the operation `roSwitch` has no mapping. -/
def sampleDriverTwo : ProtocolDriver :=
  { HandleReadCommands := fun _ _ => .ok [switchValue 2],
    HandleWriteCommands := fun _ _ _ => none }

/-- A batch pushed for a device name that the sample caches do not hold. -/
def batchGhost : AsyncValues := { DeviceName := "ghost", CommandValues := [switchValue 1] }

/-- A batch pushed for the device `thermostat`. -/
def batchThermostat : AsyncValues :=
  { DeviceName := "thermostat", CommandValues := [switchValue 0] }

/-- A resource operation on the object `humidity`, which the sample profiles
do not declare. -/
def roHumidity : ResourceOperation :=
  { Object := "humidity", Parameter := "humidity", Mappings := [] }

/-- The profile `hvac` whose command `temp` reads `temperature` and then the
undeclared object `humidity`. -/
def profileHvacPartial : DeviceProfile :=
  { profileHvac with
    Resources :=
      [{ Name := "temp", Get := [roTemperature, roHumidity], Set := [roTemperature] },
       { Name := "power", Get := [roSwitch], Set := [roSwitch] }] }

/-- A device named `boiler` that is unlocked and disabled. -/
def devBoilerDisabled : Device :=
  { Id := "5b4", Name := "boiler", AdminState := .Unlocked,
    OperatingState := .Disabled, ProfileName := "hvac", Addressable := "addr-4" }

/-- A batch for `thermostat` with a value of the undeclared object `humidity`
between two switch values. -/
def batchMixed : AsyncValues :=
  { DeviceName := "thermostat",
    CommandValues :=
      [switchValue 0,
       { RO := roHumidity, Origin := 1, Type_ := .Int32, NumericValue := .int 40,
         stringValue := "" },
       switchValue 1] }

/-- The sample platform with a JSON decoder that knows two write bodies with
the key `fan`, which matches no operation: `[{"fan":"1"},{"switch":"1"}]` and
`[{"fan":"1"}]`. -/
def samplePlatformKeys : Platform :=
  { samplePlatformBodies with
    Unmarshal := fun s =>
      if s = "[\x7b\"fan\":\"1\"\x7d,\x7b\"switch\":\"1\"\x7d]" then
        .ok [[("fan", "1")], [("switch", "1")]]
      else if s = "[\x7b\"fan\":\"1\"\x7d]" then .ok [[("fan", "1")]]
      else .error "json: cannot unmarshal" }

/-- A driver that answers every read with the two temperatures 21 and 22. -/
def sampleDriverPair : ProtocolDriver :=
  { HandleReadCommands := fun _ _ => .ok [int32Value 21, int32Value 22],
    HandleWriteCommands := fun _ _ _ => none }

/-- The profile `hvac` whose object `temperature` declares the Scale `2` and
an Offset that does not parse. -/
def profileHvacBadOffset : DeviceProfile :=
  { profileHvac with
    DeviceResources :=
      [{ Name := "temperature",
         Value := { Base := "", Scale := "2", Offset := "x", Assertion := "" } },
       { Name := "switch",
         Value := { Base := "", Scale := "", Offset := "", Assertion := "0" } }] }

/-- A second operation on the object `switch`, without mappings and with the
parameter `toggle`. -/
def roSwitchPlain : ResourceOperation :=
  { Object := "switch", Parameter := "toggle", Mappings := [] }

/-- The profile `hvac` with a further command `toggle` that reads `switch`
through the same operation as `power`. -/
def profileHvacSameSwitch : DeviceProfile :=
  { profileHvac with
    Resources :=
      [{ Name := "power", Get := [roSwitch], Set := [roSwitch] },
       { Name := "toggle", Get := [roSwitch], Set := [roSwitch] }] }

/-- The profile `hvac` with a further command `toggle` that reads `switch`
through another operation than `power`. -/
def profileHvacTwoSwitch : DeviceProfile :=
  { profileHvac with
    Resources :=
      [{ Name := "power", Get := [roSwitch], Set := [roSwitch] },
       { Name := "toggle", Get := [roSwitchPlain], Set := [roSwitchPlain] }] }

/-- The sample platform with a JSON decoder that knows the body `null`:
`json.Unmarshal` documents that the JSON null value unmarshals into a slice by
setting it to nil, and it returns no error. -/
def samplePlatformNull : Platform :=
  { samplePlatformBodies with
    Unmarshal := fun s =>
      if s = "null" then .ok []
      else .error "json: cannot unmarshal" }

/-- The sample platform with the values that Go's `math.Pow` and `math.Log`
return at the points of the worked examples: `Pow(10, 2)` is 100 and
`Pow(10, 3)` is 1000, both exact; `Log(10)` is 2.302585092994046
(`0x1.26bb1bbb55516p+1`), `Log(100)` is 4.605170185988092
(`0x1.26bb1bbb55516p+2`) and `Log(1000)` is 6.907755278982137
(`0x1.ba18a998fffa0p+2`), the doubles nearest to the logarithms. -/
def samplePlatformMath : Platform :=
  { samplePlatform with
    Pow := fun x y =>
      if x.toInt? = some 10 ∧ y.toInt? = some 2 then F64.ofInt 100
      else if x.toInt? = some 10 ∧ y.toInt? = some 3 then F64.ofInt 1000
      else samplePlatform.Pow x y,
    Log := fun x =>
      if x.toInt? = some 10 then .fin false 0x126bb1bbb55516 (-51)
      else if x.toInt? = some 100 then .fin false 0x126bb1bbb55516 (-50)
      else if x.toInt? = some 1000 then .fin false 0x1ba18a998fffa0 (-50)
      else .nan }

/-! # Theorems -/

/-! ## Lemmas on Go maps -/

namespace GoMap

@[simp] theorem get_nil {α : Type} (k : String) : get ([] : GoMap α) k = none := rfl

theorem get_del_self {α : Type} (m : GoMap α) (k : String) : get (del m k) k = none := by
  induction m with
  | nil => rfl
  | cons p m ih =>
    obtain ⟨a, b⟩ := p
    by_cases h : a = k
    · simp [del, h, ih]
    · simp [del, get, h, ih]

theorem get_del_ne {α : Type} (m : GoMap α) {k j : String} (h : k ≠ j) :
    get (del m k) j = get m j := by
  induction m with
  | nil => rfl
  | cons p m ih =>
    obtain ⟨a, b⟩ := p
    by_cases hak : a = k
    · have haj : a ≠ j := by rw [hak]; exact h
      simp [del, get, hak, ih, h]
    · by_cases haj : a = j
      · subst haj
        simp [del, get, hak]
      · simp [del, get, hak, haj, ih]

theorem get_del {α : Type} (m : GoMap α) (k j : String) :
    get (del m k) j = if k = j then none else get m j := by
  by_cases h : k = j
  · subst h; simp [get_del_self]
  · simp [h, get_del_ne m h]

theorem get_set_self {α : Type} (m : GoMap α) (k : String) (v : α) :
    get (set m k v) k = some v := by
  simp [set, get]

theorem get_set_ne {α : Type} (m : GoMap α) {k j : String} (v : α) (h : k ≠ j) :
    get (set m k v) j = get m j := by
  simp [set, get, h, get_del_ne m h]

theorem get_set {α : Type} (m : GoMap α) (k j : String) (v : α) :
    get (set m k v) j = if k = j then some v else get m j := by
  by_cases h : k = j
  · subst h; simp [get_set_self]
  · simp [h, get_set_ne m v h]

end GoMap

/-! ## Device cache: name-keyed entries -/

theorem deviceCache.nameKeyed_set (m : GoMap Device) (device : Device)
    (h : ∀ k dev, GoMap.get m k = some dev → dev.Name = k) :
    ∀ k dev, GoMap.get (GoMap.set m device.Name device) k = some dev → dev.Name = k := by
  intro k dev hk
  rw [GoMap.get_set] at hk
  split at hk
  · rename_i heq
    cases hk
    exact heq
  · exact h k dev hk

theorem deviceCache.nameKeyed_del (m : GoMap Device) (name : String)
    (h : ∀ k dev, GoMap.get m k = some dev → dev.Name = k) :
    ∀ k dev, GoMap.get (GoMap.del m name) k = some dev → dev.Name = k := by
  intro k dev hk
  rw [GoMap.get_del] at hk
  split at hk
  · cases hk
  · exact h k dev hk

theorem deviceCache.nameKeyed_removeByName (d : deviceCache) (name : String)
    (h : d.NameKeyed) : (d.RemoveByName name).1.NameKeyed := by
  unfold deviceCache.RemoveByName
  split
  · exact h
  · exact deviceCache.nameKeyed_del d.dMap name h

theorem deviceCache.nameKeyed_step (d : deviceCache) (op : DeviceOp) (h : d.NameKeyed) :
    (d.step op).NameKeyed := by
  cases op with
  | add device =>
    show (d.Add device).1.NameKeyed
    unfold deviceCache.Add
    split
    · exact h
    · exact deviceCache.nameKeyed_set d.dMap device h
  | update device =>
    show (d.Update device).1.NameKeyed
    unfold deviceCache.Update
    split
    · exact h
    · split
      · exact h
      · exact deviceCache.nameKeyed_set _ device (deviceCache.nameKeyed_del d.dMap _ h)
  | remove id =>
    show (d.Remove id).1.NameKeyed
    unfold deviceCache.Remove
    split
    · exact h
    · exact deviceCache.nameKeyed_removeByName d _ h
  | removeByName name => exact deviceCache.nameKeyed_removeByName d name h

theorem deviceCache.nameKeyed_run (ops : List DeviceOp) :
    ∀ d : deviceCache, d.NameKeyed → (d.run ops).NameKeyed := by
  induction ops with
  | nil => intro d h; exact h
  | cons op ops ih =>
    intro d h
    exact ih (d.step op) (deviceCache.nameKeyed_step d op h)

theorem deviceCache.nameKeyed_fill (devices : List Device) :
    ∀ c : deviceCache, c.NameKeyed →
      (devices.foldl
        (fun c d => { dMap := GoMap.set c.dMap d.Name d,
                      nameMap := GoMap.set c.nameMap d.Id d.Name }) c).NameKeyed := by
  induction devices with
  | nil => intro c h; exact h
  | cons d ds ih =>
    intro c h
    exact ih _ (deviceCache.nameKeyed_set c.dMap d h)

theorem deviceCache.nameKeyed_new (devices : List Device) :
    (newDeviceCache devices).NameKeyed :=
  deviceCache.nameKeyed_fill devices _ (fun _ _ h => by cases h)

theorem deviceCache.forName_of_forId (d : deviceCache) (h : d.NameKeyed) (id : String)
    (E : Device) (hE : d.ForId id = some E) : d.ForName E.Name = some E := by
  cases hn : GoMap.get d.nameMap id with
  | none => simp [deviceCache.ForId, hn] at hE
  | some name =>
    cases hd : GoMap.get d.dMap name with
    | none => simp [deviceCache.ForId, hn, hd] at hE
    | some dev =>
      simp only [deviceCache.ForId, hn, hd, Option.some.injEq] at hE
      subst hE
      have hk := h name dev hd
      unfold deviceCache.ForName
      rw [hk, hd]

/-- C1: after any sequence of Add, Update, Remove and RemoveByName calls on a
device cache built from any snapshot, a device E that ForId reports as found is
also what ForName reports for E.Name. -/
theorem deviceCache_forId_forName_agree (devices : List Device) (ops : List DeviceOp)
    (id : String) (E : Device)
    (hE : ((newDeviceCache devices).run ops).ForId id = some E) :
    ((newDeviceCache devices).run ops).ForName E.Name = some E :=
  deviceCache.forName_of_forId _
    (deviceCache.nameKeyed_run ops _ (deviceCache.nameKeyed_new devices)) id E hE

/-- Witness of C1 on a cache built from one device, after an Add, a renaming
Update and a Remove. -/
theorem deviceCache_forId_forName_agree_witness :
    ((newDeviceCache [devThermostat]).run
        [.add devValve, .update devValveRenamed, .remove "5b1"]).ForId "5b2"
      = some devValveRenamed ∧
    ((newDeviceCache [devThermostat]).run
        [.add devValve, .update devValveRenamed, .remove "5b1"]).ForName devValveRenamed.Name
      = some devValveRenamed :=
  ⟨by decide, deviceCache_forId_forName_agree [devThermostat]
      [.add devValve, .update devValveRenamed, .remove "5b1"] "5b2" devValveRenamed (by decide)⟩

/-! ## Add on the three caches -/

/-- C2: on the device, profile and value descriptor caches, Add returns an
error exactly when ForName already finds an entity of that name; when it
returns an error the cache is unchanged, and when it succeeds ForName of the
entity's name returns the added entity. -/
theorem add_error_iff_name_present (dc : deviceCache) (pc : profileCache)
    (vc : valueDescriptorCache) (device : Device) (profile : DeviceProfile)
    (descriptor : ValueDescriptor) :
    (((dc.Add device).2.isSome ↔ (dc.ForName device.Name).isSome) ∧
      ((dc.Add device).2.isSome → (dc.Add device).1 = dc) ∧
      ((dc.Add device).2 = none → (dc.Add device).1.ForName device.Name = some device)) ∧
    (((pc.Add profile).2.isSome ↔ (pc.ForName profile.Name).isSome) ∧
      ((pc.Add profile).2.isSome → (pc.Add profile).1 = pc) ∧
      ((pc.Add profile).2 = none → (pc.Add profile).1.ForName profile.Name = some profile)) ∧
    (((vc.Add descriptor).2.isSome ↔ (vc.ForName descriptor.Name).isSome) ∧
      ((vc.Add descriptor).2.isSome → (vc.Add descriptor).1 = vc) ∧
      ((vc.Add descriptor).2 = none →
        (vc.Add descriptor).1.ForName descriptor.Name = some descriptor)) := by
  refine ⟨?_, ?_, ?_⟩
  · cases h : GoMap.get dc.dMap device.Name with
    | none => simp [deviceCache.Add, deviceCache.ForName, h, GoMap.get_set_self]
    | some x => simp [deviceCache.Add, deviceCache.ForName, h]
  · cases h : GoMap.get pc.dpMap profile.Name with
    | none =>
      simp [profileCache.Add, profileCache.ForName, profileCache.store, h, GoMap.get_set_self]
    | some x => simp [profileCache.Add, profileCache.ForName, h]
  · cases h : GoMap.get vc.vdMap descriptor.Name with
    | none =>
      simp [valueDescriptorCache.Add, valueDescriptorCache.ForName, h, GoMap.get_set_self]
    | some x => simp [valueDescriptorCache.Add, valueDescriptorCache.ForName, h]

/-! ## Update, Remove and RemoveByName on the device cache -/

/-- C3: in every state of the device cache reached by Add, Update, Remove and
RemoveByName from any snapshot, Remove(id) and Update(device) return an error
exactly when ForId reports the id as not found, RemoveByName(name) returns an
error exactly when ForName reports the name as not found, and a call that
returns an error leaves the cache unchanged. -/
theorem deviceCache_notFound_iff_absent (devices : List Device) (ops : List DeviceOp)
    (id name : String) (device : Device) :
    (((((newDeviceCache devices).run ops).Remove id).2.isSome ↔
        ((newDeviceCache devices).run ops).ForId id = none) ∧
      ((((newDeviceCache devices).run ops).Update device).2.isSome ↔
        ((newDeviceCache devices).run ops).ForId device.Id = none) ∧
      ((((newDeviceCache devices).run ops).RemoveByName name).2.isSome ↔
        ((newDeviceCache devices).run ops).ForName name = none)) ∧
    (((((newDeviceCache devices).run ops).Remove id).2.isSome →
        (((newDeviceCache devices).run ops).Remove id).1 = (newDeviceCache devices).run ops) ∧
      ((((newDeviceCache devices).run ops).Update device).2.isSome →
        (((newDeviceCache devices).run ops).Update device).1
          = (newDeviceCache devices).run ops) ∧
      ((((newDeviceCache devices).run ops).RemoveByName name).2.isSome →
        (((newDeviceCache devices).run ops).RemoveByName name).1
          = (newDeviceCache devices).run ops)) := by
  generalize (newDeviceCache devices).run ops = c
  refine ⟨⟨?_, ?_, ?_⟩, ?_, ?_, ?_⟩
  · cases hn : GoMap.get c.nameMap id with
    | none => simp [deviceCache.Remove, deviceCache.ForId, hn]
    | some n =>
      cases hd : GoMap.get c.dMap n with
      | none => simp [deviceCache.Remove, deviceCache.RemoveByName, deviceCache.ForId, hn, hd]
      | some x =>
        simp [deviceCache.Remove, deviceCache.RemoveByName, deviceCache.ForId, hn, hd]
  · cases hn : GoMap.get c.nameMap device.Id with
    | none => simp [deviceCache.Update, deviceCache.ForId, hn]
    | some n =>
      cases hd : GoMap.get c.dMap n with
      | none => simp [deviceCache.Update, deviceCache.ForId, hn, hd]
      | some x => simp [deviceCache.Update, deviceCache.ForId, hn, hd]
  · cases hd : GoMap.get c.dMap name with
    | none => simp [deviceCache.RemoveByName, deviceCache.ForName, hd]
    | some x => simp [deviceCache.RemoveByName, deviceCache.ForName, hd]
  · cases hn : GoMap.get c.nameMap id with
    | none => simp [deviceCache.Remove, hn]
    | some n =>
      cases hd : GoMap.get c.dMap n with
      | none => simp [deviceCache.Remove, deviceCache.RemoveByName, hn, hd]
      | some x => simp [deviceCache.Remove, deviceCache.RemoveByName, hn, hd]
  · cases hn : GoMap.get c.nameMap device.Id with
    | none => simp [deviceCache.Update, hn]
    | some n =>
      cases hd : GoMap.get c.dMap n with
      | none => simp [deviceCache.Update, hn, hd]
      | some x => simp [deviceCache.Update, hn, hd]
  · cases hd : GoMap.get c.dMap name with
    | none => simp [deviceCache.RemoveByName, hd]
    | some x => simp [deviceCache.RemoveByName, hd]

/-! ## Device cache: uniqueness of names and ids -/

theorem mapCommandValue_eq (P : Platform) (cv : CommandValue) :
    (if cv.RO.Mappings.length > 0 then
        match MapCommandValue P cv with
        | some newCV => newCV
        | none => cv
      else cv) = substituteMapping P cv := by
  unfold MapCommandValue substituteMapping
  by_cases h : cv.RO.Mappings.length > 0
  · rw [if_pos h]
    cases GoMap.get cv.RO.Mappings (P.ValueToString cv) <;> rfl
  · rw [if_neg h]
    have hnil : cv.RO.Mappings = [] := by
      cases hm : cv.RO.Mappings with
      | nil => rfl
      | cons a l => rw [hm] at h; simp at h
    rw [hnil]
    rfl

theorem transformReadResult_RO (P : Platform) (cv : CommandValue) (pv : PropertyValue) :
    (TransformReadResult P cv pv).1.RO = cv.RO ∧
    (TransformReadResult P cv pv).1.Origin = cv.Origin ∧
    (TransformReadResult P cv pv).1.Type_ = cv.Type_ := by
  have hrep : ∀ (c : CommandValue) (f : F64),
      (replaceCommandValueFromFloat64 P c f).1.RO = c.RO ∧
      (replaceCommandValueFromFloat64 P c f).1.Origin = c.Origin ∧
      (replaceCommandValueFromFloat64 P c f).1.Type_ = c.Type_ := by
    intro c f
    unfold replaceCommandValueFromFloat64
    split <;> simp
  have hb : ∀ (c : CommandValue) (b : String),
      (transformReadBase P c b).1.RO = c.RO ∧ (transformReadBase P c b).1.Origin = c.Origin ∧
      (transformReadBase P c b).1.Type_ = c.Type_ := by
    intro c b
    unfold transformReadBase
    split
    · simp
    · split
      · simp
      · split
        · simp
        · exact hrep _ _
  have hs : ∀ (c : CommandValue) (b : String),
      (transformReadScale P c b).1.RO = c.RO ∧ (transformReadScale P c b).1.Origin = c.Origin ∧
      (transformReadScale P c b).1.Type_ = c.Type_ := by
    intro c b
    unfold transformReadScale
    split
    · simp
    · split
      · simp
      · exact hrep _ _
  have ho : ∀ (c : CommandValue) (b : String),
      (transformReadOffset P c b).1.RO = c.RO ∧
      (transformReadOffset P c b).1.Origin = c.Origin ∧
      (transformReadOffset P c b).1.Type_ = c.Type_ := by
    intro c b
    unfold transformReadOffset
    split
    · simp
    · split
      · simp
      · exact hrep _ _
  have h1 : ∀ c : CommandValue,
      (if pv.Base ≠ "" then transformReadBase P c pv.Base else (c, none)).1.RO = c.RO ∧
      (if pv.Base ≠ "" then transformReadBase P c pv.Base else (c, none)).1.Origin = c.Origin ∧
      (if pv.Base ≠ "" then transformReadBase P c pv.Base else (c, none)).1.Type_ = c.Type_ := by
    intro c
    split
    · exact hb _ _
    · simp
  have h2 : ∀ c : CommandValue,
      (if pv.Scale ≠ "" then transformReadScale P c pv.Scale else (c, none)).1.RO = c.RO ∧
      (if pv.Scale ≠ "" then transformReadScale P c pv.Scale else (c, none)).1.Origin
        = c.Origin ∧
      (if pv.Scale ≠ "" then transformReadScale P c pv.Scale else (c, none)).1.Type_
        = c.Type_ := by
    intro c
    split
    · exact hs _ _
    · simp
  have h3 : ∀ c : CommandValue,
      (if pv.Offset ≠ "" then transformReadOffset P c pv.Offset else (c, none)).1.RO = c.RO ∧
      (if pv.Offset ≠ "" then transformReadOffset P c pv.Offset else (c, none)).1.Origin
        = c.Origin ∧
      (if pv.Offset ≠ "" then transformReadOffset P c pv.Offset else (c, none)).1.Type_
        = c.Type_ := by
    intro c
    split
    · exact ho _ _
    · simp
  unfold TransformReadResult
  split
  · simp
  · simp only []
    split
    · exact h1 cv
    · split
      · obtain ⟨a1, a2, a3⟩ := h1 cv
        obtain ⟨b1, b2, b3⟩ := h2 (if pv.Base ≠ "" then transformReadBase P cv pv.Base
          else (cv, none)).1
        exact ⟨b1.trans a1, b2.trans a2, b3.trans a3⟩
      · obtain ⟨a1, a2, a3⟩ := h1 cv
        obtain ⟨b1, b2, b3⟩ := h2 (if pv.Base ≠ "" then transformReadBase P cv pv.Base
          else (cv, none)).1
        obtain ⟨c1, c2, c3⟩ := h3 (if pv.Scale ≠ "" then
            transformReadScale P (if pv.Base ≠ "" then transformReadBase P cv pv.Base
              else (cv, none)).1 pv.Scale
          else ((if pv.Base ≠ "" then transformReadBase P cv pv.Base else (cv, none)).1, none)).1
        exact ⟨c1.trans (b1.trans a1), c2.trans (b2.trans a2), c3.trans (b3.trans a3)⟩

theorem readTransformed_RO (env : Env) (dobj : DeviceObject) (cv : CommandValue) :
    (readTransformed env dobj cv).RO = cv.RO := by
  unfold readTransformed
  split
  · exact (transformReadResult_RO env.P cv dobj.Value).1
  · rfl

theorem checkAssertion_eq (env : Env) (dobj : DeviceObject) (cv : CommandValue)
    (device : Device) :
    (CheckAssertion env.P (readTransformed env dobj cv) dobj.Value.Assertion device).1
      = (if assertionFailed env dobj cv then { device with OperatingState := .Disabled }
          else device) ∧
    (CheckAssertion env.P (readTransformed env dobj cv) dobj.Value.Assertion device).2.1.isNone
      = !assertionFailed env dobj cv ∧
    (CheckAssertion env.P (readTransformed env dobj cv) dobj.Value.Assertion device).2.2
      = assertionFailed env dobj cv := by
  unfold CheckAssertion assertionFailed
  by_cases h : dobj.Value.Assertion ≠ "" ∧
      env.P.ValueToString (readTransformed env dobj cv) ≠ dobj.Value.Assertion
  · simp [h]
  · simp [h]

/-- One round of the loop of `execReadCmd` on a value whose device object
resolves, in terms of the per-value pipeline. -/
theorem readResultsLoop_cons (env : Env) (cv : CommandValue) (rest : List CommandValue)
    (st : ReadLoop) (dobj : DeviceObject)
    (hd : env.Profiles.DeviceObject st.device.ProfileName cv.RO.Object = some dobj) :
    readResultsLoop env (cv :: rest) st =
      readResultsLoop env rest
        { readings := st.readings ++
            [env.CommandValueToReading
              (substituteMapping env.P (readTransformed env dobj cv)) st.device.Name],
          transformsOK :=
            st.transformsOK && !transformFailed env dobj cv && !assertionFailed env dobj cv,
          device :=
            if assertionFailed env dobj cv then { st.device with OperatingState := .Disabled }
            else st.device,
          effects :=
            if assertionFailed env dobj cv then
              st.effects ++ [.updateOpState st.device.Name .Disabled]
            else st.effects } := by
  have hT : (if env.DataTransform then TransformReadResult env.P cv dobj.Value
      else (cv, none)).1 = readTransformed env dobj cv := by
    unfold readTransformed
    split <;> rfl
  have hE : (if env.DataTransform then TransformReadResult env.P cv dobj.Value
      else (cv, none)).2.isNone = !transformFailed env dobj cv := by
    unfold transformFailed
    cases env.DataTransform <;> simp
  obtain ⟨c1, c2, c3⟩ := checkAssertion_eq env dobj cv st.device
  rw [readResultsLoop, hd]
  simp only [hT, hE, mapCommandValue_eq, c1, c2, c3]
  congr 1
  by_cases hf : assertionFailed env dobj cv = true
  · simp [hf]
  · simp [hf]

/-- The loop of `execReadCmd` when every result's device object resolves: it
runs to the end, appends one reading per value in order, clears
`transformsOK` exactly when a value failed, disables the device exactly when
an assertion failed, keeps the effects it started with at the front and adds
only operating-state notifications. -/
theorem readResultsLoop_resolved (env : Env) (results : List CommandValue) :
    ∀ st : ReadLoop,
      (∀ cv ∈ results,
        (env.Profiles.DeviceObject st.device.ProfileName cv.RO.Object).isSome) →
      ∃ st1, readResultsLoop env results st = .inr st1 ∧
        st1.readings.map some =
          st.readings.map some ++
            results.map (readingFor env st.device.ProfileName st.device.Name) ∧
        st1.transformsOK =
          (st.transformsOK &&
            results.all (fun cv => !valueFailed env st.device.ProfileName cv)) ∧
        st1.device =
          (if results.any (valueAssertionFailed env st.device.ProfileName) then
            { st.device with OperatingState := .Disabled }
          else st.device) ∧
        ∃ extra, st1.effects = st.effects ++ extra ∧
          ∀ e ∈ extra, e = .updateOpState st.device.Name .Disabled := by
  induction results with
  | nil =>
    intro st _
    exact ⟨st, rfl, by simp, by simp, by simp, [], by simp, by simp⟩
  | cons cv rest ih =>
    intro st hall
    have hcv := hall cv (List.mem_cons_self _ _)
    obtain ⟨dobj, hd⟩ := Option.isSome_iff_exists.1 hcv
    rw [readResultsLoop_cons env cv rest st dobj hd]
    have hname : (if assertionFailed env dobj cv then
        { st.device with OperatingState := .Disabled } else st.device).Name = st.device.Name := by
      split <;> rfl
    have hprof : (if assertionFailed env dobj cv then
        { st.device with OperatingState := .Disabled } else st.device).ProfileName
          = st.device.ProfileName := by
      split <;> rfl
    obtain ⟨st1, h1, h2, h3, h4, extra, h5, h6⟩ := ih
      { readings := st.readings ++
          [env.CommandValueToReading
            (substituteMapping env.P (readTransformed env dobj cv)) st.device.Name],
        transformsOK :=
          st.transformsOK && !transformFailed env dobj cv && !assertionFailed env dobj cv,
        device :=
          if assertionFailed env dobj cv then { st.device with OperatingState := .Disabled }
          else st.device,
        effects :=
          if assertionFailed env dobj cv then
            st.effects ++ [.updateOpState st.device.Name .Disabled]
          else st.effects }
      (by
        intro c hc
        simp only [hprof]
        exact hall c (List.mem_cons_of_mem _ hc))
    simp only [hname, hprof] at h2 h3 h4 h6
    refine ⟨st1, h1, ?_, ?_, ?_, ?_⟩
    · rw [h2]
      simp [readingFor, hd]
    · rw [h3]
      simp [valueFailed, hd, Bool.and_assoc]
    · rw [h4]
      simp only [List.any_cons, valueAssertionFailed, hd]
      by_cases hf : assertionFailed env dobj cv = true
      · simp [hf]
      · simp [hf]
    · by_cases hf : assertionFailed env dobj cv = true
      · simp only [hf, if_true] at h5
        refine ⟨.updateOpState st.device.Name .Disabled :: extra, ?_, ?_⟩
        · rw [h5]; simp
        · intro e he
          rcases List.mem_cons.1 he with h | h
          · exact h
          · exact h6 e h
      · simp only [hf] at h5
        exact ⟨extra, h5, h6⟩

/-- The loop of `execReadCmd` keeps the effects it started with at the front,
whether it runs to the end or returns early. -/
theorem readResultsLoop_effects (env : Env) (results : List CommandValue) :
    ∀ st : ReadLoop, ∃ extra,
      (match readResultsLoop env results st with
        | .inl st1 => st1.effects
        | .inr st1 => st1.effects) = st.effects ++ extra := by
  induction results with
  | nil => intro st; exact ⟨[], by simp [readResultsLoop]⟩
  | cons cv rest ih =>
    intro st
    cases hd : env.Profiles.DeviceObject st.device.ProfileName cv.RO.Object with
    | none => exact ⟨[], by simp [readResultsLoop, hd]⟩
    | some dobj =>
      rw [readResultsLoop_cons env cv rest st dobj hd]
      obtain ⟨extra, h⟩ := ih
        { readings := st.readings ++
            [env.CommandValueToReading
              (substituteMapping env.P (readTransformed env dobj cv)) st.device.Name],
          transformsOK :=
            st.transformsOK && !transformFailed env dobj cv && !assertionFailed env dobj cv,
          device :=
            if assertionFailed env dobj cv then { st.device with OperatingState := .Disabled }
            else st.device,
          effects :=
            if assertionFailed env dobj cv then
              st.effects ++ [.updateOpState st.device.Name .Disabled]
            else st.effects }
      rw [h]
      by_cases hf : assertionFailed env dobj cv = true
      · exact ⟨.updateOpState st.device.Name .Disabled :: extra, by simp [hf]⟩
      · exact ⟨extra, by simp [hf]⟩

/-! ## Command dispatch: the operation ceiling -/

/-- C5: on the read path and on the write path, when the operations resolved
for the command number more than MaxCmdOps the dispatch returns a ServerError
(on read, with no event) and has no effect at all, so the driver is not
invoked; when the count is at most MaxCmdOps, and so when it equals MaxCmdOps,
the check lets the dispatch through: once the later steps succeed the driver is
invoked with the requests built. -/
theorem execCmd_maxCmdOps (env : Env) (device : Device) (cmd params : String)
    (rosGet rosSet : List ResourceOperation)
    (hget : env.Profiles.ResourceOperations device.ProfileName cmd "get" = .ok rosGet)
    (hset : env.Profiles.ResourceOperations device.ProfileName cmd "set" = .ok rosSet) :
    (rosGet.length > env.MaxCmdOps →
      (execReadCmd env device cmd).err = some .ServerError ∧
      (execReadCmd env device cmd).event = none ∧
      (execReadCmd env device cmd).effects = []) ∧
    (rosSet.length > env.MaxCmdOps →
      execWriteCmd env device cmd params = (some .ServerError, [])) ∧
    (rosGet.length ≤ env.MaxCmdOps →
      ∀ reqs, buildReadRequests env device rosGet = some reqs →
        (execReadCmd env device cmd).effects.head? = some (.driverRead device.Addressable reqs)) ∧
    (rosSet.length ≤ env.MaxCmdOps →
      ∀ cvs reqs cvs1, parseWriteParams env (roSliceToMap rosSet) params = (cvs, none) →
        writeValuesLoop env device cvs = .ok (reqs, cvs1) →
        (execWriteCmd env device cmd params).2 = [.driverWrite device.Addressable reqs cvs1]) := by
  refine ⟨?_, ?_, ?_, ?_⟩
  · intro h
    simp [execReadCmd, hget, h]
  · intro h
    simp [execWriteCmd, hset, h]
  · intro h reqs hreqs
    have h1 : ¬ (rosGet.length > env.MaxCmdOps) := not_lt.mpr h
    simp only [execReadCmd, hget, h1, if_false, hreqs]
    cases hd : env.Driver.HandleReadCommands device.Addressable reqs with
    | error e => simp
    | ok results =>
      simp only []
      obtain ⟨extra, hex⟩ := readResultsLoop_effects env results
        { readings := [], transformsOK := true, device := device,
          effects := [.driverRead device.Addressable reqs] }
      cases hl : readResultsLoop env results
          { readings := [], transformsOK := true, device := device,
            effects := [.driverRead device.Addressable reqs] } with
      | inl st1 =>
        rw [hl] at hex
        simp only [] at hex
        simp [hex]
      | inr st1 =>
        rw [hl] at hex
        simp only [] at hex
        simp [hex]
  · intro h cvs reqs cvs1 hp hw
    have h1 : ¬ (rosSet.length > env.MaxCmdOps) := not_lt.mpr h
    simp only [execWriteCmd, hset, h1, if_false, hp, hw]
    cases hd : env.Driver.HandleWriteCommands device.Addressable reqs cvs1 <;> simp

/-- Witness of C5: with a ceiling of 0 the one-operation command `temp` is
rejected on the read path. -/
theorem execCmd_maxCmdOps_witness :
    (sampleEnv 0 false).Profiles.ResourceOperations devThermostat.ProfileName "temp" "get"
      = .ok [roTemperature] ∧
    (sampleEnv 0 false).Profiles.ResourceOperations devThermostat.ProfileName "temp" "set"
      = .ok [roTemperature] ∧
    (execReadCmd (sampleEnv 0 false) devThermostat "temp").err = some .ServerError :=
  ⟨by decide, by decide,
    ((execCmd_maxCmdOps (sampleEnv 0 false) devThermostat "temp" "" [roTemperature]
      [roTemperature] (by decide) (by decide)).1 (by decide)).1⟩

/-! ## Command dispatch: the event of a read -/

theorem all_not_eq_not_any {α : Type} (p : α → Bool) (l : List α) :
    l.all (fun a => !p a) = !l.any p := by
  induction l with
  | nil => rfl
  | cons a l ih => simp [List.all_cons, List.any_cons, ih]

/-- The result of `execReadCmd` once the driver has answered and every
result's device object resolves. -/
theorem execReadCmd_resolved (env : Env) (device : Device) (cmd : String)
    (ros : List ResourceOperation) (reqs : List CommandRequest) (results : List CommandValue)
    (hros : env.Profiles.ResourceOperations device.ProfileName cmd "get" = .ok ros)
    (hmax : ros.length ≤ env.MaxCmdOps)
    (hreqs : buildReadRequests env device ros = some reqs)
    (hdrv : env.Driver.HandleReadCommands device.Addressable reqs = .ok results)
    (hobj : ∀ cv ∈ results,
      (env.Profiles.DeviceObject device.ProfileName cv.RO.Object).isSome) :
    ∃ event, (execReadCmd env device cmd).event = some event ∧
      event.Device = device.Name ∧
      event.Readings.map some = results.map (readingFor env device.ProfileName device.Name) ∧
      (execReadCmd env device cmd).err =
        (if results.any (valueFailed env device.ProfileName) then some .ServerError
          else none) ∧
      (execReadCmd env device cmd).device =
        (if results.any (valueAssertionFailed env device.ProfileName) then
          { device with OperatingState := .Disabled }
        else device) := by
  have h1 : ¬ (ros.length > env.MaxCmdOps) := not_lt.mpr hmax
  obtain ⟨st1, hl, hr, hok, hdev, _⟩ := readResultsLoop_resolved env results
    { readings := [], transformsOK := true, device := device,
      effects := [.driverRead device.Addressable reqs] } hobj
  simp only [execReadCmd, hros, h1, if_false, hreqs, hdrv, hl]
  simp only [List.map_nil, List.nil_append, Bool.true_and] at hr hok hdev
  refine ⟨_, rfl, ?_, hr, ?_, hdev⟩
  · rw [hdev]
    split <;> rfl
  · rw [hok, all_not_eq_not_any]
    cases results.any (valueFailed env device.ProfileName) <;> rfl

/-- C8: for a read dispatch in which the driver succeeds and every returned
value's device object resolves, the returned event names the device and holds
exactly one reading per returned value, in the driver's order, each the
reading of that value after transform and mapping, also for the values whose
transform or assertion failed; the error is a ServerError when at least one
transform or assertion failed and nil otherwise. -/
theorem execReadCmd_event_readings (env : Env) (device : Device) (cmd : String)
    (ros : List ResourceOperation) (reqs : List CommandRequest) (results : List CommandValue)
    (hros : env.Profiles.ResourceOperations device.ProfileName cmd "get" = .ok ros)
    (hmax : ros.length ≤ env.MaxCmdOps)
    (hreqs : buildReadRequests env device ros = some reqs)
    (hdrv : env.Driver.HandleReadCommands device.Addressable reqs = .ok results)
    (hobj : ∀ cv ∈ results,
      (env.Profiles.DeviceObject device.ProfileName cv.RO.Object).isSome) :
    ∃ event, (execReadCmd env device cmd).event = some event ∧
      event.Device = device.Name ∧
      event.Readings.length = results.length ∧
      event.Readings.map some = results.map (readingFor env device.ProfileName device.Name) ∧
      (execReadCmd env device cmd).err =
        (if results.any (valueFailed env device.ProfileName) then some .ServerError
          else none) := by
  obtain ⟨event, he, hd, hr, herr, _⟩ :=
    execReadCmd_resolved env device cmd ros reqs results hros hmax hreqs hdrv hobj
  refine ⟨event, he, hd, ?_, hr, herr⟩
  have := congrArg List.length hr
  simpa using this

/-- Witness of C8: the sample driver returns the switch value 1, whose
assertion (`0`) fails; the event still holds its reading, mapped to `ON`, and
the error is a ServerError. -/
theorem execReadCmd_event_readings_witness :
    ∃ event, (execReadCmd (sampleEnv 5 true) devThermostat "power").event = some event ∧
      event.Device = devThermostat.Name ∧
      event.Readings.length = [switchValue 1].length ∧
      event.Readings.map some =
        [switchValue 1].map
          (readingFor (sampleEnv 5 true) devThermostat.ProfileName devThermostat.Name) ∧
      (execReadCmd (sampleEnv 5 true) devThermostat "power").err =
        (if [switchValue 1].any (valueFailed (sampleEnv 5 true) devThermostat.ProfileName)
          then some .ServerError else none) :=
  execReadCmd_event_readings (sampleEnv 5 true) devThermostat "power" [roSwitch]
    [{ RO := roSwitch,
       DeviceObject :=
         { Name := "switch",
           Value := { Base := "", Scale := "", Offset := "", Assertion := "0" } } }]
    [switchValue 1] (by decide) (by decide) (by decide) rfl (by decide)

/-! ## Write dispatch: value mapping -/

/-- C9 at the failing input: a write of `[{"switch":"1"}]` to the command
`power`, whose operation maps `1` to `ON`.  MapCommandValue finds the entry
and builds the string value `ON`, but the driver is handed the int32 value 1:
the mapped value is assigned to the loop variable only. -/
theorem execWriteCmd_mapping_not_handed_over :
    execWriteCmd (sampleEnv 5 true) devThermostat "power" "[\x7b\"switch\":\"1\"\x7d]" =
      (none,
        [.driverWrite "addr-1"
          [{ RO := roSwitch,
             DeviceObject :=
               { Name := "switch",
                 Value := { Base := "", Scale := "", Offset := "", Assertion := "0" } } }]
          [switchValue 1]]) ∧
    MapCommandValue (sampleEnv 5 true).P (switchValue 1) = some (NewStringValue roSwitch 1 "ON") ∧
    switchValue 1 ≠ NewStringValue roSwitch 1 "ON" := by
  decide

/-! ## The transform switch -/

/-- One round of the loop of `processAsyncResults` on a value whose device
object resolves, in terms of the per-value pipeline. -/
theorem asyncValuesLoop_cons (env : Env) (cv : CommandValue) (rest : List CommandValue)
    (st : ReadLoop) (dobj : DeviceObject)
    (hd : env.Profiles.DeviceObject st.device.ProfileName cv.RO.Object = some dobj) :
    asyncValuesLoop env (cv :: rest) st =
      asyncValuesLoop env rest
        { readings := st.readings ++
            [env.CommandValueToReading
              (substituteMapping env.P (readTransformed env dobj cv)) st.device.Name],
          transformsOK :=
            st.transformsOK && !transformFailed env dobj cv && !assertionFailed env dobj cv,
          device :=
            if assertionFailed env dobj cv then { st.device with OperatingState := .Disabled }
            else st.device,
          effects :=
            if assertionFailed env dobj cv then
              st.effects ++ [.updateOpState st.device.Name .Disabled]
            else st.effects } := by
  have hT : (if env.DataTransform then TransformReadResult env.P cv dobj.Value
      else (cv, none)).1 = readTransformed env dobj cv := by
    unfold readTransformed
    split <;> rfl
  have hE : (if env.DataTransform then TransformReadResult env.P cv dobj.Value
      else (cv, none)).2.isNone = !transformFailed env dobj cv := by
    unfold transformFailed
    cases env.DataTransform <;> simp
  obtain ⟨c1, c2, c3⟩ := checkAssertion_eq env dobj cv st.device
  rw [asyncValuesLoop, hd]
  simp only [hT, hE, mapCommandValue_eq, c1, c2, c3]
  congr 1
  by_cases hf : assertionFailed env dobj cv = true
  · simp [hf]
  · simp [hf]

/-- The loop of `processAsyncResults` over one batch: one reading per value
whose device object resolves, in batch order, and the device copy disabled
exactly when an assertion failed. -/
theorem asyncValuesLoop_spec (env : Env) (values : List CommandValue) :
    ∀ st : ReadLoop,
      (asyncValuesLoop env values st).readings =
        st.readings ++ values.filterMap (readingFor env st.device.ProfileName st.device.Name) ∧
      (asyncValuesLoop env values st).device =
        (if values.any (valueAssertionFailed env st.device.ProfileName) then
          { st.device with OperatingState := .Disabled }
        else st.device) := by
  induction values with
  | nil => intro st; simp [asyncValuesLoop]
  | cons cv rest ih =>
    intro st
    cases hd : env.Profiles.DeviceObject st.device.ProfileName cv.RO.Object with
    | none =>
      obtain ⟨h1, h2⟩ := ih st
      have hstep : asyncValuesLoop env (cv :: rest) st = asyncValuesLoop env rest st := by
        rw [asyncValuesLoop, hd]
      rw [hstep, h1, h2]
      simp [readingFor, valueAssertionFailed, hd]
    | some dobj =>
      rw [asyncValuesLoop_cons env cv rest st dobj hd]
      have hname : (if assertionFailed env dobj cv then
          { st.device with OperatingState := .Disabled } else st.device).Name
            = st.device.Name := by
        split <;> rfl
      have hprof : (if assertionFailed env dobj cv then
          { st.device with OperatingState := .Disabled } else st.device).ProfileName
            = st.device.ProfileName := by
        split <;> rfl
      obtain ⟨h1, h2⟩ := ih
        { readings := st.readings ++
            [env.CommandValueToReading
              (substituteMapping env.P (readTransformed env dobj cv)) st.device.Name],
          transformsOK :=
            st.transformsOK && !transformFailed env dobj cv && !assertionFailed env dobj cv,
          device :=
            if assertionFailed env dobj cv then { st.device with OperatingState := .Disabled }
            else st.device,
          effects :=
            if assertionFailed env dobj cv then
              st.effects ++ [.updateOpState st.device.Name .Disabled]
            else st.effects }
      simp only [hname, hprof] at h1 h2
      rw [h1, h2]
      constructor
      · simp [readingFor, hd]
      · simp only [List.any_cons, valueAssertionFailed, hd]
        by_cases hf : assertionFailed env dobj cv = true
        · simp [hf]
        · simp [hf]

theorem replaceCommandValue_numeric (P : Platform) (cv : CommandValue) (f : F64)
    (ht : cv.Type_ ≠ .String ∧ cv.Type_ ≠ .Bool) :
    ∃ value, convertNumericFromFloat64 P f cv.Type_ = .ok value ∧
      replaceCommandValueFromFloat64 P cv f = ({ cv with NumericValue := value }, none) ∧
      commandValueToFloat64 { cv with NumericValue := value } = .ok (narrowed P cv.Type_ f) := by
  obtain ⟨h1, h2⟩ := ht
  unfold replaceCommandValueFromFloat64
  cases hT : cv.Type_ <;>
    simp_all [convertNumericFromFloat64, commandValueToFloat64, narrowed, ValueType.intRange]

/-- C7, the claim as stated fails on its own example: for the int32 value 3
with Scale `0.5`, Offset `0.5` and no Base, computing `3 * 0.5 + 0.5` in double
precision and narrowing once gives 2, but TransformReadResult stores 1: the
product 1.5 is truncated to 1 before the offset is added, and 1.5 is truncated
again. -/
theorem transformReadResult_narrows_each_step :
    TransformReadResult samplePlatform (int32Value 3)
        { Base := "", Scale := "0.5", Offset := "0.5", Assertion := "" }
      = (int32Value 1, none) ∧
    parseDecimal "0.5" = .ok (.fin false 4503599627370496 (-53)) ∧
    convertToInt samplePlatform .Int32 (-2 ^ 31) (2 ^ 31 - 1)
        (F64.add (F64.mul (F64.ofInt 3) (.fin false 4503599627370496 (-53)))
          (.fin false 4503599627370496 (-53)))
      = 2 := by
  decide

/-- C7 as amended: for a numeric value of any declared type T and non-empty,
well-formed Base (non-zero), Scale and Offset, TransformReadResult returns no
error and applies the three steps in the order Base, Scale, Offset, each in
double precision on the value stored by the previous step: the result of
every step, not only of the last, is narrowed to T before it is stored. -/
theorem transformReadResult_stepwise (P : Platform) (cv : CommandValue) (pv : PropertyValue)
    (x b s o : F64)
    (ht : cv.Type_ ≠ .String ∧ cv.Type_ ≠ .Bool)
    (hx : commandValueToFloat64 cv = .ok x)
    (hB : pv.Base ≠ "") (hS : pv.Scale ≠ "") (hO : pv.Offset ≠ "")
    (hb : P.ParseFloat pv.Base = .ok b) (hbz : b.isZero = false)
    (hs : P.ParseFloat pv.Scale = .ok s) (ho : P.ParseFloat pv.Offset = .ok o) :
    ∃ value,
      convertNumericFromFloat64 P
          (F64.add (narrowed P cv.Type_ (F64.mul (narrowed P cv.Type_ (P.Pow b x)) s)) o)
          cv.Type_ = .ok value ∧
      TransformReadResult P cv pv = ({ cv with NumericValue := value }, none) := by
  obtain ⟨v1, _, r1, w1⟩ := replaceCommandValue_numeric P cv (P.Pow b x) ht
  have ht1 : ({ cv with NumericValue := v1 } : CommandValue).Type_ ≠ .String ∧
      ({ cv with NumericValue := v1 } : CommandValue).Type_ ≠ .Bool := ht
  obtain ⟨v2, _, r2, w2⟩ := replaceCommandValue_numeric P { cv with NumericValue := v1 }
    (F64.mul (narrowed P cv.Type_ (P.Pow b x)) s) ht1
  have ht2 : ({ cv with NumericValue := v2 } : CommandValue).Type_ ≠ .String ∧
      ({ cv with NumericValue := v2 } : CommandValue).Type_ ≠ .Bool := ht
  obtain ⟨v3, c3, r3, _⟩ := replaceCommandValue_numeric P { cv with NumericValue := v2 }
    (F64.add (narrowed P cv.Type_ (F64.mul (narrowed P cv.Type_ (P.Pow b x)) s)) o) ht2
  refine ⟨v3, c3, ?_⟩
  have e1 : transformReadBase P cv pv.Base = ({ cv with NumericValue := v1 }, none) := by
    simp only [transformReadBase, hx, hb, hbz]
    exact r1
  have e2 : transformReadScale P { cv with NumericValue := v1 } pv.Scale
      = ({ cv with NumericValue := v2 }, none) := by
    simp only [transformReadScale, w1, hs]
    exact r2
  have e3 : transformReadOffset P { cv with NumericValue := v2 } pv.Offset
      = ({ cv with NumericValue := v3 }, none) := by
    simp only [transformReadOffset, w2, ho]
    exact r3
  have hne : ¬ (cv.Type_ = .String ∨ cv.Type_ = .Bool) := by
    intro h
    rcases h with h | h
    · exact ht.1 h
    · exact ht.2 h
  simp only [TransformReadResult, hne, if_false, hB, hS, hO, ne_eq, not_false_eq_true, if_true,
    e1, e2, e3]

/-- Witness of C7 as amended: the int32 value 1 with Base `3`, Scale `0.5`
and Offset `0.5`, where `Pow(3, 1)` is 3. -/
theorem transformReadResult_stepwise_witness :
    ∃ value,
      convertNumericFromFloat64 samplePlatform
          (F64.add
            (narrowed samplePlatform .Int32
              (F64.mul (narrowed samplePlatform .Int32
                (samplePlatform.Pow (.fin false 6755399441055744 (-51)) (F64.ofInt 1)))
                (.fin false 4503599627370496 (-53))))
            (.fin false 4503599627370496 (-53)))
          .Int32 = .ok value ∧
      TransformReadResult samplePlatform (int32Value 1)
          { Base := "3", Scale := "0.5", Offset := "0.5", Assertion := "" }
        = ({ int32Value 1 with NumericValue := value }, none) :=
  transformReadResult_stepwise samplePlatform (int32Value 1)
    { Base := "3", Scale := "0.5", Offset := "0.5", Assertion := "" }
    (F64.ofInt 1) (.fin false 6755399441055744 (-51)) (.fin false 4503599627370496 (-53))
    (.fin false 4503599627370496 (-53))
    (by decide) (by decide) (by decide) (by decide) (by decide) (by decide) (by decide)
    (by decide) (by decide)

/-! ## Exact double-precision arithmetic on integers -/

theorem bitLen_le (fuel : Nat) : ∀ n k : Nat, n < 2 ^ k → bitLen fuel n ≤ k := by
  induction fuel with
  | zero => intro n k _; simp [bitLen]
  | succ fuel ih =>
    intro n k h
    unfold bitLen
    split
    · exact Nat.zero_le _
    · rename_i hn
      cases k with
      | zero => simp at h; exact absurd h hn
      | succ k =>
        have : n / 2 < 2 ^ k := by
          rw [Nat.div_lt_iff_lt_mul (by decide)]
          rw [Nat.pow_succ] at h
          exact h
        have := ih (n / 2) k this
        omega

theorem bits_le {n k : Nat} (h : n < 2 ^ k) : bits n ≤ k := bitLen_le n n k h

theorem lt_bitLen (fuel : Nat) : ∀ n j : Nat, n ≤ fuel → 2 ^ j ≤ n → j < bitLen fuel n := by
  induction fuel with
  | zero =>
    intro n j h1 h2
    have : 0 < 2 ^ j := Nat.two_pow_pos j
    omega
  | succ fuel ih =>
    intro n j h1 h2
    have hpos : 0 < 2 ^ j := Nat.two_pow_pos j
    unfold bitLen
    have hn : n ≠ 0 := by omega
    simp only [hn, if_false]
    cases j with
    | zero => omega
    | succ j =>
      have h3 : 2 ^ j ≤ n / 2 := by
        rw [Nat.le_div_iff_mul_le (by decide)]
        rw [Nat.pow_succ] at h2
        exact h2
      have h4 : n / 2 ≤ fuel := by omega
      have := ih (n / 2) j h4 h3
      omega

theorem lt_bits {n j : Nat} (h : 2 ^ j ≤ n) : j < bits n := lt_bitLen n n j (Nat.le_refl _) h

theorem intMag_zero (e : Int) (a : Nat) (h : F64.intMag 0 e = some a) : a = 0 := by
  unfold F64.intMag at h
  split at h
  · simp at h; exact h.symm
  · simp at h; exact h.symm

theorem intMag_neg_exp {m : Nat} {e : Int} {a : Nat} (he : ¬ 0 ≤ e)
    (h : F64.intMag m e = some a) : m = a * 2 ^ (-e).toNat := by
  unfold F64.intMag at h
  rw [if_neg he] at h
  split at h
  · rename_i hmod
    simp only [Option.some.injEq] at h
    rw [← h]
    exact (Nat.div_mul_cancel (Nat.dvd_of_mod_eq_zero hmod)).symm
  · cases h

theorem intMag_mul_pow (a j : Nat) (e : Int) (he : e = -(j : Int)) :
    F64.intMag (a * 2 ^ j) e = some a := by
  unfold F64.intMag
  by_cases h0 : 0 ≤ e
  · have hj : j = 0 := by omega
    subst hj
    have : e = 0 := by omega
    subst this
    simp
  · rw [if_neg h0]
    have hj : (-e).toNat = j := by omega
    rw [hj]
    simp [Nat.mul_mod_left, Nat.mul_div_cancel _ (Nat.two_pow_pos j)]

theorem round64_exact (neg : Bool) (m : Nat) (e : Int) (a : Nat)
    (h : F64.intMag m e = some a) (ha : a < 2 ^ 53) :
    ∃ m1 e1, F64.round64 neg m e = .fin neg m1 e1 ∧ F64.intMag m1 e1 = some a := by
  by_cases hm : m = 0
  · subst hm
    have := intMag_zero e a h
    subst this
    exact ⟨0, 0, by simp [F64.round64, F64.round], by simp [F64.intMag]⟩
  · by_cases he : 0 ≤ e
    · have h1 : m * 2 ^ e.toNat = a := by
        simpa [F64.intMag, he] using h
      have hmle : m ≤ a := by
        rw [← h1]; exact Nat.le_mul_of_pos_right _ (Nat.two_pow_pos _)
      have hb : bits m ≤ 53 := bits_le (lt_of_le_of_lt hmle ha)
      have he53 : e.toNat < 53 := by
        have : 2 ^ e.toNat ≤ a := by
          rw [← h1]; exact Nat.le_mul_of_pos_left _ (Nat.pos_of_ne_zero hm)
        exact (Nat.pow_lt_pow_iff_right (by decide)).1 (lt_of_le_of_lt this ha)
      refine ⟨m, e, ?_, h⟩
      have hshift : max ((bits m : Int) - ((53 : Nat) : Int)) (-1074 - e) ≤ 0 := by omega
      have hov : ¬ ((bits m : Int) + e > 1024) := by omega
      simp only [F64.round64, F64.round, hm, if_false, hshift, if_true, hov]
    · have hmeq := intMag_neg_exp he h
      obtain ⟨j, hj⟩ : ∃ j : Nat, (-e).toNat = j := ⟨_, rfl⟩
      rw [hj] at hmeq
      have hje : e = -(j : Int) := by omega
      have hapos : 0 < a := by
        rcases Nat.eq_zero_or_pos a with h0 | h0
        · rw [h0] at hmeq; simp at hmeq; exact absurd hmeq hm
        · exact h0
      have hmlt : m < 2 ^ (53 + j) := by
        rw [hmeq, Nat.pow_add]
        exact Nat.mul_lt_mul_of_pos_right ha (Nat.two_pow_pos j)
      have hb : bits m ≤ 53 + j := bits_le hmlt
      by_cases hshift : max ((bits m : Int) - ((53 : Nat) : Int)) (-1074 - e) ≤ 0
      · refine ⟨m, e, ?_, h⟩
        have hov : ¬ ((bits m : Int) + e > 1024) := by omega
        simp only [F64.round64, F64.round, hm, if_false, hshift, if_true, hov]
      · obtain ⟨s, hs⟩ : ∃ s : Nat,
            (max ((bits m : Int) - ((53 : Nat) : Int)) (-1074 - e)).toNat = s := ⟨_, rfl⟩
        have hsj : s ≤ j := by omega
        have hspos : 0 < s := by omega
        have hse : max ((bits m : Int) - ((53 : Nat) : Int)) (-1074 - e) = (s : Int) := by omega
        have hm2 : m = a * 2 ^ (j - s) * 2 ^ s := by
          rw [hmeq, Nat.mul_assoc, ← Nat.pow_add, Nat.sub_add_cancel hsj]
        have hq : m / 2 ^ s = a * 2 ^ (j - s) := by
          rw [hm2]; exact Nat.mul_div_cancel _ (Nat.two_pow_pos s)
        have hr : m % 2 ^ s = 0 := by
          rw [hm2]; exact Nat.mul_mod_left _ _
        have hqlt : a * 2 ^ (j - s) < 2 ^ (53 + (j - s)) := by
          rw [Nat.pow_add]
          exact Nat.mul_lt_mul_of_pos_right ha (Nat.two_pow_pos _)
        have hbq : bits (a * 2 ^ (j - s)) ≤ 53 + (j - s) := bits_le hqlt
        refine ⟨a * 2 ^ (j - s), e + s, ?_, intMag_mul_pow a (j - s) (e + s) (by omega)⟩
        have hpow : ¬ (2 ^ (s - 1) < 0 ∨ 2 ^ (s - 1) = 0 ∧ a * 2 ^ (j - s) % 2 = 1) := by
          have := Nat.two_pow_pos (s - 1)
          omega
        have hov : ¬ ((bits (a * 2 ^ (j - s)) : Int) + (e + (s : Int)) > 1024) := by omega
        have hs0 : ¬ ((s : Int) ≤ 0) := by omega
        simp only [F64.round64, F64.round, hm, if_false, hse, Int.toNat_ofNat, hs0, hq, hr,
          hpow, hov]

theorem toInt_fin (s : Bool) (m : Nat) (e : Int) (a : Nat) (h : F64.intMag m e = some a) :
    (F64.fin s m e).toInt? = some (if s then -(a : Int) else (a : Int)) := by
  simp [F64.toInt?, h]

theorem toInt_cases (g : F64) (y : Int) (h : g.toInt? = some y) :
    ∃ t n f b, g = .fin t n f ∧ F64.intMag n f = some b ∧
      y = (if t then -(b : Int) else (b : Int)) := by
  cases g with
  | fin t n f =>
    cases hb : F64.intMag n f with
    | none => simp [F64.toInt?, hb] at h
    | some b =>
      rw [toInt_fin t n f b hb] at h
      cases h
      exact ⟨t, n, f, b, rfl, hb, rfl⟩
  | inf s => simp [F64.toInt?] at h
  | nan => simp [F64.toInt?] at h

theorem int_eq_sign_natAbs (v : Int) :
    (if decide (v < 0) then -((v.natAbs : Nat) : Int) else ((v.natAbs : Nat) : Int)) = v := by
  by_cases h : v < 0
  · rw [if_pos (by simpa using h)]; omega
  · rw [if_neg (by simpa using h)]; omega

theorem ofInt_eq (n : Int) (h : n.natAbs < 2 ^ 53) :
    F64.ofInt n = .fin (decide (n < 0)) n.natAbs 0 := by
  have hb : bits n.natAbs ≤ 53 := bits_le h
  by_cases hm : n.natAbs = 0
  · simp [F64.ofInt, F64.round64, F64.round, hm]
  · have hshift : max ((bits n.natAbs : Int) - ((53 : Nat) : Int)) (-1074 - 0) ≤ 0 := by omega
    have hov : ¬ ((bits n.natAbs : Int) + 0 > 1024) := by omega
    simp only [F64.ofInt, F64.round64, F64.round, hm, if_false, hshift, if_true, hov]

theorem ofInt_toInt (n : Int) (h : n.natAbs < 2 ^ 53) : (F64.ofInt n).toInt? = some n := by
  rw [ofInt_eq n h, toInt_fin _ _ _ n.natAbs (by simp [F64.intMag]), int_eq_sign_natAbs]

theorem round64_toInt (neg : Bool) (m : Nat) (e : Int) (a : Nat)
    (h : F64.intMag m e = some a) (ha : a < 2 ^ 53) :
    (F64.round64 neg m e).toInt? = some (if neg then -(a : Int) else (a : Int)) := by
  obtain ⟨m1, e1, h1, h2⟩ := round64_exact neg m e a h ha
  rw [h1, toInt_fin _ _ _ a h2]

theorem intMag_mul_left (c n : Nat) (f : Int) (b : Nat) (h : F64.intMag n f = some b) :
    F64.intMag (c * n) f = some (c * b) := by
  by_cases hf : 0 ≤ f
  · have h1 : n * 2 ^ f.toNat = b := by simpa [F64.intMag, hf] using h
    simp [F64.intMag, hf, ← h1, Nat.mul_assoc]
  · have h1 := intMag_neg_exp hf h
    rw [h1, ← Nat.mul_assoc]
    exact intMag_mul_pow (c * b) _ f (by omega)

theorem sign_mul (s t : Bool) (A B : Nat) :
    (if xor s t then -((A * B : Nat) : Int) else ((A * B : Nat) : Int)) =
      (if s then -(A : Int) else (A : Int)) * (if t then -(B : Int) else (B : Int)) := by
  cases s <;> cases t <;> simp

theorem mul_ofInt_exact (v : Int) (g : F64) (y : Int) (hv : v.natAbs < 2 ^ 53)
    (hg : g.toInt? = some y) (hb : (v * y).natAbs < 2 ^ 53) :
    (F64.mul (F64.ofInt v) g).toInt? = some (v * y) := by
  obtain ⟨t, n, f, b, rfl, hn, hy⟩ := toInt_cases g y hg
  have hyb : y.natAbs = b := by
    rw [hy]; cases t <;> simp
  have hprod : v.natAbs * b < 2 ^ 53 := by
    rw [← hyb, ← Int.natAbs_mul]; exact hb
  rw [ofInt_eq v hv]
  simp only [F64.mul, Int.zero_add]
  rw [round64_toInt _ _ _ _ (intMag_mul_left v.natAbs n f b hn) hprod, sign_mul,
    int_eq_sign_natAbs, ← hy]

theorem trunc_of_toInt (f : F64) (N : Int) (h : f.toInt? = some N) : f.trunc = some N := by
  obtain ⟨t, n, e, b, rfl, hn, hy⟩ := toInt_cases f N h
  rw [hy]
  by_cases he : 0 ≤ e
  · have h1 : n * 2 ^ e.toNat = b := by simpa [F64.intMag, he] using hn
    simp [F64.trunc, he, h1]
  · have h1 := intMag_neg_exp he hn
    have h2 : n / 2 ^ (-e).toNat = b := by
      rw [h1]; exact Nat.mul_div_cancel _ (Nat.two_pow_pos _)
    simp [F64.trunc, he, h2]

theorem convertToInt_exact (P : Platform) (t : ValueType) (lo hi : Int) (f : F64) (N : Int)
    (h : f.toInt? = some N) (h1 : lo ≤ N) (h2 : N ≤ hi) : convertToInt P t lo hi f = N := by
  simp [convertToInt, trunc_of_toInt f N h, h1, h2]

theorem toInt_neg (g : F64) (y : Int) (h : g.toInt? = some y) : (F64.neg g).toInt? = some (-y) := by
  obtain ⟨t, n, f, b, rfl, hn, hy⟩ := toInt_cases g y h
  rw [hy]
  simp only [F64.neg]
  rw [toInt_fin _ _ _ b hn]
  cases t <;> simp

theorem natAbs_mul_two_pow (z : Int) (j : Nat) :
    (z * 2 ^ j).natAbs = z.natAbs * 2 ^ j := by
  rw [Int.natAbs_mul, Int.natAbs_pow]
  rfl

theorem add_ofInt_exact (v : Int) (g : F64) (y : Int) (hv : v.natAbs < 2 ^ 53)
    (hg : g.toInt? = some y) (hb : (v + y).natAbs < 2 ^ 53) :
    (F64.add (F64.ofInt v) g).toInt? = some (v + y) := by
  obtain ⟨t, n, f, b, rfl, hn, hy⟩ := toInt_cases g y hg
  rw [ofInt_eq v hv]
  have hvs : (if decide (v < 0) = true then (-1 : Int) else 1) * ((v.natAbs : Nat) : Int) = v := by
    have := int_eq_sign_natAbs v
    by_cases h : v < 0
    · simp only [h, decide_True, if_true] at this ⊢; omega
    · simp only [h, decide_False] at this ⊢
      simp at this ⊢
      omega
  have hys : ∀ c : Int, (if t = true then (-1 : Int) else 1) * ((b : Int) * c) = y * c := by
    intro c
    rw [hy]
    cases t <;> simp
  by_cases hf : 0 ≤ f
  · have h1 : n * 2 ^ f.toNat = b := by simpa [F64.intMag, hf] using hn
    have hmin : min (0 : Int) f = 0 := min_eq_left hf
    have hX : (if decide (v < 0) = true then (-1 : Int) else 1)
        * (((v.natAbs : Nat) : Int) * 2 ^ ((0 : Int) - 0).toNat) = v := by
      simpa using hvs
    have hY : (if t = true then (-1 : Int) else 1) * ((n : Int) * 2 ^ (f - 0).toNat) = y := by
      have := hys 1
      rw [← h1] at this
      simpa [Nat.cast_mul, Nat.cast_pow] using this
    simp only [F64.add, hmin, hX, hY]
    by_cases hz : v + y = 0
    · rw [if_pos hz, hz, toInt_fin _ _ _ 0 (by simp [F64.intMag])]
      simp
    · rw [if_neg hz, round64_toInt _ _ _ (v + y).natAbs (by simp [F64.intMag]) hb,
        int_eq_sign_natAbs]
  · have h1 := intMag_neg_exp hf hn
    have hmin : min (0 : Int) f = f := min_eq_right (by omega)
    obtain ⟨j, hj⟩ : ∃ j : Nat, (-f).toNat = j := ⟨_, rfl⟩
    rw [hj] at h1
    have hj1 : ((0 : Int) - f).toNat = j := by omega
    have hj2 : (f - f).toNat = 0 := by omega
    have hX : (if decide (v < 0) = true then (-1 : Int) else 1)
        * (((v.natAbs : Nat) : Int) * 2 ^ j) = v * 2 ^ j := by
      rw [← Int.mul_assoc, hvs]
    have hY : (if t = true then (-1 : Int) else 1) * ((n : Int) * 2 ^ 0) = y * 2 ^ j := by
      have := hys (2 ^ j)
      rw [h1]
      simpa [Nat.cast_mul, Nat.cast_pow] using this
    have hsum : v * 2 ^ j + y * 2 ^ j = (v + y) * 2 ^ j := by ring
    have hpos : (0 : Int) < 2 ^ j := by positivity
    simp only [F64.add, hmin, hj1, hj2, hX, hY, hsum]
    by_cases hz : v + y = 0
    · have : (v + y) * 2 ^ j = 0 := by rw [hz]; simp
      have h0 : F64.intMag 0 f = some 0 := by
        have := intMag_mul_pow 0 j f (by omega)
        simpa using this
      rw [if_pos this, hz, toInt_fin _ _ _ 0 h0]
      simp
    · have hne : ¬ ((v + y) * 2 ^ j = 0) := by
        intro h
        rcases Int.mul_eq_zero.1 h with h | h
        · exact hz h
        · omega
      have hneg : decide ((v + y) * 2 ^ j < 0) = decide (v + y < 0) := by
        have : (v + y) * 2 ^ j < 0 ↔ v + y < 0 := by
          constructor
          · intro h
            by_contra h'
            have : 0 ≤ (v + y) * 2 ^ j := Int.mul_nonneg (by omega) (le_of_lt hpos)
            omega
          · intro h
            exact Int.mul_neg_of_neg_of_pos h hpos
        simp [this]
      rw [if_neg hne, hneg, natAbs_mul_two_pow,
        round64_toInt _ _ _ (v + y).natAbs (intMag_mul_pow _ j f (by omega)) hb,
        int_eq_sign_natAbs]

theorem sub_ofInt_exact (v : Int) (g : F64) (y : Int) (hv : v.natAbs < 2 ^ 53)
    (hg : g.toInt? = some y) (hb : (v - y).natAbs < 2 ^ 53) :
    (F64.sub (F64.ofInt v) g).toInt? = some (v - y) := by
  have := add_ofInt_exact v (F64.neg g) (-y) hv (toInt_neg g y hg)
    (by rw [← Int.sub_eq_add_neg]; exact hb)
  rw [← Int.sub_eq_add_neg] at this
  exact this

theorem div_sign (v y : Int) (t : Bool) (b : Nat) (hb : 0 < b)
    (hy : y = (if t then -(b : Int) else (b : Int))) (hv : v ≠ 0) :
    (if xor (decide (v * y < 0)) t then -((v.natAbs : Nat) : Int) else ((v.natAbs : Nat) : Int))
      = v := by
  have hbpos : (0 : Int) < b := by exact_mod_cast hb
  have key : xor (decide (v * y < 0)) t = decide (v < 0) := by
    cases t with
    | false =>
      simp only [Bool.false_eq_true, if_false] at hy
      have : v * y < 0 ↔ v < 0 := by
        rw [mul_neg_iff]
        constructor
        · rintro (⟨_, h⟩ | ⟨h, _⟩)
          · omega
          · exact h
        · intro h; exact Or.inr ⟨h, by omega⟩
      simp [this]
    | true =>
      simp only [if_true] at hy
      have : v * y < 0 ↔ ¬ v < 0 := by
        rw [mul_neg_iff]
        constructor
        · rintro (⟨h, _⟩ | ⟨_, h⟩)
          · omega
          · omega
        · intro h; exact Or.inl ⟨by omega, by omega⟩
      by_cases hvn : v < 0
      · simp [this, hvn]
      · simp [this, hvn]
  rw [key, int_eq_sign_natAbs]

theorem div_ofInt_exact (v y : Int) (g : F64) (hy : y ≠ 0) (hg : g.toInt? = some y)
    (hb : (v * y).natAbs < 2 ^ 53) :
    (F64.div (F64.ofInt (v * y)) g).toInt? = some v := by
  obtain ⟨t, n, f, b, rfl, hn, hyb⟩ := toInt_cases g y hg
  have hynat : y.natAbs = b := by
    rw [hyb]; cases t <;> simp
  have hbpos : 0 < b := by
    rw [← hynat]; exact Int.natAbs_pos.2 hy
  have hA : (v * y).natAbs = v.natAbs * b := by rw [Int.natAbs_mul, hynat]
  have hn0 : n ≠ 0 := by
    intro h
    rw [h] at hn
    have := intMag_zero f b hn
    omega
  rw [ofInt_eq _ hb, hA]
  simp only [F64.div, hn0, if_false]
  by_cases hA0 : v.natAbs * b = 0
  · have hv0 : v = 0 := by
      rcases Nat.mul_eq_zero.1 hA0 with h | h
      · exact Int.natAbs_eq_zero.1 h
      · omega
    rw [if_pos hA0, toInt_fin _ _ _ 0 (by simp [F64.intMag]), hv0]
    simp
  · rw [if_neg hA0]
    have hv0 : v ≠ 0 := by
      intro h; rw [h] at hA0; simp at hA0
    have hvlt : v.natAbs < 2 ^ 53 := by
      have : v.natAbs ≤ v.natAbs * b := Nat.le_mul_of_pos_right _ hbpos
      rw [hA] at hb
      omega
    have hbitsA : bits (v.natAbs * b) ≤ 53 := by
      rw [hA] at hb; exact bits_le hb
    obtain ⟨k, hk⟩ : ∃ k : Nat, bits n + 55 - bits (v.natAbs * b) = k := ⟨_, rfl⟩
    have hnpos : 0 < n := Nat.pos_of_ne_zero hn0
    have hmain : ∃ c : Nat, v.natAbs * b * 2 ^ k = (v.natAbs * 2 ^ c) * n ∧
        (0 : Int) - f - (k : Int) - 1 = -((c + 1 : Nat) : Int) := by
      by_cases hf : 0 ≤ f
      · have h1 : n * 2 ^ f.toNat = b := by simpa [F64.intMag, hf] using hn
        refine ⟨f.toNat + k, ?_, by omega⟩
        rw [← h1, Nat.pow_add]
        ring
      · have h1 := intMag_neg_exp hf hn
        obtain ⟨j, hj⟩ : ∃ j : Nat, (-f).toNat = j := ⟨_, rfl⟩
        rw [hj] at h1
        have hjn : 2 ^ j ≤ n := by
          rw [h1]; exact Nat.le_mul_of_pos_left _ hbpos
        have hjb : j < bits n := lt_bits hjn
        have hkj : j ≤ k := by omega
        refine ⟨k - j, ?_, by omega⟩
        have hpow : 2 ^ k = 2 ^ (k - j) * 2 ^ j := by
          rw [← Nat.pow_add, Nat.sub_add_cancel hkj]
        rw [h1, hpow]
        ring
    obtain ⟨c, hc1, hc2⟩ := hmain
    have hq : v.natAbs * b * 2 ^ k / n = v.natAbs * 2 ^ c := by
      rw [hc1]; exact Nat.mul_div_cancel _ hnpos
    have hr : v.natAbs * b * 2 ^ k % n = 0 := by
      rw [hc1]; exact Nat.mul_mod_left _ _
    have hM : 2 * (v.natAbs * 2 ^ c) + 0 = v.natAbs * 2 ^ (c + 1) := by
      rw [Nat.pow_succ]; ring
    simp only [F64.divRound, hk, hq, hr, if_true, hM, hc2]
    rw [round64_toInt _ _ _ v.natAbs (intMag_mul_pow _ (c + 1) _ rfl) hvlt]
    exact congrArg some (div_sign v y t b hbpos hyb hv0)

/-! ## Value transforms: the round trip -/

theorem toFloat64_int (cv : CommandValue) (lo hi w : Int)
    (hT : cv.Type_.intRange = some (lo, hi)) :
    commandValueToFloat64 { cv with NumericValue := .int w } = .ok (F64.ofInt w) := by
  cases h : cv.Type_ <;> simp_all [ValueType.intRange, commandValueToFloat64]

theorem replace_trunc (P : Platform) (cv : CommandValue) (lo hi w N : Int) (f : F64)
    (hT : cv.Type_.intRange = some (lo, hi)) (hf : f.trunc = some N)
    (h1 : lo ≤ N) (h2 : N ≤ hi) :
    replaceCommandValueFromFloat64 P { cv with NumericValue := .int w } f
      = ({ cv with NumericValue := .int N }, none) := by
  have hc : convertToInt P cv.Type_ lo hi f = N := by simp [convertToInt, hf, h1, h2]
  cases h : cv.Type_ <;>
    simp_all [ValueType.intRange, replaceCommandValueFromFloat64, convertNumericFromFloat64]

theorem replace_int (P : Platform) (cv : CommandValue) (lo hi w N : Int) (f : F64)
    (hT : cv.Type_.intRange = some (lo, hi)) (hf : f.toInt? = some N)
    (h1 : lo ≤ N) (h2 : N ≤ hi) :
    replaceCommandValueFromFloat64 P { cv with NumericValue := .int w } f
      = ({ cv with NumericValue := .int N }, none) :=
  replace_trunc P cv lo hi w N f hT (trunc_of_toInt f N hf) h1 h2

theorem isZero_of_toInt (f : F64) (k : Int) (h : f.toInt? = some k) (hk : k ≠ 0) :
    f.isZero = false := by
  obtain ⟨t, n, e, b, rfl, hn, hy⟩ := toInt_cases f k h
  simp only [F64.isZero, decide_eq_false_iff_not]
  intro h0
  rw [h0] at hn
  have := intMag_zero e b hn
  subst this
  cases t <;> simp at hy <;> exact hk hy

theorem replace_convert (P : Platform) (cv : CommandValue) (lo hi w : Int) (f : F64)
    (hT : cv.Type_.intRange = some (lo, hi)) :
    replaceCommandValueFromFloat64 P { cv with NumericValue := .int w } f
      = ({ cv with NumericValue := .int (convertToInt P cv.Type_ lo hi f) }, none) := by
  cases h : cv.Type_ <;>
    simp_all [ValueType.intRange, replaceCommandValueFromFloat64, convertNumericFromFloat64]

theorem base_steps (P : Platform) (cv : CommandValue) (base : String) (lo hi v p : Int)
    (hT : cv.Type_.intRange = some (lo, hi))
    (hB : base = "" ∨ ∃ b, P.ParseFloat base = .ok b) :
    (if base ≠ "" then transformReadBase P { cv with NumericValue := .int v } base
      else ({ cv with NumericValue := .int v }, none))
      = ({ cv with NumericValue := .int (baseRead P base cv.Type_ lo hi v) }, none) ∧
    (if base ≠ "" then transformWriteBase P { cv with NumericValue := .int p } base
      else ({ cv with NumericValue := .int p }, none))
      = ({ cv with NumericValue := .int (baseWrite P base cv.Type_ lo hi p) }, none) := by
  by_cases h : base = ""
  · simp [h, baseRead, baseWrite]
  · rcases hB with hB | ⟨b, hb⟩
    · exact absurd hB h
    · by_cases hz : b.isZero = true
      · simp [h, baseRead, baseWrite, transformReadBase, transformWriteBase,
          toFloat64_int cv lo hi v hT, toFloat64_int cv lo hi p hT, hb, hz]
      · simp only [ne_eq, h, not_false_eq_true, if_true, baseRead, baseWrite, if_false,
          transformReadBase, transformWriteBase, toFloat64_int cv lo hi v hT,
          toFloat64_int cv lo hi p hT, hb, hz]
        exact ⟨replace_convert P cv lo hi v _ hT, replace_convert P cv lo hi p _ hT⟩

theorem readScale_int (P : Platform) (cv : CommandValue) (scale : String) (lo hi w s : Int)
    (hT : cv.Type_.intRange = some (lo, hi)) (hS : ParamIs P scale 1 s)
    (hw : w.natAbs < 2 ^ 53) (hb : (w * s).natAbs < 2 ^ 53)
    (h1 : lo ≤ w * s) (h2 : w * s ≤ hi) :
    (if scale ≠ "" then transformReadScale P { cv with NumericValue := .int w } scale
      else ({ cv with NumericValue := .int w }, none))
      = ({ cv with NumericValue := .int (w * s) }, none) := by
  rcases hS with ⟨he, hs⟩ | ⟨hne, f, hf, hfs⟩
  · simp [he, hs]
  · simp only [hne, ne_eq, not_false_eq_true, if_true, transformReadScale,
      toFloat64_int cv lo hi w hT, hf]
    exact replace_int P cv lo hi w (w * s) _ hT (mul_ofInt_exact w f s hw hfs hb) h1 h2

theorem readOffset_int (P : Platform) (cv : CommandValue) (offset : String) (lo hi w o : Int)
    (hT : cv.Type_.intRange = some (lo, hi)) (hO : ParamIs P offset 0 o)
    (hw : w.natAbs < 2 ^ 53) (hb : (w + o).natAbs < 2 ^ 53)
    (h1 : lo ≤ w + o) (h2 : w + o ≤ hi) :
    (if offset ≠ "" then transformReadOffset P { cv with NumericValue := .int w } offset
      else ({ cv with NumericValue := .int w }, none))
      = ({ cv with NumericValue := .int (w + o) }, none) := by
  rcases hO with ⟨he, hs⟩ | ⟨hne, f, hf, hfs⟩
  · simp [he, hs]
  · simp only [hne, ne_eq, not_false_eq_true, if_true, transformReadOffset,
      toFloat64_int cv lo hi w hT, hf]
    exact replace_int P cv lo hi w (w + o) _ hT (add_ofInt_exact w f o hw hfs hb) h1 h2

theorem writeOffset_int (P : Platform) (cv : CommandValue) (offset : String) (lo hi w o : Int)
    (hT : cv.Type_.intRange = some (lo, hi)) (hO : ParamIs P offset 0 o)
    (hw : w.natAbs < 2 ^ 53) (hb : (w - o).natAbs < 2 ^ 53)
    (h1 : lo ≤ w - o) (h2 : w - o ≤ hi) :
    (if offset ≠ "" then transformWriteOffset P { cv with NumericValue := .int w } offset
      else ({ cv with NumericValue := .int w }, none))
      = ({ cv with NumericValue := .int (w - o) }, none) := by
  rcases hO with ⟨he, hs⟩ | ⟨hne, f, hf, hfs⟩
  · simp [he, hs]
  · simp only [hne, ne_eq, not_false_eq_true, if_true, transformWriteOffset,
      toFloat64_int cv lo hi w hT, hf]
    exact replace_int P cv lo hi w (w - o) _ hT (sub_ofInt_exact w f o hw hfs hb) h1 h2

theorem writeScale_int (P : Platform) (cv : CommandValue) (scale : String) (lo hi u s : Int)
    (hT : cv.Type_.intRange = some (lo, hi)) (hS : ParamIs P scale 1 s) (hs0 : s ≠ 0)
    (hb : (u * s).natAbs < 2 ^ 53) (h1 : lo ≤ u) (h2 : u ≤ hi) :
    (if scale ≠ "" then transformWriteScale P { cv with NumericValue := .int (u * s) } scale
      else ({ cv with NumericValue := .int (u * s) }, none))
      = ({ cv with NumericValue := .int u }, none) := by
  rcases hS with ⟨he, hs⟩ | ⟨hne, f, hf, hfs⟩
  · simp [he, hs]
  · simp only [hne, ne_eq, not_false_eq_true, if_true, transformWriteScale,
      toFloat64_int cv lo hi (u * s) hT, hf, isZero_of_toInt f s hfs hs0]
    exact replace_int P cv lo hi (u * s) u _ hT (div_ofInt_exact u s f hs0 hfs hb) h1 h2

theorem natAbs_le_mul (v s : Int) (hs : s ≠ 0) : v.natAbs ≤ (v * s).natAbs := by
  rw [Int.natAbs_mul]
  exact Nat.le_mul_of_pos_right _ (Int.natAbs_pos.2 hs)

/-- C6, the claim as stated fails.  With Scale `0.5` and no Base or Offset the
int32 value 3 reads as 1 (1.5 truncated) and the write transform of 1 gives 2,
not 3.  With Base `1` the int32 values 3 and 4 both read as 1, so no write
transform can recover both.  And at the claim's own example, the int32 value 3
with Base `10`, Scale `2` and Offset `5` reads as 2005, but the write
transform of 2005 gives 2: in double precision `Log(1000) / Log(10)` is
2.9999999999999996, which the conversion to int32 truncates. -/
theorem transform_roundtrip_loses_value :
    TransformReadResult samplePlatform (int32Value 3)
        { Base := "", Scale := "0.5", Offset := "", Assertion := "" }
      = (int32Value 1, none) ∧
    TransformWriteParameter samplePlatform (int32Value 1)
        { Base := "", Scale := "0.5", Offset := "", Assertion := "" }
      = (int32Value 2, none) ∧
    int32Value 2 ≠ int32Value 3 ∧
    TransformReadResult samplePlatform (int32Value 3)
        { Base := "1", Scale := "", Offset := "", Assertion := "" }
      = (int32Value 1, none) ∧
    TransformReadResult samplePlatform (int32Value 4)
        { Base := "1", Scale := "", Offset := "", Assertion := "" }
      = (int32Value 1, none) ∧
    TransformReadResult samplePlatformMath (int32Value 3)
        { Base := "10", Scale := "2", Offset := "5", Assertion := "" }
      = (int32Value 2005, none) ∧
    TransformWriteParameter samplePlatformMath (int32Value 2005)
        { Base := "10", Scale := "2", Offset := "5", Assertion := "" }
      = (int32Value 2, none) ∧
    F64.div (samplePlatformMath.Log (F64.ofInt 1000)) (samplePlatformMath.Log (F64.ofInt 10))
      = .fin false 0x17ffffffffffff (-51) := by
  decide

/-- C6 as amended: for a value v of an integer type, with Scale and Offset
each empty or parsing to integers s (non-zero) and o and a Base that is empty
or parses, let p be the value the base step of the read leaves (v when the
step is off, otherwise Pow(Base, v) converted to the type).  When p, p*s and
p*s+o lie in the type's range, with p*s and p*s+o below 2^53 in magnitude,
TransformReadResult returns no error and the value p*s+o, and
TransformWriteParameter on that value with the same parameters returns no
error and the value the base step of the write leaves for p (p when the step
is off, otherwise Log(p) / Log(Base) computed in double precision and
converted to the type).  So v is recovered when the base step is off, and with
an active Base exactly when that quotient converts to v. -/
theorem transform_roundtrip_exact (P : Platform) (cv : CommandValue) (pv : PropertyValue)
    (v p s o lo hi : Int)
    (hT : cv.Type_.intRange = some (lo, hi)) (hv : cv.NumericValue = .int v)
    (hB : pv.Base = "" ∨ ∃ b, P.ParseFloat pv.Base = .ok b)
    (hp : p = baseRead P pv.Base cv.Type_ lo hi v)
    (hS : ParamIs P pv.Scale 1 s) (hs0 : s ≠ 0)
    (hO : ParamIs P pv.Offset 0 o)
    (hr0 : lo ≤ p ∧ p ≤ hi)
    (hr1 : lo ≤ p * s ∧ p * s ≤ hi) (hr2 : lo ≤ p * s + o ∧ p * s + o ≤ hi)
    (hb1 : (p * s).natAbs < 2 ^ 53) (hb2 : (p * s + o).natAbs < 2 ^ 53) :
    TransformReadResult P cv pv = ({ cv with NumericValue := .int (p * s + o) }, none) ∧
    TransformWriteParameter P (TransformReadResult P cv pv).1 pv =
      ({ cv with NumericValue := .int (baseWrite P pv.Base cv.Type_ lo hi p) }, none) ∧
    (BaseOff P pv.Base →
      TransformWriteParameter P (TransformReadResult P cv pv).1 pv = (cv, none)) ∧
    (TransformWriteParameter P (TransformReadResult P cv pv).1 pv = (cv, none) ↔
      baseWrite P pv.Base cv.Type_ lo hi p = v) := by
  have hplt : p.natAbs < 2 ^ 53 := lt_of_le_of_lt (natAbs_le_mul p s hs0) hb1
  have hne : ¬ (cv.Type_ = .String ∨ cv.Type_ = .Bool) := by
    intro h
    rcases h with h | h <;> rw [h] at hT <;> simp [ValueType.intRange] at hT
  have hcv : cv = { cv with NumericValue := .int v } := by
    cases cv
    simp only at hv
    subst hv
    rfl
  have hsub : p * s + o - o = p * s := by omega
  obtain ⟨rb, wb⟩ := base_steps P cv pv.Base lo hi v p hT hB
  rw [← hp] at rb
  have rs := readScale_int P cv pv.Scale lo hi p s hT hS hplt hb1 hr1.1 hr1.2
  have ro := readOffset_int P cv pv.Offset lo hi (p * s) o hT hO hb1 hb2 hr2.1 hr2.2
  have wo := writeOffset_int P cv pv.Offset lo hi (p * s + o) o hT hO hb2
    (by rw [hsub]; exact hb1) (by rw [hsub]; exact hr1.1) (by rw [hsub]; exact hr1.2)
  rw [hsub] at wo
  have ws := writeScale_int P cv pv.Scale lo hi p s hT hS hs0 hb1 hr0.1 hr0.2
  have hread : TransformReadResult P cv pv
      = ({ cv with NumericValue := .int (p * s + o) }, none) := by
    have hne1 : ¬ (({ cv with NumericValue := .int v } : CommandValue).Type_ = .String ∨
        ({ cv with NumericValue := .int v } : CommandValue).Type_ = .Bool) := hne
    have : TransformReadResult P { cv with NumericValue := .int v } pv
        = ({ cv with NumericValue := .int (p * s + o) }, none) := by
      simp only [TransformReadResult, hne1, if_false, rb, rs, ro]
    rw [← hcv] at this
    exact this
  have hne2 : ¬ (({ cv with NumericValue := .int (p * s + o) } : CommandValue).Type_ = .String ∨
      ({ cv with NumericValue := .int (p * s + o) } : CommandValue).Type_ = .Bool) := hne
  have hwrite : TransformWriteParameter P { cv with NumericValue := .int (p * s + o) } pv
      = ({ cv with NumericValue := .int (baseWrite P pv.Base cv.Type_ lo hi p) }, none) := by
    simp only [TransformWriteParameter, hne2, if_false, wo, ws, wb]
  have hoff : BaseOff P pv.Base → baseWrite P pv.Base cv.Type_ lo hi p = v := by
    intro hoffb
    have hpv : p = v := by
      rw [hp]
      unfold baseRead
      rcases hoffb with h | ⟨b, hb, hz⟩
      · simp only [h, if_true]
      · by_cases h : pv.Base = ""
        · simp only [h, if_true]
        · simp only [h, if_false, hb, hz, if_true]
    unfold baseWrite
    rcases hoffb with h | ⟨b, hb, hz⟩
    · simp only [h, if_true, hpv]
    · by_cases h : pv.Base = ""
      · simp only [h, if_true, hpv]
      · simp only [h, if_false, hb, hz, if_true, hpv]
  have hiff : ∀ w : Int, ({ cv with NumericValue := .int w } : CommandValue) = cv ↔ w = v := by
    intro w
    constructor
    · intro h
      have h1 := congrArg CommandValue.NumericValue h
      simp only [hv, Numeric.int.injEq] at h1
      exact h1
    · intro h
      rw [h]
      exact hcv.symm
  rw [hread]
  refine ⟨rfl, hwrite, fun hoffb => ?_, ?_⟩
  · rw [hwrite, hoff hoffb]
    exact congrArg (fun c => (c, (none : Option String))) hcv.symm
  · rw [hwrite]
    constructor
    · intro h
      exact (hiff _).1 (congrArg Prod.fst h)
    · intro h
      rw [h]
      exact congrArg (fun c => (c, (none : Option String))) hcv.symm

/-- Witness of C6 as amended: with Base `10`, Scale `2` and Offset `5` the
int32 value 2 reads as 205, 100 doubled plus 5, and the write transform of
205 gives 2 back, `Log(100) / Log(10)` being 2 in double precision. -/
theorem transform_roundtrip_exact_witness :
    baseRead samplePlatformMath "10" .Int32 (-2 ^ 31) (2 ^ 31 - 1) 2 = 100 ∧
    baseWrite samplePlatformMath "10" .Int32 (-2 ^ 31) (2 ^ 31 - 1) 100 = 2 ∧
    TransformReadResult samplePlatformMath (int32Value 2)
        { Base := "10", Scale := "2", Offset := "5", Assertion := "" }
      = ({ int32Value 2 with NumericValue := .int (100 * 2 + 5) }, none) ∧
    TransformWriteParameter samplePlatformMath
        (TransformReadResult samplePlatformMath (int32Value 2)
          { Base := "10", Scale := "2", Offset := "5", Assertion := "" }).1
        { Base := "10", Scale := "2", Offset := "5", Assertion := "" }
      = (int32Value 2, none) :=
  ⟨by decide, by decide,
    (transform_roundtrip_exact samplePlatformMath (int32Value 2)
      { Base := "10", Scale := "2", Offset := "5", Assertion := "" }
      2 100 2 5 (-2 ^ 31) (2 ^ 31 - 1) rfl rfl
      (Or.inr ⟨_, rfl⟩) (by decide)
      (Or.inr ⟨by decide, _, rfl, by decide⟩) (by decide)
      (Or.inr ⟨by decide, _, rfl, by decide⟩)
      (by decide) (by decide) (by decide) (by decide) (by decide)).1,
    (transform_roundtrip_exact samplePlatformMath (int32Value 2)
      { Base := "10", Scale := "2", Offset := "5", Assertion := "" }
      2 100 2 5 (-2 ^ 31) (2 ^ 31 - 1) rfl rfl
      (Or.inr ⟨_, rfl⟩) (by decide)
      (Or.inr ⟨by decide, _, rfl, by decide⟩) (by decide)
      (Or.inr ⟨by decide, _, rfl, by decide⟩)
      (by decide) (by decide) (by decide) (by decide) (by decide)).2.2.2.2 (by decide)⟩

/-! ## Command dispatch: validation in CommandHandler -/

theorem writeValuesLoop_error (env : Env) (device : Device) (cvs : List CommandValue) :
    ∀ err, writeValuesLoop env device cvs = .error err → err = .ServerError := by
  induction cvs with
  | nil => intro err h; simp [writeValuesLoop] at h
  | cons cv rest ih =>
    intro err h
    unfold writeValuesLoop at h
    split at h
    · cases h; rfl
    · simp only [] at h
      split at h
      · cases h; rfl
      · split at h
        · rename_i e he
          cases h
          exact ih _ he
        · cases h

/-- The errors of `execReadCmd`: a NotFound is returned before anything is
done, and every other error is a ServerError. -/
theorem execReadCmd_error (env : Env) (device : Device) (cmd : String) (err : AppError)
    (h : (execReadCmd env device cmd).err = some err) :
    (err = .NotFound ∧ (execReadCmd env device cmd).effects = [] ∧
      (execReadCmd env device cmd).event = none) ∨ err = .ServerError := by
  cases hros : env.Profiles.ResourceOperations device.ProfileName cmd "get" with
  | error e =>
    simp only [execReadCmd, hros, Option.some.injEq] at h ⊢
    exact Or.inl ⟨h.symm, by trivial⟩
  | ok ros =>
    right
    by_cases hmax : ros.length > env.MaxCmdOps
    · simp only [execReadCmd, hros, hmax, if_true, Option.some.injEq] at h
      exact h.symm
    · cases hreq : buildReadRequests env device ros with
      | none =>
        simp only [execReadCmd, hros, hmax, if_false, hreq, Option.some.injEq] at h
        exact h.symm
      | some reqs =>
        cases hdrv : env.Driver.HandleReadCommands device.Addressable reqs with
        | error e =>
          simp only [execReadCmd, hros, hmax, if_false, hreq, hdrv, Option.some.injEq] at h
          exact h.symm
        | ok results =>
          cases hl : readResultsLoop env results
              { readings := [], transformsOK := true, device := device,
                effects := [.driverRead device.Addressable reqs] } with
          | inl st =>
            simp only [execReadCmd, hros, hmax, if_false, hreq, hdrv, hl,
              Option.some.injEq] at h
            exact h.symm
          | inr st =>
            simp only [execReadCmd, hros, hmax, if_false, hreq, hdrv, hl] at h
            split at h
            · cases h
            · simp only [Option.some.injEq] at h
              exact h.symm

/-- The errors of `execWriteCmd`: a BadRequest is returned before anything is
done, and every other error is a ServerError. -/
theorem execWriteCmd_error (env : Env) (device : Device) (cmd params : String)
    (err : AppError) (h : (execWriteCmd env device cmd params).1 = some err) :
    (err = .BadRequest ∧ (execWriteCmd env device cmd params).2 = []) ∨
      err = .ServerError := by
  cases hros : env.Profiles.ResourceOperations device.ProfileName cmd "set" with
  | error e =>
    simp only [execWriteCmd, hros, Option.some.injEq] at h ⊢
    exact Or.inl ⟨h.symm, by trivial⟩
  | ok ros =>
    by_cases hmax : ros.length > env.MaxCmdOps
    · simp only [execWriteCmd, hros, hmax, if_true, Option.some.injEq] at h
      exact Or.inr h.symm
    · cases hp : parseWriteParams env (roSliceToMap ros) params with
      | mk cvs perr =>
        cases perr with
        | some e =>
          simp only [execWriteCmd, hros, hmax, if_false, hp, Option.some.injEq] at h ⊢
          exact Or.inl ⟨h.symm, by trivial⟩
        | none =>
          right
          cases hw : writeValuesLoop env device cvs with
          | error e =>
            simp only [execWriteCmd, hros, hmax, if_false, hp, hw, Option.some.injEq] at h
            rw [← h]
            exact writeValuesLoop_error env device cvs e hw
          | ok pair =>
            obtain ⟨reqs, cvs1⟩ := pair
            simp only [execWriteCmd, hros, hmax, if_false, hp, hw] at h
            split at h
            · simp only [Option.some.injEq] at h
              exact h.symm
            · cases h

/-- C15: for a device id that the device cache does not find, CommandHandler
returns a NotFound error and no event, whatever the command, method and
body. -/
theorem commandHandler_unknown_device (env : Env) (id cmd body method : String)
    (h : env.Devices.ForId id = none) :
    (CommandHandler env id cmd body method).err = some .NotFound ∧
    (CommandHandler env id cmd body method).event = none := by
  simp [CommandHandler, h]

/-- Witness of C15: the sample cache holds no device with id `5b9`. -/
theorem commandHandler_unknown_device_witness :
    (sampleEnv 5 true).Devices.ForId "5b9" = none ∧
    (CommandHandler (sampleEnv 5 true) "5b9" "temp" "" "get").err = some .NotFound ∧
    (CommandHandler (sampleEnv 5 true) "5b9" "temp" "" "get").event = none :=
  ⟨by decide, commandHandler_unknown_device (sampleEnv 5 true) "5b9" "temp" "" "get" (by decide)⟩

/-- C14: for a device found in the cache whose AdminState is Locked,
CommandHandler returns a Locked error and no event, for every command name
(declared in the profile or not), every method and every body, and has no
effect at all, so the driver is not invoked. -/
theorem commandHandler_locked (env : Env) (id cmd body method : String) (d : Device)
    (hd : env.Devices.ForId id = some d) (hl : d.AdminState = .Locked) :
    (CommandHandler env id cmd body method).err = some .Locked ∧
    (CommandHandler env id cmd body method).event = none ∧
    (CommandHandler env id cmd body method).effects = [] := by
  simp [CommandHandler, hd, hl]

/-- Witness of C14: a write of an undeclared command to the locked device
`valve`. -/
theorem commandHandler_locked_witness :
    ({ sampleEnv 5 true with Devices := newDeviceCache [devValveLocked] } : Env).Devices.ForId
        "5b2" = some devValveLocked ∧
    devValveLocked.AdminState = .Locked ∧
    (CommandHandler { sampleEnv 5 true with Devices := newDeviceCache [devValveLocked] }
        "5b2" "undeclared" "" "put").err = some .Locked :=
  ⟨by decide, rfl,
    (commandHandler_locked { sampleEnv 5 true with Devices := newDeviceCache [devValveLocked] }
      "5b2" "undeclared" "" "put" devValveLocked (by decide) rfl).1⟩

/-- C16, the claim as stated fails: for the unlocked device `valve` whose
profile `ghost` is not in the profile cache, CommandExists returns an error
and CommandHandler answers with a ServerError, not a NotFound. -/
theorem commandHandler_missing_profile_serverError :
    ({ sampleEnv 5 true with Devices := newDeviceCache [devValveOrphan] } : Env).Profiles.ForName
        "ghost" = none ∧
    CommandHandler { sampleEnv 5 true with Devices := newDeviceCache [devValveOrphan] }
        "5b2" "temp" "" "get" =
      { event := none, err := some .ServerError, device := some devValveOrphan,
        effects := [] } := by
  decide

/-- C16 as amended: for a device that is found and not locked, CommandHandler
fails with a NotFound error when CommandExists reports that the command is not
declared in the device's profile, and with a ServerError when CommandExists
returns an error because the profile itself is unknown to it; in both cases no
event is returned and nothing else is done. -/
theorem commandHandler_command_not_confirmed (env : Env) (id cmd body method : String)
    (d : Device) (hd : env.Devices.ForId id = some d) (hl : d.AdminState ≠ .Locked) :
    (env.Profiles.CommandExists d.ProfileName cmd = .ok false →
      (CommandHandler env id cmd body method).err = some .NotFound ∧
      (CommandHandler env id cmd body method).event = none ∧
      (CommandHandler env id cmd body method).effects = []) ∧
    (∀ e, env.Profiles.CommandExists d.ProfileName cmd = .error e →
      (CommandHandler env id cmd body method).err = some .ServerError ∧
      (CommandHandler env id cmd body method).event = none ∧
      (CommandHandler env id cmd body method).effects = []) := by
  constructor
  · intro h
    simp [CommandHandler, hd, hl, h]
  · intro e h
    simp [CommandHandler, hd, hl, h]

/-- Witness of C16 as amended: the command `undeclared` on the device
`thermostat`. -/
theorem commandHandler_command_not_confirmed_witness :
    (sampleEnv 5 true).Devices.ForId "5b1" = some devThermostat ∧
    devThermostat.AdminState ≠ .Locked ∧
    (sampleEnv 5 true).Profiles.CommandExists devThermostat.ProfileName "undeclared"
      = .ok false ∧
    (CommandHandler (sampleEnv 5 true) "5b1" "undeclared" "" "get").err = some .NotFound :=
  ⟨by decide, by decide, by decide,
    ((commandHandler_command_not_confirmed (sampleEnv 5 true) "5b1" "undeclared" "" "get"
      devThermostat (by decide) (by decide)).1 (by decide)).1⟩

/-- C17: whenever CommandHandler returns a NotFound, Locked or BadRequest
error, the dispatch had no effect at all: neither HandleReadCommands nor
HandleWriteCommands of the driver was invoked. -/
theorem commandHandler_validation_error_no_driver (env : Env) (id cmd body method : String)
    (h : (CommandHandler env id cmd body method).err = some .NotFound ∨
      (CommandHandler env id cmd body method).err = some .Locked ∨
      (CommandHandler env id cmd body method).err = some .BadRequest) :
    (CommandHandler env id cmd body method).effects = [] ∧
    (CommandHandler env id cmd body method).effects.any Effect.isDriverCall = false := by
  have key : (CommandHandler env id cmd body method).effects = [] := by
    cases hd : env.Devices.ForId id with
    | none => simp [CommandHandler, hd]
    | some d =>
      by_cases hl : d.AdminState = .Locked
      · simp [CommandHandler, hd, hl]
      · cases hc : env.Profiles.CommandExists d.ProfileName cmd with
        | error e => simp [CommandHandler, hd, hl, hc]
        | ok b =>
          cases b with
          | false => simp [CommandHandler, hd, hl, hc]
          | true =>
            by_cases hm : ToLower method = "get"
            · simp only [CommandHandler, hd, hl, if_false, hc, hm, if_true] at h ⊢
              rcases h with h | h | h
              · rcases execReadCmd_error env d cmd _ h with ⟨_, h2, _⟩ | h2
                · exact h2
                · cases h2
              · rcases execReadCmd_error env d cmd _ h with ⟨h1, _, _⟩ | h2
                · cases h1
                · cases h2
              · rcases execReadCmd_error env d cmd _ h with ⟨h1, _, _⟩ | h2
                · cases h1
                · cases h2
            · simp only [CommandHandler, hd, hl, if_false, hc, hm] at h ⊢
              rcases h with h | h | h
              · rcases execWriteCmd_error env d cmd body _ h with ⟨h1, _⟩ | h2
                · cases h1
                · cases h2
              · rcases execWriteCmd_error env d cmd body _ h with ⟨h1, _⟩ | h2
                · cases h1
                · cases h2
              · rcases execWriteCmd_error env d cmd body _ h with ⟨_, h2⟩ | h2
                · exact h2
                · cases h2
  exact ⟨key, by rw [key]; rfl⟩

/-- Witness of C17: a write to `thermostat` whose body is not JSON is a
BadRequest, and the driver is not invoked. -/
theorem commandHandler_validation_error_no_driver_witness :
    (CommandHandler (sampleEnv 5 true) "5b1" "power" "oops" "put").err = some .BadRequest ∧
    (CommandHandler (sampleEnv 5 true) "5b1" "power" "oops" "put").effects = [] :=
  ⟨by decide,
    (commandHandler_validation_error_no_driver (sampleEnv 5 true) "5b1" "power" "oops" "put"
      (Or.inr (Or.inr (by decide)))).1⟩

/-- C11 at the failing input: a read of the command `power` on the device
`thermostat`, whose value 1 fails the assertion `0`.  CheckAssertion disables
the device it is handed, which is the handler's local copy of the cache entry:
the dispatch ends with that copy Disabled and a ServerError, while ForId,
ForName and All on the device cache still report the device as Enabled. -/
theorem commandHandler_assertion_cache_still_enabled :
    (CommandHandler (sampleEnv 5 true) "5b1" "power" "" "get").err = some .ServerError ∧
    (CommandHandler (sampleEnv 5 true) "5b1" "power" "" "get").device
      = some { devThermostat with OperatingState := .Disabled } ∧
    (CommandHandler (sampleEnv 5 true) "5b1" "power" "" "get").effects.any
      (fun e => decide (e = .updateOpState "thermostat" .Disabled)) = true ∧
    (sampleEnv 5 true).Devices.ForId "5b1" = some devThermostat ∧
    (sampleEnv 5 true).Devices.ForName "thermostat" = some devThermostat ∧
    (sampleEnv 5 true).Devices.All = [devValve, devThermostat] ∧
    devThermostat.OperatingState = .Enabled := by
  decide

/-! ## Fan-out: the aggregation of CommandAllHandler -/

/-- The error count and the event list after the drain. -/
theorem drainResults_counts (rs : List CmdResult) :
    ∀ st : Drain,
      (drainResults rs st).errCount = st.errCount + rs.countP (fun r => r.appErr.isSome) ∧
      (drainResults rs st).getResults =
        st.getResults ++ rs.filterMap (fun r => if r.appErr.isNone then r.event else none) := by
  induction rs with
  | nil => intro st; simp [drainResults]
  | cons r rest ih =>
    intro st
    cases he : r.appErr with
    | some e =>
      obtain ⟨h1, h2⟩ := ih
        { errCount := st.errCount + 1, getResults := st.getResults, appErr := some e }
      simp only [drainResults, he, h1, h2]
      constructor
      · simp [List.countP_cons, he]; omega
      · simp [List.filterMap_cons, he]
    | none =>
      cases hv : r.event with
      | some ev =>
        obtain ⟨h1, h2⟩ := ih { st with getResults := st.getResults ++ [ev] }
        simp only [drainResults, he, hv, h1, h2]
        constructor
        · simp [List.countP_cons, he]
        · simp [List.filterMap_cons, he, hv]
      | none =>
        obtain ⟨h1, h2⟩ := ih st
        simp only [drainResults, he, hv, h1, h2]
        constructor
        · simp [List.countP_cons, he]
        · simp [List.filterMap_cons, he, hv]

/-- The error kept after the drain when the last result drained carries one. -/
theorem drainResults_last_error (rs : List CmdResult) (r : CmdResult) (e : AppError)
    (he : r.appErr = some e) :
    ∀ st : Drain, (drainResults (rs ++ [r]) st).appErr = some e := by
  induction rs with
  | nil => intro st; simp [drainResults, he]
  | cons x rest ih =>
    intro st
    simp only [List.cons_append, drainResults]
    split
    · exact ih _
    · split
      · exact ih _
      · exact ih _

/-- A read that returns no error returns an event. -/
theorem execReadCmd_event_of_no_error (env : Env) (device : Device) (cmd : String)
    (h : (execReadCmd env device cmd).err = none) :
    (execReadCmd env device cmd).event.isSome = true := by
  cases hros : env.Profiles.ResourceOperations device.ProfileName cmd "get" with
  | error e => simp [execReadCmd, hros] at h
  | ok ros =>
    by_cases hmax : ros.length > env.MaxCmdOps
    · simp [execReadCmd, hros, hmax] at h
    · cases hreq : buildReadRequests env device ros with
      | none => simp [execReadCmd, hros, hmax, hreq] at h
      | some reqs =>
        cases hdrv : env.Driver.HandleReadCommands device.Addressable reqs with
        | error e => simp [execReadCmd, hros, hmax, hreq, hdrv] at h
        | ok results =>
          cases hl : readResultsLoop env results
              { readings := [], transformsOK := true, device := device,
                effects := [.driverRead device.Addressable reqs] } with
          | inl st => simp [execReadCmd, hros, hmax, hreq, hdrv, hl] at h
          | inr st => simp [execReadCmd, hros, hmax, hreq, hdrv, hl]

theorem dispatchToDevice_get (env : Env) (cmd body method : String) (hm : ToLower method = "get")
    (d : Device) : dispatchToDevice env cmd body method d = readOutcome env cmd d := by
  simp [dispatchToDevice, readOutcome, hm]

theorem filterMap_success_events (env : Env) (cmd : String) (l : List Device) :
    ((l.map (readOutcome env cmd)).filterMap
        (fun r => if r.appErr.isNone then r.event else none)).map some =
      (l.filter (fun d => (execReadCmd env d cmd).err.isNone)).map
        (fun d => (execReadCmd env d cmd).event) := by
  induction l with
  | nil => rfl
  | cons d l ih =>
    cases he : (execReadCmd env d cmd).err with
    | some e =>
      simp only [List.map_cons, List.filterMap_cons, readOutcome, he, Option.isNone_some,
        Bool.false_eq_true, if_false, List.filter_cons]
      exact ih
    | none =>
      have hev := execReadCmd_event_of_no_error env d cmd he
      obtain ⟨ev, hev⟩ := Option.isSome_iff_exists.1 hev
      simp only [List.map_cons, List.filterMap_cons, readOutcome, he, Option.isNone_none,
        if_true, hev, List.filter_cons]
      rw [← ih]

/-- C12: for a read command fanned out over the operational devices, whatever
the order in which their dispatches complete: if at least one dispatch
returned no error, CommandAllHandler returns a nil error and a list holding
exactly the events of the dispatches that returned no error, one per such
device, in completion order; if every dispatch returned an error, it returns
the error of the last result drained (and a nil error when there is no
device at all). -/
theorem commandAllHandler_aggregation (env : Env) (cmd body method : String)
    (completion : List Device) (hm : ToLower method = "get")
    (hperm : completion.Perm (filterOperationalDevices env.Devices.All)) :
    ((∃ d ∈ completion, (execReadCmd env d cmd).err = none) →
      (CommandAllHandler env cmd body method completion).2 = none ∧
      (CommandAllHandler env cmd body method completion).1.map some =
        (completion.filter (fun d => (execReadCmd env d cmd).err.isNone)).map
          (fun d => (execReadCmd env d cmd).event) ∧
      (CommandAllHandler env cmd body method completion).1.length =
        completion.countP (fun d => (execReadCmd env d cmd).err.isNone)) ∧
    ((∀ d ∈ completion, (execReadCmd env d cmd).err ≠ none) →
      (CommandAllHandler env cmd body method completion).2 =
        completion.getLast?.bind (fun d => (execReadCmd env d cmd).err)) := by
  have hmap : completion.map (dispatchToDevice env cmd body method) =
      completion.map (readOutcome env cmd) :=
    List.map_congr_left (fun d _ => dispatchToDevice_get env cmd body method hm d)
  have hlen : (filterOperationalDevices env.Devices.All).length = completion.length :=
    hperm.length_eq.symm
  obtain ⟨hcount, hres⟩ := drainResults_counts (completion.map (readOutcome env cmd))
    { errCount := 0, getResults := [], appErr := none }
  have hcount2 : (drainResults (completion.map (readOutcome env cmd))
      { errCount := 0, getResults := [], appErr := none }).errCount =
      completion.countP (fun d => (execReadCmd env d cmd).err.isSome) := by
    rw [hcount, List.countP_map]
    simp [Function.comp_def, readOutcome]
  constructor
  · rintro ⟨d, hd, hok⟩
    have hlt : completion.countP (fun d => (execReadCmd env d cmd).err.isSome)
        < completion.length := by
      refine lt_of_le_of_ne (List.countP_le_length _) ?_
      intro heq
      have := List.countP_eq_length.1 heq d hd
      simp [hok] at this
    have hmaps : (CommandAllHandler env cmd body method completion).1.map some =
        (completion.filter (fun d => (execReadCmd env d cmd).err.isNone)).map
          (fun d => (execReadCmd env d cmd).event) := by
      simp only [CommandAllHandler, hmap, hres, List.nil_append]
      exact filterMap_success_events env cmd completion
    refine ⟨?_, hmaps, ?_⟩
    · simp only [CommandAllHandler, hmap, hcount2, hlen, hlt, if_true]
    · have := congrArg List.length hmaps
      simp only [List.length_map] at this
      rw [this, List.countP_eq_length_filter]
  · intro hall
    have heq : completion.countP (fun d => (execReadCmd env d cmd).err.isSome)
        = completion.length := by
      rw [List.countP_eq_length]
      intro d hd
      cases he : (execReadCmd env d cmd).err with
      | none => exact absurd he (hall d hd)
      | some e => rfl
    have hnot : ¬ (completion.countP (fun d => (execReadCmd env d cmd).err.isSome)
        < completion.length) := by omega
    simp only [CommandAllHandler, hmap, hcount2, hlen, hnot, if_false]
    rcases List.eq_nil_or_concat completion with hnil | ⟨l, d, hld⟩
    · subst hnil
      simp [drainResults]
    · subst hld
      cases he : (execReadCmd env d cmd).err with
      | none => exact absurd he (hall d (by simp))
      | some e =>
        rw [List.concat_eq_append, List.map_append, List.map_singleton]
        rw [drainResults_last_error _ _ e (by simp [readOutcome, he])]
        simp [he]

/-- Witness of C12: three operational devices; the reads of `valve` and
`thermostat` succeed and the read of `pump` fails, completing in the order
valve, pump, thermostat: the error is nil and the list holds two events. -/
theorem commandAllHandler_aggregation_witness :
    ToLower "get" = "get" ∧
    [devValve, devPump, devThermostat].Perm
      (filterOperationalDevices sampleEnvThree.Devices.All) ∧
    (CommandAllHandler sampleEnvThree "temp" "" "get" [devValve, devPump, devThermostat]).2
      = none ∧
    (CommandAllHandler sampleEnvThree "temp" "" "get"
      [devValve, devPump, devThermostat]).1.length = 2 :=
  ⟨by decide, by decide,
    ((commandAllHandler_aggregation sampleEnvThree "temp" "" "get"
      [devValve, devPump, devThermostat] (by decide) (by decide)).1
        ⟨devValve, by decide, by decide⟩).1,
    by decide⟩

/-! ## Profile cache: CommandExists after a renaming Update -/

/-- C13 at the failing input: a profile `hvac` is added and then updated under
the new name `hvac-2`.  Update deletes the old name from `dpMap` only, so
ForName no longer finds `hvac`, yet CommandExists still answers for `hvac`
without an error, from the command index left under the old name. -/
theorem commandExists_after_rename_no_error :
    (((newProfileCache []).Add profileHvac).1.Update profileHvacRenamed).2 = none ∧
    (((newProfileCache []).Add profileHvac).1.Update profileHvacRenamed).1.ForName "hvac"
      = none ∧
    (((newProfileCache []).Add profileHvac).1.Update profileHvacRenamed).1.ForName "hvac-2"
      = some profileHvacRenamed ∧
    (((newProfileCache []).Add profileHvac).1.Update profileHvacRenamed).1.CommandExists
        "hvac" "temp" = .ok true ∧
    (((newProfileCache []).Add profileHvac).1.Update profileHvacRenamed).1.CommandExists
        "hvac" "undeclared" = .ok false := by
  decide

/-! ## Write dispatch: parameters that cannot be turned into values -/

theorem parseWriteParamsLoop_error (env : Env) (roMap : GoMap ResourceOperation)
    (k v : String) (ro : ResourceOperation) (e : String)
    (hget : GoMap.get roMap k = some ro)
    (hfail : createCommandValueForParam env ro v = .error e)
    (entries : List (String × String)) :
    ∀ result, (k, v) ∈ entries →
      (parseWriteParamsLoop env roMap entries result).2.isSome = true := by
  induction entries with
  | nil => intro result h; cases h
  | cons p rest ih =>
    intro result h
    obtain ⟨k1, v1⟩ := p
    rcases List.mem_cons.1 h with heq | hin
    · cases heq
      simp [parseWriteParamsLoop, hget, hfail]
    · unfold parseWriteParamsLoop
      split
      · split
        · exact ih _ hin
        · rfl
      · exact ih _ hin

/-- C18, the claim as stated fails: the body `null` is not a JSON array of
string-valued maps, yet json.Unmarshal decodes it into a nil slice without an
error; the write dispatch then returns no error and invokes the driver with an
empty batch. -/
theorem execWriteCmd_null_body_accepted :
    samplePlatformNull.Unmarshal "null" = .ok [] ∧
    execWriteCmd { sampleEnv 5 true with P := samplePlatformNull } devThermostat "power"
        "null" = (none, [.driverWrite "addr-1" [] []]) ∧
    (CommandHandler { sampleEnv 5 true with P := samplePlatformNull } "5b1" "power" "null"
      "put").err = none ∧
    (CommandHandler { sampleEnv 5 true with P := samplePlatformNull } "5b1" "power" "null"
      "put").effects.any Effect.isDriverCall = true := by
  decide

/-- C18 as amended: on a write dispatch whose set operations resolve within
the operation ceiling, the dispatch fails with a BadRequest and has no effect
at all (the driver is not invoked) if json.Unmarshal of the body into an array
of string-valued maps returns an error, or if some key of the body matches an
operation whose Object has no value descriptor in the cache, or whose value
does not parse into the descriptor's declared scalar type. -/
theorem execWriteCmd_badRequest (env : Env) (device : Device) (cmd params : String)
    (ros : List ResourceOperation)
    (hros : env.Profiles.ResourceOperations device.ProfileName cmd "set" = .ok ros)
    (hmax : ros.length ≤ env.MaxCmdOps) :
    ((∃ e, env.P.Unmarshal params = .error e) →
      execWriteCmd env device cmd params = (some .BadRequest, [])) ∧
    (∀ maps k v ro, env.P.Unmarshal params = .ok maps → (k, v) ∈ maps.flatten →
      GoMap.get (roSliceToMap ros) k = some ro →
      (env.ValueDescriptors.ForName ro.Object = none ∨
        ∃ vd e, env.ValueDescriptors.ForName ro.Object = some vd ∧
          parseParamValue env.P (ToLower vd.TypeName) v = .error e) →
      execWriteCmd env device cmd params = (some .BadRequest, [])) := by
  have h1 : ¬ (ros.length > env.MaxCmdOps) := not_lt.mpr hmax
  have hbad : (parseWriteParams env (roSliceToMap ros) params).2.isSome = true →
      execWriteCmd env device cmd params = (some .BadRequest, []) := by
    intro h
    cases hp : parseWriteParams env (roSliceToMap ros) params with
    | mk cvs perr =>
      cases perr with
      | none => rw [hp] at h; cases h
      | some e => simp only [execWriteCmd, hros, h1, if_false, hp]
  constructor
  · rintro ⟨e, he⟩
    apply hbad
    simp [parseWriteParams, he]
  · intro maps k v ro hun hmem hget hfail
    apply hbad
    have hcreate : ∃ e, createCommandValueForParam env ro v = .error e := by
      rcases hfail with hnone | ⟨vd, e, hvd, hparse⟩
      · simp only [createCommandValueForParam, hnone]
        exact ⟨_, rfl⟩
      · exact ⟨e, by simp only [createCommandValueForParam, hvd, hparse]⟩
    obtain ⟨e, he⟩ := hcreate
    simp only [parseWriteParams, hun]
    exact parseWriteParamsLoop_error env _ k v ro e hget he _ [] hmem

/-- Witness of C18 as amended: the body `[{"switch":"300"}]` for an object
whose descriptor declares `Uint8`. -/
theorem execWriteCmd_badRequest_witness :
    ({ sampleEnv 5 true with
        P := samplePlatformBodies,
        ValueDescriptors :=
          newValueDescriptorCache [{ Name := "switch", TypeName := "Uint8" }] }
      : Env).Profiles.ResourceOperations devThermostat.ProfileName "power" "set"
        = .ok [roSwitch] ∧
    parseParamValue samplePlatformBodies (ToLower "Uint8") "300"
      = .error "strconv.ParseUint: value out of range" ∧
    parseParamValue samplePlatformBodies (ToLower "Int32") "abc"
      = .error "strconv.ParseInt: invalid syntax" ∧
    execWriteCmd
        { sampleEnv 5 true with
          P := samplePlatformBodies,
          ValueDescriptors :=
            newValueDescriptorCache [{ Name := "switch", TypeName := "Uint8" }] }
        devThermostat "power" "[\x7b\"switch\":\"300\"\x7d]"
      = (some .BadRequest, []) :=
  ⟨by decide, by decide, by decide,
    (execWriteCmd_badRequest
      { sampleEnv 5 true with
        P := samplePlatformBodies,
        ValueDescriptors :=
          newValueDescriptorCache [{ Name := "switch", TypeName := "Uint8" }] }
      devThermostat "power" "[\x7b\"switch\":\"300\"\x7d]" [roSwitch]
      (by decide) (by decide)).2 [[("switch", "300")]] "switch" "300" roSwitch
        (by decide) (by decide) (by decide)
        (Or.inr ⟨{ Name := "switch", TypeName := "Uint8" },
          "strconv.ParseUint: value out of range", by decide, by decide⟩)⟩

/-- C19 at the failing input: the command `reset` is declared in the profile's
Commands list but no profile resource has that name.  The read dispatch fails
with a NotFound error; the write dispatch fails with a BadRequest error. -/
theorem commandHandler_unmapped_write_badRequest :
    ({ sampleEnv 5 true with Profiles := newProfileCache [profileHvacReset] }
      : Env).Profiles.CommandExists "hvac" "reset" = .ok true ∧
    (CommandHandler { sampleEnv 5 true with Profiles := newProfileCache [profileHvacReset] }
        "5b1" "reset" "[\x7b\"switch\":\"1\"\x7d]" "put").err = some .BadRequest ∧
    (CommandHandler { sampleEnv 5 true with Profiles := newProfileCache [profileHvacReset] }
        "5b1" "reset" "" "get").err = some .NotFound := by
  decide

/-! ## Write transform: a Scale of zero -/

theorem transformWriteScale_zero (P : Platform) (cv : CommandValue) (scale : String)
    (s : F64) (hs : P.ParseFloat scale = .ok s) (hz : s.isZero = true) :
    (transformWriteScale P cv scale).2.isSome = true := by
  unfold transformWriteScale
  cases commandValueToFloat64 cv with
  | error e => rfl
  | ok v => simp only [hs, hz, if_true]; rfl

theorem transformWriteParameter_scale_zero_aux (P : Platform) (cv : CommandValue)
    (pv : PropertyValue) (s : F64)
    (ht : ¬ (cv.Type_ = .String ∨ cv.Type_ = .Bool)) (hS : pv.Scale ≠ "")
    (hs : P.ParseFloat pv.Scale = .ok s) (hz : s.isZero = true) :
    (TransformWriteParameter P cv pv).2.isSome = true := by
  unfold TransformWriteParameter
  rw [if_neg ht]
  simp only []
  split
  · rfl
  · rw [if_pos hS]
    have h2 := transformWriteScale_zero P
      (if pv.Offset ≠ "" then transformWriteOffset P cv pv.Offset else (cv, none)).1
      pv.Scale s hs hz
    split
    · rfl
    · rename_i hnone
      rw [hnone] at h2
      cases h2

theorem writeValuesLoop_transform_error (env : Env) (device : Device) (cv : CommandValue)
    (dobj : DeviceObject) (hT : env.DataTransform = true)
    (hd : env.Profiles.DeviceObject device.ProfileName cv.RO.Object = some dobj)
    (herr : (TransformWriteParameter env.P cv dobj.Value).2.isSome = true)
    (cvs : List CommandValue) :
    cv ∈ cvs → writeValuesLoop env device cvs = .error .ServerError := by
  induction cvs with
  | nil => intro h; cases h
  | cons c rest ih =>
    intro h
    cases hres : writeValuesLoop env device (c :: rest) with
    | error e => rw [writeValuesLoop_error env device (c :: rest) e hres]
    | ok r =>
      exfalso
      unfold writeValuesLoop at hres
      split at hres
      · cases hres
      · rename_i devObj hdo
        simp only [hT, if_true] at hres
        split at hres
        · cases hres
        · rename_i hnone
          rcases List.mem_cons.1 h with heq | hin
          · subst heq
            rw [hd] at hdo
            cases hdo
            rw [hnone] at herr
            cases herr
          · rw [ih hin] at hres
            cases hres

/-- C20: TransformWriteParameter on a value whose type is neither String nor
Bool returns an error whenever the Scale string is non-empty and parses to
zero; and a write dispatch with transforms enabled, whose set operations
resolve within the operation ceiling and whose body yields such a value for a
device object with such a Scale, fails with a ServerError and has no effect
(the driver is not invoked). -/
theorem transformWriteParameter_scale_zero (env : Env) (cv : CommandValue)
    (pv : PropertyValue) (s : F64)
    (ht : cv.Type_ ≠ .String ∧ cv.Type_ ≠ .Bool) (hS : pv.Scale ≠ "")
    (hs : env.P.ParseFloat pv.Scale = .ok s) (hz : s.isZero = true) :
    (TransformWriteParameter env.P cv pv).2.isSome = true ∧
    (∀ (device : Device) (cmd params : String) (ros : List ResourceOperation)
        (cvs : List CommandValue) (dobj : DeviceObject),
      env.DataTransform = true →
      env.Profiles.ResourceOperations device.ProfileName cmd "set" = .ok ros →
      ros.length ≤ env.MaxCmdOps →
      parseWriteParams env (roSliceToMap ros) params = (cvs, none) →
      cv ∈ cvs →
      env.Profiles.DeviceObject device.ProfileName cv.RO.Object = some dobj →
      dobj.Value = pv →
      execWriteCmd env device cmd params = (some .ServerError, [])) := by
  have hnot : ¬ (cv.Type_ = .String ∨ cv.Type_ = .Bool) := by
    rintro (h | h)
    · exact ht.1 h
    · exact ht.2 h
  have h1 := transformWriteParameter_scale_zero_aux env.P cv pv s hnot hS hs hz
  refine ⟨h1, ?_⟩
  intro device cmd params ros cvs dobj hT hros hmax hp hmem hd hpv
  have hmax1 : ¬ (ros.length > env.MaxCmdOps) := not_lt.mpr hmax
  have hw := writeValuesLoop_transform_error env device cv dobj hT hd (hpv ▸ h1) cvs hmem
  simp only [execWriteCmd, hros, hmax1, if_false, hp, hw]

/-- Witness of C20: the object `switch` declared with Scale `0`, written with
the body `[{"switch":"1"}]` while transforms are enabled. -/
theorem transformWriteParameter_scale_zero_witness :
    parseDecimal "0" = .ok (F64.ofInt 0) ∧
    parseWriteParams
        { sampleEnv 5 true with
          P := samplePlatformBodies, Profiles := newProfileCache [profileHvacScaleZero] }
        (roSliceToMap [roSwitch]) "[\x7b\"switch\":\"1\"\x7d]" = ([switchValue 1], none) ∧
    (TransformWriteParameter samplePlatformBodies (switchValue 1)
      { Base := "", Scale := "0", Offset := "", Assertion := "" }).2.isSome = true ∧
    execWriteCmd
        { sampleEnv 5 true with
          P := samplePlatformBodies, Profiles := newProfileCache [profileHvacScaleZero] }
        devThermostat "power" "[\x7b\"switch\":\"1\"\x7d]"
      = (some .ServerError, []) :=
  ⟨by decide, by decide,
    (transformWriteParameter_scale_zero
      { sampleEnv 5 true with
        P := samplePlatformBodies, Profiles := newProfileCache [profileHvacScaleZero] }
      (switchValue 1) { Base := "", Scale := "0", Offset := "", Assertion := "" }
      (F64.ofInt 0) ⟨by decide, by decide⟩ (by decide) (by decide) (by decide)).1,
    (transformWriteParameter_scale_zero
      { sampleEnv 5 true with
        P := samplePlatformBodies, Profiles := newProfileCache [profileHvacScaleZero] }
      (switchValue 1) { Base := "", Scale := "0", Offset := "", Assertion := "" }
      (F64.ofInt 0) ⟨by decide, by decide⟩ (by decide) (by decide) (by decide)).2
      devThermostat "power" "[\x7b\"switch\":\"1\"\x7d]" [roSwitch] [switchValue 1]
      { Name := "switch",
        Value := { Base := "", Scale := "0", Offset := "", Assertion := "" } }
      (by decide) (by decide) (by decide) (by decide) (by decide) (by decide) rfl⟩

/-! ## Value transforms: String and Bool values -/

/-- C21: for every command value of type String or Bool and every property
value, whatever its Base, Scale and Offset strings, TransformReadResult and
TransformWriteParameter return no error and the command value is unchanged. -/
theorem transform_string_bool_passthrough (P : Platform) (cv : CommandValue)
    (pv : PropertyValue) (h : cv.Type_ = .String ∨ cv.Type_ = .Bool) :
    TransformReadResult P cv pv = (cv, none) ∧
    TransformWriteParameter P cv pv = (cv, none) := by
  constructor
  · unfold TransformReadResult
    rw [if_pos h]
  · unfold TransformWriteParameter
    rw [if_pos h]

/-- Witness of C21: a string value and a property value with a malformed Base,
a malformed Offset and the Scale `0`. -/
theorem transform_string_bool_passthrough_witness :
    (switchText "ON").Type_ = .String ∧
    samplePlatform.ParseFloat malformedProperty.Base = .error "strconv.ParseFloat: invalid syntax" ∧
    TransformReadResult samplePlatform (switchText "ON") malformedProperty
      = (switchText "ON", none) ∧
    TransformWriteParameter samplePlatform (switchText "ON") malformedProperty
      = (switchText "ON", none) :=
  ⟨rfl, by decide,
    (transform_string_bool_passthrough samplePlatform (switchText "ON") malformedProperty
      (Or.inl rfl)).1,
    (transform_string_bool_passthrough samplePlatform (switchText "ON") malformedProperty
      (Or.inl rfl)).2⟩

/-! ## The assertion check -/

/-- C22: CheckAssertion returns an error if and only if the assertion string
is non-empty and differs from the string form of the value; in that case the
device it was passed has its OperatingState set to Disabled (and nothing else
changed), and otherwise the device is left as it was. -/
theorem checkAssertion_error_iff (P : Platform) (cv : CommandValue) (assertion : String)
    (device : Device) :
    ((CheckAssertion P cv assertion device).2.1.isSome = true ↔
      (assertion ≠ "" ∧ P.ValueToString cv ≠ assertion)) ∧
    ((assertion ≠ "" ∧ P.ValueToString cv ≠ assertion) →
      (CheckAssertion P cv assertion device).1 =
        { device with OperatingState := .Disabled }) ∧
    (¬ (assertion ≠ "" ∧ P.ValueToString cv ≠ assertion) →
      (CheckAssertion P cv assertion device).1 = device) := by
  by_cases h : assertion ≠ "" ∧ P.ValueToString cv ≠ assertion
  · refine ⟨⟨fun _ => h, fun _ => ?_⟩, fun _ => ?_, fun hn => absurd h hn⟩
    · unfold CheckAssertion
      rw [if_pos h]
      rfl
    · unfold CheckAssertion
      rw [if_pos h]
  · refine ⟨⟨fun he => ?_, fun hp => absurd hp h⟩, fun hp => absurd hp h, fun _ => ?_⟩
    · unfold CheckAssertion at he
      rw [if_neg h] at he
      cases he
    · unfold CheckAssertion
      rw [if_neg h]

/-- Witness of C22: the value `1` against the assertion `0` disables the
device; against the assertion `1` and against the empty assertion the device
is unchanged and no error is returned. -/
theorem checkAssertion_error_iff_witness :
    (CheckAssertion samplePlatform (switchValue 1) "0" devThermostat).1 =
      { devThermostat with OperatingState := .Disabled } ∧
    (CheckAssertion samplePlatform (switchValue 1) "1" devThermostat).1 = devThermostat ∧
    (CheckAssertion samplePlatform (switchValue 1) "" devThermostat).1 = devThermostat ∧
    (CheckAssertion samplePlatform (switchValue 1) "1" devThermostat).2.1 = none ∧
    (CheckAssertion samplePlatform (switchValue 1) "0" devThermostat).2.1.isSome = true :=
  ⟨(checkAssertion_error_iff samplePlatform (switchValue 1) "0" devThermostat).2.1
      (by decide),
    (checkAssertion_error_iff samplePlatform (switchValue 1) "1" devThermostat).2.2
      (by decide),
    (checkAssertion_error_iff samplePlatform (switchValue 1) "" devThermostat).2.2
      (by decide),
    by decide,
    (checkAssertion_error_iff samplePlatform (switchValue 1) "0" devThermostat).1.2
      (by decide)⟩

/-! ## Value mapping -/

/-- C23: when the mapping table of the value's operation has an entry for the
string form of the value, MapCommandValue returns a new String-typed command
value that carries the mapped string and the same operation and origin; when
there is no entry it returns ok = false, and the read loop then builds the
reading from the value it had (the value after the transform step),
unchanged. -/
theorem mapCommandValue_hit_or_unchanged (env : Env) (cv : CommandValue) :
    (∀ mapped, GoMap.get cv.RO.Mappings (env.P.ValueToString cv) = some mapped →
      MapCommandValue env.P cv =
        some { RO := cv.RO, Origin := cv.Origin, Type_ := .String,
               NumericValue := .empty, stringValue := mapped }) ∧
    (GoMap.get cv.RO.Mappings (env.P.ValueToString cv) = none →
      MapCommandValue env.P cv = none) ∧
    (∀ (st : ReadLoop) (rest : List CommandValue) (dobj : DeviceObject),
      env.Profiles.DeviceObject st.device.ProfileName cv.RO.Object = some dobj →
      MapCommandValue env.P (readTransformed env dobj cv) = none →
      ∃ st1, readResultsLoop env (cv :: rest) st = readResultsLoop env rest st1 ∧
        st1.readings = st.readings ++
          [env.CommandValueToReading (readTransformed env dobj cv) st.device.Name]) := by
  refine ⟨fun mapped h => ?_, fun h => ?_, fun st rest dobj hd hnone => ?_⟩
  · simp only [MapCommandValue, h, NewStringValue]
  · simp only [MapCommandValue, h]
  · rw [readResultsLoop_cons env cv rest st dobj hd]
    refine ⟨_, rfl, ?_⟩
    have hsub : substituteMapping env.P (readTransformed env dobj cv)
        = readTransformed env dobj cv := by
      unfold MapCommandValue at hnone
      unfold substituteMapping
      split
      · rename_i m hm
        rw [hm] at hnone
        cases hnone
      · rfl
    simp only [hsub]

/-- Witness of C23: with the mapping 1 to ON and 0 to OFF, the value 1 becomes
the string ON, the value 2 has no entry, and a read whose driver delivers 2
yields the reading of 2. -/
theorem mapCommandValue_hit_or_unchanged_witness :
    MapCommandValue samplePlatform (switchValue 1) = some (switchText "ON") ∧
    MapCommandValue samplePlatform (switchValue 2) = none ∧
    ((execReadCmd { sampleEnv 5 false with Driver := sampleDriverTwo } devThermostat
        "power").event.map (fun e => e.Readings.map (fun r => r.Value))) = some ["2"] ∧
    ((execReadCmd (sampleEnv 5 false) devThermostat
        "power").event.map (fun e => e.Readings.map (fun r => r.Value))) = some ["ON"] :=
  ⟨(mapCommandValue_hit_or_unchanged (sampleEnv 5 false) (switchValue 1)).1 "ON"
      (by decide),
    (mapCommandValue_hit_or_unchanged (sampleEnv 5 false) (switchValue 2)).2.1
      (by decide),
    by decide, by decide⟩

/-! ## Asynchronous ingestion: a batch for an unknown device -/

theorem processAsyncResults_cons (env : Env) (acv : AsyncValues) (rest : List AsyncValues) :
    processAsyncResults env (acv :: rest)
      = (match processAsyncBatch env acv with
          | none => []
          | some st => st.effects) ++ processAsyncResults env rest := by
  cases h : processAsyncBatch env acv <;> simp [processAsyncResults, h]

theorem processAsyncResults_append (env : Env) (xs ys : List AsyncValues) :
    processAsyncResults env (xs ++ ys)
      = processAsyncResults env xs ++ processAsyncResults env ys := by
  induction xs with
  | nil => rfl
  | cons acv rest ih =>
    rw [List.cons_append, processAsyncResults_cons, processAsyncResults_cons, ih,
      List.append_assoc]

/-- C24: an iteration of the consumer loop on a batch whose device name is not
in the device cache ends at the lookup: it assembles no event and has no
effect (nothing is submitted to the sink), and the loop goes on, so that the
effects of any run of batches that contains the bad batch are those of the
same run without it. -/
theorem processAsyncResults_unknown_device (env : Env) (acv : AsyncValues)
    (before after : List AsyncValues)
    (h : env.Devices.ForName acv.DeviceName = none) :
    processAsyncBatch env acv = none ∧
    processAsyncResults env [acv] = [] ∧
    processAsyncResults env (before ++ acv :: after)
      = processAsyncResults env (before ++ after) := by
  have hb : processAsyncBatch env acv = none := by
    simp only [processAsyncBatch, h]
  refine ⟨hb, ?_, ?_⟩
  · simp only [processAsyncResults, hb]
  · rw [processAsyncResults_append, processAsyncResults_append]
    simp only [processAsyncResults, hb]

/-- Witness of C24: a batch for the unknown device `ghost` followed by a batch
for `thermostat`, whose event is still submitted. -/
theorem processAsyncResults_unknown_device_witness :
    (sampleEnv 5 true).Devices.ForName batchGhost.DeviceName = none ∧
    processAsyncResults (sampleEnv 5 true) [batchGhost, batchThermostat]
      = processAsyncResults (sampleEnv 5 true) [batchThermostat] ∧
    processAsyncResults (sampleEnv 5 true) [batchThermostat] =
      [.sendEvent
        { Device := "thermostat",
          Readings := [{ Device := "thermostat", Name := "switch", Value := "OFF", Origin := 1 }],
          Origin := 0 }] :=
  ⟨by decide,
    (processAsyncResults_unknown_device (sampleEnv 5 true) batchGhost [] [batchThermostat]
      (by decide)).2.2,
    by decide⟩

/-! ## Device cache: lookups after Update -/

/-- C25: after a successful Update(device) on the device cache, ForId of the
device's id and ForName of the device's name both return the updated device;
and if the device was stored under another name (the name the id index held
for its id, which in a name-keyed cache is the Name of the device ForId
returned before the call), ForName of that old name reports not found. -/
theorem deviceCache_update_lookup (d : deviceCache) (device : Device)
    (h : (d.Update device).2 = none) :
    (d.Update device).1.ForId device.Id = some device ∧
    (d.Update device).1.ForName device.Name = some device ∧
    (∀ old, GoMap.get d.nameMap device.Id = some old → old ≠ device.Name →
      (d.Update device).1.ForName old = none) ∧
    (∀ prev, d.NameKeyed → d.ForId device.Id = some prev → prev.Name ≠ device.Name →
      (d.Update device).1.ForName prev.Name = none) := by
  cases hn : GoMap.get d.nameMap device.Id with
  | none => simp only [deviceCache.Update, hn] at h; cases h
  | some name =>
    cases hd : GoMap.get d.dMap name with
    | none => simp only [deviceCache.Update, hn, hd] at h; cases h
    | some dev =>
      have hU : d.Update device =
          ({ dMap := GoMap.set (GoMap.del d.dMap name) device.Name device,
             nameMap := GoMap.set d.nameMap device.Id device.Name }, none) := by
        simp only [deviceCache.Update, hn, hd]
      rw [hU]
      refine ⟨?_, ?_, ?_, ?_⟩
      · simp only [deviceCache.ForId, GoMap.get_set, if_true]
      · simp only [deviceCache.ForName, GoMap.get_set, if_true]
      · intro old ho hne
        have ho1 : name = old := Option.some.inj ho
        have h1 : ¬ (device.Name = old) := fun e => hne e.symm
        simp only [deviceCache.ForName, GoMap.get_set, GoMap.get_del, h1, if_false, ho1,
          if_true]
      · intro prev hk hp hne
        simp only [deviceCache.ForId, hn, hd] at hp
        have hp1 : dev = prev := Option.some.inj hp
        have hname : prev.Name = name := hk name prev (hp1 ▸ hd)
        have h1 : ¬ (device.Name = name) := fun e => hne (hname.trans e.symm)
        simp only [deviceCache.ForName, GoMap.get_set, GoMap.get_del, h1, if_false, hname,
          if_true]

/-- Witness of C25: the device `valve` is updated under the new name
`valve-2`. -/
theorem deviceCache_update_lookup_witness :
    ((newDeviceCache [devThermostat, devValve]).Update devValveRenamed).2 = none ∧
    ((newDeviceCache [devThermostat, devValve]).Update devValveRenamed).1.ForId "5b2"
      = some devValveRenamed ∧
    ((newDeviceCache [devThermostat, devValve]).Update devValveRenamed).1.ForName "valve-2"
      = some devValveRenamed ∧
    ((newDeviceCache [devThermostat, devValve]).Update devValveRenamed).1.ForName "valve"
      = none :=
  ⟨by decide,
    (deviceCache_update_lookup (newDeviceCache [devThermostat, devValve]) devValveRenamed
      (by decide)).1,
    (deviceCache_update_lookup (newDeviceCache [devThermostat, devValve]) devValveRenamed
      (by decide)).2.1,
    (deviceCache_update_lookup (newDeviceCache [devThermostat, devValve]) devValveRenamed
      (by decide)).2.2.2 devValve (deviceCache.nameKeyed_new _) (by decide) (by decide)⟩

/-! ## Profile cache: the indices after a removal -/

/-- C26: after a successful RemoveByName(name), or a successful Remove(id) of
an id indexed under `name`, the profile is absent from every index: ForName of
the name, ForId of the removed profile's id and of every id indexed under the
name report not found, DeviceObject reports not found for every object name,
and CommandExists, ResourceOperations and ResourceOperation return their
profile-not-found error for the name. -/
theorem profileCache_remove_absent (p q : profileCache) (name : String)
    (h : p.RemoveByName name = (q, none) ∨
      ∃ id, GoMap.get p.nameMap id = some name ∧ p.Remove id = (q, none)) :
    q.ForName name = none ∧
    (∀ removed, p.ForName name = some removed → q.ForId removed.Id = none) ∧
    (∀ id, GoMap.get p.nameMap id = some name → q.ForId id = none) ∧
    (∀ o, q.DeviceObject name o = none) ∧
    (∀ c, q.CommandExists name c =
      .error ("profiles: CommandExists: specified profile: " ++ name ++ " not found")) ∧
    (∀ c method, q.ResourceOperations name c method =
      .error ("profiles: ResourceOperations: specified profile: " ++ name ++ " not found")) ∧
    (∀ o method visit, q.ResourceOperation name o method visit =
      .error ("profiles: " ++
        (if ToLower method = "get" then "ResourceOperation" else "ResourceOperations") ++
        ": specified profile: " ++ name ++ " not found")) := by
  have hq : p.RemoveByName name = (q, none) := by
    rcases h with h | ⟨id, hid, h⟩
    · exact h
    · simpa only [profileCache.Remove, hid] using h
  cases hd : GoMap.get p.dpMap name with
  | none => simp [profileCache.RemoveByName, hd] at hq
  | some profile =>
    simp only [profileCache.RemoveByName, hd, Prod.mk.injEq, and_true] at hq
    subst hq
    refine ⟨?_, ?_, ?_, ?_, ?_, ?_, ?_⟩
    · simp only [profileCache.ForName, GoMap.get_del, if_true]
    · intro removed hr
      simp only [profileCache.ForName, hd] at hr
      cases hr
      simp only [profileCache.ForId, GoMap.get_del, if_true]
    · intro id hid
      simp only [profileCache.ForId, GoMap.get_del, hid]
      split
      · rfl
      · rename_i n hn
        split at hn
        · cases hn
        · cases hn
          simp only [if_true]
    · intro o
      simp only [profileCache.DeviceObject, GoMap.get_del, if_true]
    · intro c
      simp only [profileCache.CommandExists, GoMap.get_del, if_true]
    · intro c method
      unfold profileCache.ResourceOperations
      by_cases hm : ToLower method = "get"
      · simp only [hm, if_true, GoMap.get_del]
      · simp only [hm, if_false, GoMap.get_del, if_true]
    · intro o method visit
      unfold profileCache.ResourceOperation
      by_cases hm : ToLower method = "get"
      · simp only [hm, if_true, GoMap.get_del]
        rfl
      · simp only [hm, if_false, GoMap.get_del, if_true]
        rfl

/-- Witness of C26: the profile `hvac` is removed by name and by id. -/
theorem profileCache_remove_absent_witness :
    ((newProfileCache [profileHvac]).RemoveByName "hvac").2 = none ∧
    ((newProfileCache [profileHvac]).Remove "7a1").2 = none ∧
    ((newProfileCache [profileHvac]).RemoveByName "hvac").1.ForName "hvac" = none ∧
    ((newProfileCache [profileHvac]).Remove "7a1").1.ForId "7a1" = none ∧
    (∀ o, ((newProfileCache [profileHvac]).Remove "7a1").1.DeviceObject "hvac" o = none) :=
  ⟨by decide, by decide,
    (profileCache_remove_absent (newProfileCache [profileHvac])
      ((newProfileCache [profileHvac]).RemoveByName "hvac").1 "hvac"
      (Or.inl (by decide))).1,
    (profileCache_remove_absent (newProfileCache [profileHvac])
      ((newProfileCache [profileHvac]).Remove "7a1").1 "hvac"
      (Or.inr ⟨"7a1", by decide, by decide⟩)).2.2.1 "7a1" (by decide),
    (profileCache_remove_absent (newProfileCache [profileHvac])
      ((newProfileCache [profileHvac]).Remove "7a1").1 "hvac"
      (Or.inr ⟨"7a1", by decide, by decide⟩)).2.2.2.1⟩

/-! ## The service constructor -/

/-- C27 at the failing input: with a service name set and no service created
yet, a first call of NewService with a nil driver returns an error and leaves
`svc` nil, so a second call, with a driver, returns a service and no error; a
third call returns the error of an existing service. -/
theorem newService_second_call_succeeds :
    (NewService { svc := none, ServiceName := "device-sample", Driver := none } none).2
      = .error "NewService: no Driver specified\n" ∧
    (NewService { svc := none, ServiceName := "device-sample", Driver := none } none).1.svc
      = none ∧
    (NewService
      (NewService { svc := none, ServiceName := "device-sample", Driver := none } none).1
      (some sampleDriver)).2
      = .ok { initAttempts := 0, initialized := false, stopped := false } ∧
    (NewService
      (NewService
        (NewService { svc := none, ServiceName := "device-sample", Driver := none } none).1
        (some sampleDriver)).1
      (some sampleDriver)).2
      = .error "NewService: service already exists!\n" := by
  decide

/-! ## Profile cache: the derived indices agree with the stored profiles -/

theorem foldl_set_get {α β : Type} (f : α → String) (g : α → β) (l : List α) :
    ∀ (init : GoMap β) (k : String),
      GoMap.get (l.foldl (fun r x => GoMap.set r (f x) (g x)) init) k =
        match l.reverse.find? (fun x => decide (f x = k)) with
        | some x => some (g x)
        | none => GoMap.get init k := by
  induction l with
  | nil => intro init k; rfl
  | cons x l ih =>
    intro init k
    simp only [List.foldl_cons, List.reverse_cons, List.find?_append]
    rw [ih]
    cases hfind : l.reverse.find? (fun x => decide (f x = k)) with
    | some y => rfl
    | none =>
      by_cases hx : f x = k
      · simp [GoMap.get_set, hx]
      · simp [GoMap.get_set, hx]

theorem profileResourceSliceToMaps_fold (l : List ProfileResource) :
    ∀ init : GoMap (List ResourceOperation) × GoMap (List ResourceOperation),
      (l.foldl (fun r pr => (GoMap.set r.1 pr.Name pr.Get, GoMap.set r.2 pr.Name pr.Set))
          init).1
        = l.foldl (fun r pr => GoMap.set r pr.Name pr.Get) init.1 ∧
      (l.foldl (fun r pr => (GoMap.set r.1 pr.Name pr.Get, GoMap.set r.2 pr.Name pr.Set))
          init).2
        = l.foldl (fun r pr => GoMap.set r pr.Name pr.Set) init.2 := by
  induction l with
  | nil => intro init; exact ⟨rfl, rfl⟩
  | cons pr l ih =>
    intro init
    simp only [List.foldl_cons]
    exact ih _

theorem deviceObjectSliceToMap_get (l : List DeviceObject) (o : String) :
    GoMap.get (deviceObjectSliceToMap l) o
      = l.reverse.find? (fun x => decide (x.Name = o)) := by
  unfold deviceObjectSliceToMap
  rw [foldl_set_get (fun x : DeviceObject => x.Name) (fun x => x) l [] o]
  cases l.reverse.find? (fun x => decide (x.Name = o)) <;> rfl

theorem getOpMap_get (l : List ProfileResource) (c : String) :
    GoMap.get (profileResourceSliceToMaps l).1 c
      = (l.reverse.find? (fun pr => decide (pr.Name = c))).map (fun pr => pr.Get) := by
  unfold profileResourceSliceToMaps
  rw [(profileResourceSliceToMaps_fold l ([], [])).1,
    foldl_set_get (fun pr : ProfileResource => pr.Name) (fun pr => pr.Get) l [] c]
  cases l.reverse.find? (fun pr => decide (pr.Name = c)) <;> rfl

theorem setOpMap_get (l : List ProfileResource) (c : String) :
    GoMap.get (profileResourceSliceToMaps l).2 c
      = (l.reverse.find? (fun pr => decide (pr.Name = c))).map (fun pr => pr.Set) := by
  unfold profileResourceSliceToMaps
  rw [(profileResourceSliceToMaps_fold l ([], [])).2,
    foldl_set_get (fun pr : ProfileResource => pr.Name) (fun pr => pr.Set) l [] c]
  cases l.reverse.find? (fun pr => decide (pr.Name = c)) <;> rfl

theorem profileCache.derived_store (p : profileCache) (dpMap : GoMap DeviceProfile)
    (profile : DeviceProfile) (hp : p.Derived)
    (hsub : ∀ name P, GoMap.get dpMap name = some P → GoMap.get p.dpMap name = some P) :
    (p.store dpMap profile).Derived := by
  intro name P h
  simp only [profileCache.store, GoMap.get_set] at h ⊢
  by_cases hn : profile.Name = name
  · simp only [hn, if_true] at h ⊢
    cases h
    exact ⟨rfl, rfl, rfl, rfl⟩
  · simp only [hn, if_false] at h ⊢
    exact hp name P (hsub name P h)

theorem profileCache.derived_removeByName (p : profileCache) (name : String)
    (hp : p.Derived) : (p.RemoveByName name).1.Derived := by
  unfold profileCache.RemoveByName
  cases hd : GoMap.get p.dpMap name with
  | none => exact hp
  | some profile =>
    intro n P h
    simp only [GoMap.get_del] at h ⊢
    by_cases hn : name = n
    · simp only [hn, if_true] at h
      cases h
    · simp only [hn, if_false] at h ⊢
      exact hp n P h

theorem profileCache.derived_step (p : profileCache) (op : ProfileOp) (hp : p.Derived) :
    (p.step op).Derived := by
  cases op with
  | add profile =>
    simp only [profileCache.step, profileCache.Add]
    cases GoMap.get p.dpMap profile.Name with
    | some _ => exact hp
    | none => exact profileCache.derived_store p p.dpMap profile hp (fun _ _ h => h)
  | update profile =>
    simp only [profileCache.step, profileCache.Update]
    cases GoMap.get p.nameMap profile.Id with
    | none => exact hp
    | some name =>
      dsimp only
      cases GoMap.get p.dpMap name with
      | none => exact hp
      | some _ =>
        refine profileCache.derived_store p _ profile hp (fun n P h => ?_)
        rw [GoMap.get_del] at h
        split at h
        · cases h
        · exact h
  | remove id =>
    simp only [profileCache.step, profileCache.Remove]
    cases GoMap.get p.nameMap id with
    | none => exact hp
    | some name => exact profileCache.derived_removeByName p name hp
  | removeByName name => exact profileCache.derived_removeByName p name hp

theorem profileCache.derived_run (ops : List ProfileOp) :
    ∀ p : profileCache, p.Derived → (p.run ops).Derived := by
  induction ops with
  | nil => intro p hp; exact hp
  | cons op ops ih =>
    intro p hp
    exact ih _ (profileCache.derived_step p op hp)

theorem profileCache.derived_fill (profiles : List DeviceProfile) :
    ∀ p : profileCache, p.Derived →
      (profiles.foldl (fun p dp => p.store p.dpMap dp) p).Derived := by
  induction profiles with
  | nil => intro p hp; exact hp
  | cons dp rest ih =>
    intro p hp
    exact ih _ (profileCache.derived_store p p.dpMap dp hp (fun _ _ h => h))

theorem profileCache.derived_new (profiles : List DeviceProfile) :
    (newProfileCache profiles).Derived :=
  profileCache.derived_fill profiles _ (fun _ _ h => by cases h)

theorem profileCache.derived_lookups (C : profileCache) (hD : C.Derived) (p : String)
    (P : DeviceProfile) (h : C.ForName p = some P) :
    (∀ o, C.DeviceObject p o
      = P.DeviceResources.reverse.find? (fun x => decide (x.Name = o))) ∧
    (∀ c, C.ResourceOperations p c "get" =
      match P.Resources.reverse.find? (fun pr => decide (pr.Name = c)) with
      | some pr => .ok pr.Get
      | none => .error ("profiles: ResourceOperations: specified cmd: " ++ c ++ " not found")) ∧
    (∀ c, C.ResourceOperations p c "set" =
      match P.Resources.reverse.find? (fun pr => decide (pr.Name = c)) with
      | some pr => .ok pr.Set
      | none =>
        .error ("profiles: ResourceOperations: specified cmd: " ++ c ++ " not found")) := by
  obtain ⟨h1, h2, h3, _⟩ := hD p P h
  have hg : ToLower "get" = "get" := by decide
  have hs : ¬ (ToLower "set" = "get") := by decide
  refine ⟨fun o => ?_, fun c => ?_, fun c => ?_⟩
  · simp only [profileCache.DeviceObject, h1, deviceObjectSliceToMap_get]
  · simp only [profileCache.ResourceOperations, hg, if_true, h2, getOpMap_get]
    cases P.Resources.reverse.find? (fun pr => decide (pr.Name = c)) <;> rfl
  · simp only [profileCache.ResourceOperations, hs, if_false, h3, setOpMap_get]
    cases P.Resources.reverse.find? (fun pr => decide (pr.Name = c)) <;> rfl

theorem find_reverse_some {α : Type} (l : List α) (q : α → Bool) (x : α)
    (h : l.reverse.find? q = some x) : x ∈ l ∧ q x = true :=
  ⟨List.mem_reverse.1 (List.mem_of_find?_eq_some h), List.find?_some h⟩

theorem find_reverse_isSome {α : Type} (l : List α) (q : α → Bool) :
    (l.reverse.find? q).isSome = true ↔ ∃ x ∈ l, q x = true := by
  rw [List.find?_isSome]
  constructor
  · rintro ⟨x, hx, hq⟩
    exact ⟨x, List.mem_reverse.1 hx, hq⟩
  · rintro ⟨x, hx, hq⟩
    exact ⟨x, List.mem_reverse.2 hx, hq⟩

theorem operations_of_find (l : List ProfileResource) (c : String)
    (sel : ProfileResource → List ResourceOperation)
    (r : Except String (List ResourceOperation)) (msg : String)
    (hr : r = match l.reverse.find? (fun pr => decide (pr.Name = c)) with
      | some pr => .ok (sel pr)
      | none => .error msg) :
    ((∃ ros, r = .ok ros) ↔ ∃ pr ∈ l, pr.Name = c) ∧
    (∀ ros, r = .ok ros → ∃ pr ∈ l, pr.Name = c ∧ ros = sel pr ∧
      l.reverse.find? (fun pr => decide (pr.Name = c)) = some pr) := by
  subst hr
  cases hf : l.reverse.find? (fun pr => decide (pr.Name = c)) with
  | none =>
    have hnone : ¬ ∃ pr ∈ l, pr.Name = c := by
      rintro ⟨pr, hpr, hn⟩
      have := (find_reverse_isSome l (fun pr => decide (pr.Name = c))).2
        ⟨pr, hpr, by simp only [hn, decide_True]⟩
      rw [hf] at this
      cases this
    refine ⟨⟨?_, fun hex => absurd hex hnone⟩, ?_⟩
    · rintro ⟨ros, hros⟩
      cases hros
    · intro ros hros
      cases hros
  | some pr =>
    obtain ⟨hmem, hq⟩ := find_reverse_some l _ pr hf
    have hn : pr.Name = c := of_decide_eq_true hq
    refine ⟨⟨fun _ => ⟨pr, hmem, hn⟩, fun _ => ⟨_, rfl⟩⟩, ?_⟩
    intro ros hros
    have hros1 : sel pr = ros := Except.ok.inj hros
    exact ⟨pr, hmem, hn, hros1.symm, rfl⟩

/-- C28: in every profile-cache state reached from a start-up snapshot by Add,
Update, Remove and RemoveByName calls, for each profile P that ForName(p)
returns: DeviceObject(p, o) is found exactly when P.DeviceResources has an
object named o, and the object returned is one of these (the last declared);
ResourceOperations(p, c, "get") and (p, c, "set") succeed exactly when
P.Resources has a resource named c, and return the Get list and the Set list
of such a resource (the last declared), as declared. -/
theorem profileCache_indices_agree (profiles : List DeviceProfile) (ops : List ProfileOp)
    (p : String) (P : DeviceProfile)
    (h : ((newProfileCache profiles).run ops).ForName p = some P) :
    (∀ o, (((newProfileCache profiles).run ops).DeviceObject p o).isSome = true ↔
      ∃ x ∈ P.DeviceResources, x.Name = o) ∧
    (∀ o x, ((newProfileCache profiles).run ops).DeviceObject p o = some x →
      x ∈ P.DeviceResources ∧ x.Name = o ∧
      P.DeviceResources.reverse.find? (fun x => decide (x.Name = o)) = some x) ∧
    (∀ c, (∃ ros, ((newProfileCache profiles).run ops).ResourceOperations p c "get" = .ok ros) ↔
      ∃ pr ∈ P.Resources, pr.Name = c) ∧
    (∀ c ros, ((newProfileCache profiles).run ops).ResourceOperations p c "get" = .ok ros →
      ∃ pr ∈ P.Resources, pr.Name = c ∧ ros = pr.Get ∧
        P.Resources.reverse.find? (fun pr => decide (pr.Name = c)) = some pr) ∧
    (∀ c, (∃ ros, ((newProfileCache profiles).run ops).ResourceOperations p c "set" = .ok ros) ↔
      ∃ pr ∈ P.Resources, pr.Name = c) ∧
    (∀ c ros, ((newProfileCache profiles).run ops).ResourceOperations p c "set" = .ok ros →
      ∃ pr ∈ P.Resources, pr.Name = c ∧ ros = pr.Set ∧
        P.Resources.reverse.find? (fun pr => decide (pr.Name = c)) = some pr) := by
  obtain ⟨hdo, hget, hset⟩ := profileCache.derived_lookups _
    (profileCache.derived_run ops _ (profileCache.derived_new profiles)) p P h
  refine ⟨fun o => ?_, fun o x hx => ?_,
    fun c => (operations_of_find P.Resources c (fun pr => pr.Get) _ _ (hget c)).1,
    fun c => (operations_of_find P.Resources c (fun pr => pr.Get) _ _ (hget c)).2,
    fun c => (operations_of_find P.Resources c (fun pr => pr.Set) _ _ (hset c)).1,
    fun c => (operations_of_find P.Resources c (fun pr => pr.Set) _ _ (hset c)).2⟩
  · rw [hdo o, find_reverse_isSome]
    constructor
    · rintro ⟨x, hx, hq⟩
      exact ⟨x, hx, of_decide_eq_true hq⟩
    · rintro ⟨x, hx, hq⟩
      exact ⟨x, hx, decide_eq_true hq⟩
  · rw [hdo o] at hx
    obtain ⟨hmem, hq⟩ := find_reverse_some _ _ x hx
    exact ⟨hmem, of_decide_eq_true hq, hx⟩

/-- Witness of C28: the profile `hvac` is added, renamed by an Update, and a
profile named `hvac` is added again; the indices under `hvac` are those of the
profile stored last. -/
theorem profileCache_indices_agree_witness :
    ((newProfileCache []).run
      [.add profileHvac, .update profileHvacRenamed, .add profileHvacReset]).ForName "hvac"
      = some profileHvacReset ∧
    ((newProfileCache []).run
      [.add profileHvac, .update profileHvacRenamed, .add profileHvacReset]).ResourceOperations
        "hvac" "power" "get" = .ok [roSwitch] ∧
    (∃ pr ∈ profileHvacReset.Resources, pr.Name = "power" ∧ [roSwitch] = pr.Get ∧
      profileHvacReset.Resources.reverse.find? (fun pr => decide (pr.Name = "power"))
        = some pr) :=
  ⟨by decide, by decide,
    (profileCache_indices_agree []
      [.add profileHvac, .update profileHvacRenamed, .add profileHvacReset]
      "hvac" profileHvacReset (by decide)).2.2.2.1 "power" [roSwitch] (by decide)⟩

/-! ## Command dispatch: the driver call -/

theorem readResultsLoop_driver_calls (env : Env) (results : List CommandValue) :
    ∀ st : ReadLoop,
      (match readResultsLoop env results st with
        | .inl st1 => st1.effects
        | .inr st1 => st1.effects).filter Effect.isDriverCall
        = st.effects.filter Effect.isDriverCall := by
  induction results with
  | nil => intro st; simp [readResultsLoop]
  | cons cv rest ih =>
    intro st
    cases hd : env.Profiles.DeviceObject st.device.ProfileName cv.RO.Object with
    | none => simp [readResultsLoop, hd]
    | some dobj =>
      rw [readResultsLoop_cons env cv rest st dobj hd, ih]
      by_cases hf : assertionFailed env dobj cv = true
      · simp [hf, Effect.isDriverCall]
      · simp [hf]

theorem buildReadRequests_some (env : Env) (device : Device) :
    ∀ (ros : List ResourceOperation) (reqs : List CommandRequest),
      buildReadRequests env device ros = some reqs →
      reqs.map (fun r => r.RO) = ros ∧
      ∀ r ∈ reqs,
        env.Profiles.DeviceObject device.ProfileName r.RO.Object = some r.DeviceObject := by
  intro ros
  induction ros with
  | nil =>
    intro reqs h
    simp only [buildReadRequests, Option.some.injEq] at h
    subst h
    exact ⟨rfl, fun r hr => by cases hr⟩
  | cons op ops ih =>
    intro reqs h
    unfold buildReadRequests at h
    cases hdo : env.Profiles.DeviceObject device.ProfileName op.Object with
    | none => simp only [hdo] at h; cases h
    | some devObj =>
      cases hb : buildReadRequests env device ops with
      | none => simp only [hdo, hb] at h; cases h
      | some rest =>
        simp only [hdo, hb, Option.some.injEq] at h
        subst h
        obtain ⟨h1, h2⟩ := ih rest hb
        refine ⟨by simp only [List.map_cons, h1], fun r hr => ?_⟩
        rcases List.mem_cons.1 hr with he | hin
        · subst he
          exact hdo
        · exact h2 r hin

theorem buildReadRequests_resolved (env : Env) (device : Device) :
    ∀ ros : List ResourceOperation,
      (∀ ro ∈ ros,
        (env.Profiles.DeviceObject device.ProfileName ro.Object).isSome = true) →
      ∃ reqs, buildReadRequests env device ros = some reqs := by
  intro ros
  induction ros with
  | nil => intro _; exact ⟨[], rfl⟩
  | cons op ops ih =>
    intro h
    obtain ⟨rest, hrest⟩ := ih (fun ro hro => h ro (List.mem_cons_of_mem _ hro))
    have hop := h op (List.mem_cons_self _ _)
    cases hdo : env.Profiles.DeviceObject device.ProfileName op.Object with
    | none => rw [hdo] at hop; cases hop
    | some devObj =>
      exact ⟨{ RO := op, DeviceObject := devObj } :: rest,
        by simp only [buildReadRequests, hdo, hrest]⟩

theorem buildReadRequests_missing (env : Env) (device : Device) :
    ∀ ros : List ResourceOperation,
      (∃ ro ∈ ros, env.Profiles.DeviceObject device.ProfileName ro.Object = none) →
      buildReadRequests env device ros = none := by
  intro ros
  induction ros with
  | nil => rintro ⟨ro, hro, _⟩; cases hro
  | cons op ops ih =>
    rintro ⟨ro, hro, hnone⟩
    unfold buildReadRequests
    rcases List.mem_cons.1 hro with he | hin
    · subst he
      simp only [hnone]
    · cases env.Profiles.DeviceObject device.ProfileName op.Object with
      | none => rfl
      | some devObj => simp only [ih ⟨ro, hin, hnone⟩]

theorem commandHandler_read (env : Env) (id cmd body method : String) (d : Device)
    (hd : env.Devices.ForId id = some d) (hl : d.AdminState ≠ .Locked)
    (hc : env.Profiles.CommandExists d.ProfileName cmd = .ok true)
    (hm : ToLower method = "get") :
    CommandHandler env id cmd body method =
      { event := (execReadCmd env d cmd).event, err := (execReadCmd env d cmd).err,
        device := some (execReadCmd env d cmd).device,
        effects := (execReadCmd env d cmd).effects } := by
  simp only [CommandHandler, hd, hl, if_false, hc, hm, if_true]

theorem commandHandler_write (env : Env) (id cmd body method : String) (d : Device)
    (hd : env.Devices.ForId id = some d) (hl : d.AdminState ≠ .Locked)
    (hc : env.Profiles.CommandExists d.ProfileName cmd = .ok true)
    (hm : ToLower method ≠ "get") :
    CommandHandler env id cmd body method =
      { event := none, err := (execWriteCmd env d cmd body).1, device := some d,
        effects := (execWriteCmd env d cmd body).2 } := by
  simp only [CommandHandler, hd, hl, if_false, hc, hm]

/-- C29: for a dispatch on a found, unlocked device and a declared command
that passes the checks made before the driver call, the driver is invoked
exactly once.  On read (operations resolved, count within the ceiling, every
operation's device object resolved) the single call is HandleReadCommands with
a request list of the same length and order as the resolved get operations,
request i carrying operation i and the device object the profile cache
resolves for its Object; a driver error yields a ServerError and no event.
On write (operations resolved, count within the ceiling, parameters parsed,
values prepared) the single call is HandleWriteCommands with the requests and
values prepared; a driver error yields a ServerError. -/
theorem dispatch_driver_once (env : Env) (id cmd body method : String) (d : Device)
    (hd : env.Devices.ForId id = some d) (hl : d.AdminState ≠ .Locked)
    (hc : env.Profiles.CommandExists d.ProfileName cmd = .ok true) :
    (ToLower method = "get" →
      ∀ ros, env.Profiles.ResourceOperations d.ProfileName cmd "get" = .ok ros →
        ros.length ≤ env.MaxCmdOps →
        (∀ ro ∈ ros, (env.Profiles.DeviceObject d.ProfileName ro.Object).isSome = true) →
        ∃ reqs : List CommandRequest,
          reqs.length = ros.length ∧
          reqs.map (fun r => r.RO) = ros ∧
          (∀ r ∈ reqs,
            env.Profiles.DeviceObject d.ProfileName r.RO.Object = some r.DeviceObject) ∧
          (CommandHandler env id cmd body method).effects.filter Effect.isDriverCall
            = [.driverRead d.Addressable reqs] ∧
          (∀ e, env.Driver.HandleReadCommands d.Addressable reqs = .error e →
            (CommandHandler env id cmd body method).err = some .ServerError ∧
            (CommandHandler env id cmd body method).event = none)) ∧
    (ToLower method ≠ "get" →
      ∀ ros cvs reqs cvs1,
        env.Profiles.ResourceOperations d.ProfileName cmd "set" = .ok ros →
        ros.length ≤ env.MaxCmdOps →
        parseWriteParams env (roSliceToMap ros) body = (cvs, none) →
        writeValuesLoop env d cvs = .ok (reqs, cvs1) →
        (CommandHandler env id cmd body method).effects
          = [.driverWrite d.Addressable reqs cvs1] ∧
        (∀ e, env.Driver.HandleWriteCommands d.Addressable reqs cvs1 = some e →
          (CommandHandler env id cmd body method).err = some .ServerError)) := by
  constructor
  · intro hm ros hros hmax hobj
    rw [commandHandler_read env id cmd body method d hd hl hc hm]
    obtain ⟨reqs, hreqs⟩ := buildReadRequests_resolved env d ros hobj
    obtain ⟨hmap, hres⟩ := buildReadRequests_some env d ros reqs hreqs
    have hmax1 : ¬ (ros.length > env.MaxCmdOps) := not_lt.mpr hmax
    refine ⟨reqs, ?_, hmap, hres, ?_, ?_⟩
    · rw [← hmap, List.length_map]
    · cases hdrv : env.Driver.HandleReadCommands d.Addressable reqs with
      | error e =>
        simp only [execReadCmd, hros, hmax1, if_false, hreqs, hdrv]
        rfl
      | ok results =>
        have hloop := readResultsLoop_driver_calls env results
          { readings := [], transformsOK := true, device := d,
            effects := [.driverRead d.Addressable reqs] }
        simp only [execReadCmd, hros, hmax1, if_false, hreqs, hdrv]
        cases hr : readResultsLoop env results
            { readings := [], transformsOK := true, device := d,
              effects := [.driverRead d.Addressable reqs] } with
        | inl st =>
          rw [hr] at hloop
          simpa using hloop
        | inr st =>
          rw [hr] at hloop
          simp only [List.filter_append, hloop]
          rfl
    · intro e he
      simp only [execReadCmd, hros, hmax1, if_false, hreqs, he, and_self]
  · intro hm ros cvs reqs cvs1 hros hmax hp hw
    rw [commandHandler_write env id cmd body method d hd hl hc hm]
    have hmax1 : ¬ (ros.length > env.MaxCmdOps) := not_lt.mpr hmax
    constructor
    · cases hdrv : env.Driver.HandleWriteCommands d.Addressable reqs cvs1 with
      | none => simp only [execWriteCmd, hros, hmax1, if_false, hp, hw, hdrv]
      | some e => simp only [execWriteCmd, hros, hmax1, if_false, hp, hw, hdrv]
    · intro e he
      simp only [execWriteCmd, hros, hmax1, if_false, hp, hw, he]

/-- Witness of C29: a read of `temp` on the device `pump`, whose driver call
fails, and a write of `power` on the device `thermostat`. -/
theorem dispatch_driver_once_witness :
    sampleEnvThree.Devices.ForId "5b3" = some devPump ∧
    (∃ reqs : List CommandRequest,
      reqs.length = [roTemperature].length ∧
      reqs.map (fun r => r.RO) = [roTemperature] ∧
      (∀ r ∈ reqs,
        sampleEnvThree.Profiles.DeviceObject devPump.ProfileName r.RO.Object
          = some r.DeviceObject) ∧
      (CommandHandler sampleEnvThree "5b3" "temp" "" "get").effects.filter Effect.isDriverCall
        = [.driverRead devPump.Addressable reqs] ∧
      (∀ e, sampleEnvThree.Driver.HandleReadCommands devPump.Addressable reqs = .error e →
        (CommandHandler sampleEnvThree "5b3" "temp" "" "get").err = some .ServerError ∧
        (CommandHandler sampleEnvThree "5b3" "temp" "" "get").event = none)) ∧
    (CommandHandler sampleEnvThree "5b3" "temp" "" "get").err = some .ServerError ∧
    (CommandHandler (sampleEnv 5 true) "5b1" "power" "[\x7b\"switch\":\"1\"\x7d]" "put").effects
      = [.driverWrite devThermostat.Addressable
          [{ RO := roSwitch,
             DeviceObject :=
              { Name := "switch",
                Value := { Base := "", Scale := "", Offset := "", Assertion := "0" } } }]
          [switchValue 1]] :=
  ⟨by decide,
    (dispatch_driver_once sampleEnvThree "5b3" "temp" "" "get" devPump
      (by decide) (by decide) (by decide)).1 (by decide) [roTemperature]
      (by decide) (by decide) (by decide),
    by decide,
    ((dispatch_driver_once (sampleEnv 5 true) "5b1" "power" "[\x7b\"switch\":\"1\"\x7d]" "put"
      devThermostat (by decide) (by decide) (by decide)).2 (by decide) [roSwitch]
      [switchValue 1]
      [{ RO := roSwitch,
         DeviceObject :=
          { Name := "switch",
            Value := { Base := "", Scale := "", Offset := "", Assertion := "0" } } }]
      [switchValue 1] (by decide) (by decide) (by decide) (by decide)).1⟩

/-! ## Read dispatch: an operation whose device object is missing -/

/-- C30: on a read dispatch whose get operations resolve, if some operation
names an Object for which the device's profile has no device object, the
request fails with a ServerError, no event is returned and nothing is done
(the driver is not invoked), whatever the other operations resolve to. -/
theorem execReadCmd_missing_device_object (env : Env) (device : Device) (cmd : String)
    (ros : List ResourceOperation)
    (hros : env.Profiles.ResourceOperations device.ProfileName cmd "get" = .ok ros)
    (hmiss : ∃ ro ∈ ros, env.Profiles.DeviceObject device.ProfileName ro.Object = none) :
    execReadCmd env device cmd =
      { event := none, err := some .ServerError, device := device, effects := [] } ∧
    (∀ id body method, env.Devices.ForId id = some device → device.AdminState ≠ .Locked →
      env.Profiles.CommandExists device.ProfileName cmd = .ok true →
      ToLower method = "get" →
      CommandHandler env id cmd body method =
        { event := none, err := some .ServerError, device := some device, effects := [] }) := by
  have hexec : execReadCmd env device cmd =
      { event := none, err := some .ServerError, device := device, effects := [] } := by
    by_cases hmax : ros.length > env.MaxCmdOps
    · simp only [execReadCmd, hros, hmax, if_true]
    · simp only [execReadCmd, hros, hmax, if_false,
        buildReadRequests_missing env device ros hmiss]
  refine ⟨hexec, fun id body method hd hl hc hm => ?_⟩
  rw [commandHandler_read env id cmd body method device hd hl hc hm, hexec]

/-- Witness of C30: the command `temp` reads `temperature`, which resolves,
and then `humidity`, which the profile does not declare. -/
theorem execReadCmd_missing_device_object_witness :
    ({ sampleEnv 5 true with Profiles := newProfileCache [profileHvacPartial] }
      : Env).Profiles.DeviceObject "hvac" "temperature" ≠ none ∧
    execReadCmd { sampleEnv 5 true with Profiles := newProfileCache [profileHvacPartial] }
        devThermostat "temp" =
      { event := none, err := some .ServerError, device := devThermostat, effects := [] } ∧
    CommandHandler { sampleEnv 5 true with Profiles := newProfileCache [profileHvacPartial] }
        "5b1" "temp" "" "get" =
      { event := none, err := some .ServerError, device := some devThermostat,
        effects := [] } :=
  ⟨by decide,
    (execReadCmd_missing_device_object
      { sampleEnv 5 true with Profiles := newProfileCache [profileHvacPartial] }
      devThermostat "temp" [roTemperature, roHumidity] (by decide)
      ⟨roHumidity, by decide, by decide⟩).1,
    (execReadCmd_missing_device_object
      { sampleEnv 5 true with Profiles := newProfileCache [profileHvacPartial] }
      devThermostat "temp" [roTemperature, roHumidity] (by decide)
      ⟨roHumidity, by decide, by decide⟩).2 "5b1" "" "get"
        (by decide) (by decide) (by decide) (by decide)⟩

/-! ## Fan-out: the devices dispatched to -/

theorem takeOut_perm {α : Type} (k : Nat) :
    ∀ (x : α) (xs : List α), ((takeOut k x xs).1 :: (takeOut k x xs).2).Perm (x :: xs) := by
  induction k with
  | zero => intro x xs; exact List.Perm.refl _
  | succ k ih =>
    intro x xs
    cases xs with
    | nil => exact List.Perm.refl _
    | cons y ys =>
      simp only [takeOut]
      exact (List.Perm.swap x (takeOut k y ys).1 (takeOut k y ys).2).trans
        (List.Perm.cons x (ih y ys))

theorem arrivalOrder_perm {α : Type} (schedule : List Nat) :
    ∀ launched : List α, (arrivalOrder schedule launched).Perm launched := by
  induction schedule with
  | nil =>
    intro launched
    cases launched <;> exact List.Perm.refl _
  | cons k schedule ih =>
    intro launched
    cases launched with
    | nil => exact List.Perm.refl _
    | cons x xs =>
      simp only [arrivalOrder]
      exact (List.Perm.cons _ (ih _)).trans (takeOut_perm k x xs)

theorem takeOut_reaches {α : Type} (a : α) :
    ∀ (xs : List α) (x : α), a ∈ x :: xs → ∃ k, (takeOut k x xs).1 = a := by
  intro xs
  induction xs with
  | nil =>
    intro x h
    exact ⟨0, (List.mem_singleton.1 h).symm⟩
  | cons y ys ih =>
    intro x h
    rcases List.mem_cons.1 h with he | hin
    · exact ⟨0, he.symm⟩
    · obtain ⟨k, hk⟩ := ih y hin
      exact ⟨k + 1, hk⟩

/-- Every order of the launched goroutines is the arrival order of some
schedule. -/
theorem arrivalOrder_complete {α : Type} (completion : List α) :
    ∀ launched : List α, completion.Perm launched →
      ∃ schedule, arrivalOrder schedule launched = completion := by
  induction completion with
  | nil =>
    intro launched h
    have : launched = [] := (List.Perm.nil_eq h).symm
    subst this
    exact ⟨[], rfl⟩
  | cons a cs ih =>
    intro launched h
    cases launched with
    | nil => exact absurd h.symm (List.not_perm_nil_cons _ _)
    | cons x xs =>
      obtain ⟨k, hk⟩ := takeOut_reaches a xs x (h.subset (List.mem_cons_self _ _))
      have h1 := takeOut_perm k x xs
      rw [hk] at h1
      have h2 : cs.Perm (takeOut k x xs).2 := (h.trans h1.symm).cons_inv
      obtain ⟨schedule, hs⟩ := ih _ h2
      exact ⟨k :: schedule, by simp only [arrivalOrder, hk, hs]⟩

theorem filterOperationalDevices_eq_filter (l : List Device) :
    filterOperationalDevices l =
      l.filter (fun d => decide (d.AdminState ≠ .Locked ∧ d.OperatingState ≠ .Disabled)) := by
  induction l with
  | nil => rfl
  | cons d rest ih =>
    rw [filterOperationalDevices, List.filter_cons, ih]
    by_cases h : d.AdminState = .Locked ∨ d.OperatingState = .Disabled
    · have hn : ¬ (d.AdminState ≠ .Locked ∧ d.OperatingState ≠ .Disabled) := by
        rintro ⟨h1, h2⟩
        rcases h with h | h
        · exact h1 h
        · exact h2 h
      rw [if_pos h, if_neg (by rw [decide_eq_true_eq]; exact hn)]
    · have hp : d.AdminState ≠ .Locked ∧ d.OperatingState ≠ .Disabled :=
        ⟨fun e => h (Or.inl e), fun e => h (Or.inr e)⟩
      rw [if_neg h, if_pos (by rw [decide_eq_true_eq]; exact hp)]

theorem arrived_outcomes (env : Env) (cmd body method : String) (devices : List Device)
    (schedule : List Nat) :
    ((arrivalOrder schedule (launchDispatches env cmd body method devices)).map
        (fun x => x.1)).Perm devices ∧
    (∀ x ∈ arrivalOrder schedule (launchDispatches env cmd body method devices),
      x.2 = dispatchToDevice env cmd body method x.1) ∧
    (arrivalOrder schedule (launchDispatches env cmd body method devices)).map (fun x => x.2) =
      ((arrivalOrder schedule (launchDispatches env cmd body method devices)).map
        (fun x => x.1)).map (dispatchToDevice env cmd body method) := by
  have hperm := arrivalOrder_perm schedule (launchDispatches env cmd body method devices)
  have hout : ∀ x ∈ arrivalOrder schedule (launchDispatches env cmd body method devices),
      x.2 = dispatchToDevice env cmd body method x.1 := by
    intro x hx
    have hx1 := hperm.subset hx
    unfold launchDispatches at hx1
    obtain ⟨d, _, hd⟩ := List.mem_map.1 hx1
    rw [← hd]
  refine ⟨?_, hout, ?_⟩
  · have := hperm.map (fun x => x.1)
    simpa [launchDispatches, Function.comp_def] using this
  · rw [List.map_map]
    exact List.map_congr_left (fun x hx => hout x hx)

/-- C34: filterOperationalDevices returns exactly the devices of its input
whose AdminState is not Locked and whose OperatingState is not Disabled, each
as often as it occurs and in input order; and CommandAllHandler, which
launches one dispatch per element of that list over the cache snapshot,
dispatches under every schedule of its goroutines to exactly the eligible
devices of the snapshot, each once per occurrence, the outcome drained for a
device being the outcome of the dispatch on that device, and returns what the
drain of these outcomes gives. -/
theorem filterOperationalDevices_eligible (env : Env) (devices : List Device) :
    filterOperationalDevices devices =
      devices.filter
        (fun d => decide (d.AdminState ≠ .Locked ∧ d.OperatingState ≠ .Disabled)) ∧
    (∀ (cmd body method : String) (schedule : List Nat),
      ((CommandAllHandlerScheduled env cmd body method schedule).1.map (fun x => x.1)).Perm
        (env.Devices.All.filter
          (fun d => decide (d.AdminState ≠ .Locked ∧ d.OperatingState ≠ .Disabled))) ∧
      (∀ d, d ∈ (CommandAllHandlerScheduled env cmd body method schedule).1.map (fun x => x.1) ↔
        d ∈ env.Devices.All ∧ d.AdminState ≠ .Locked ∧ d.OperatingState ≠ .Disabled) ∧
      (∀ x ∈ (CommandAllHandlerScheduled env cmd body method schedule).1,
        x.2 = dispatchToDevice env cmd body method x.1) ∧
      (CommandAllHandlerScheduled env cmd body method schedule).2 =
        CommandAllHandler env cmd body method
          ((CommandAllHandlerScheduled env cmd body method schedule).1.map (fun x => x.1))) := by
  refine ⟨filterOperationalDevices_eq_filter devices, fun cmd body method schedule => ?_⟩
  obtain ⟨hperm, hout, hmap⟩ := arrived_outcomes env cmd body method
    (filterOperationalDevices env.Devices.All) schedule
  have hperm2 : ((arrivalOrder schedule (launchDispatches env cmd body method
      (filterOperationalDevices env.Devices.All))).map (fun x => x.1)).Perm
      (env.Devices.All.filter
        (fun d => decide (d.AdminState ≠ .Locked ∧ d.OperatingState ≠ .Disabled))) := by
    rw [← filterOperationalDevices_eq_filter]
    exact hperm
  refine ⟨hperm2, fun d => ?_, hout, ?_⟩
  · show d ∈ (arrivalOrder schedule (launchDispatches env cmd body method
      (filterOperationalDevices env.Devices.All))).map (fun x => x.1) ↔ _
    rw [hperm2.mem_iff, List.mem_filter]
    simp only [decide_eq_true_eq]
  · simp only [CommandAllHandlerScheduled, CommandAllHandler, hmap]

/-- Witness of C34: of thermostat, a locked valve, a disabled boiler and pump,
the thermostat and the pump are kept, in that order; and with the three
devices of the sample cache all eligible, the schedule 1, 1 has the valve, the
thermostat and the pump dispatched to, in that order of arrival. -/
theorem filterOperationalDevices_eligible_witness :
    filterOperationalDevices [devThermostat, devValveLocked, devBoilerDisabled, devPump]
      = [devThermostat, devPump] ∧
    (CommandAllHandlerScheduled sampleEnvThree "temp" "" "get" [1, 1]).1.map (fun x => x.1)
      = [devValve, devThermostat, devPump] ∧
    (devPump ∈
        (CommandAllHandlerScheduled sampleEnvThree "temp" "" "get" [1, 1]).1.map (fun x => x.1) ↔
      devPump ∈ sampleEnvThree.Devices.All ∧ devPump.AdminState ≠ .Locked ∧
        devPump.OperatingState ≠ .Disabled) :=
  ⟨by decide, by decide,
    ((filterOperationalDevices_eligible sampleEnvThree []).2 "temp" "" "get" [1, 1]).2.1
      devPump⟩

/-! ## Asynchronous ingestion: values without a device object -/

theorem asyncValuesLoop_sendEvents (env : Env) (values : List CommandValue) :
    ∀ st : ReadLoop,
      (asyncValuesLoop env values st).effects.filter Effect.isSendEvent
        = st.effects.filter Effect.isSendEvent := by
  induction values with
  | nil => intro st; simp [asyncValuesLoop]
  | cons cv rest ih =>
    intro st
    cases hd : env.Profiles.DeviceObject st.device.ProfileName cv.RO.Object with
    | none => rw [asyncValuesLoop, hd]; exact ih st
    | some dobj =>
      rw [asyncValuesLoop_cons env cv rest st dobj hd, ih]
      by_cases hf : assertionFailed env dobj cv = true
      · simp [hf, Effect.isSendEvent]
      · simp [hf]

theorem length_filterMap_readingFor (env : Env) (profileName deviceName : String)
    (values : List CommandValue) :
    (values.filterMap (readingFor env profileName deviceName)).length =
      values.countP
        (fun cv => (env.Profiles.DeviceObject profileName cv.RO.Object).isSome) := by
  induction values with
  | nil => rfl
  | cons cv rest ih =>
    cases hd : env.Profiles.DeviceObject profileName cv.RO.Object with
    | none => simp [List.filterMap_cons, readingFor, hd, ih]
    | some dobj => simp [List.filterMap_cons, readingFor, hd, ih]

/-- C35: for an async batch whose device is known, the iteration assembles and
submits a single event whose readings are, in batch order, exactly one reading
for each value whose operation Object has a device object in the device's
profile (the reading of the value after transform and mapping); a value whose
device object is missing is skipped and contributes nothing. -/
theorem processAsyncBatch_readings (env : Env) (acv : AsyncValues) (device : Device)
    (h : env.Devices.ForName acv.DeviceName = some device) :
    ∃ st, processAsyncBatch env acv = some st ∧
      st.readings =
        acv.CommandValues.filterMap (readingFor env device.ProfileName device.Name) ∧
      st.readings.length =
        acv.CommandValues.countP
          (fun cv => (env.Profiles.DeviceObject device.ProfileName cv.RO.Object).isSome) ∧
      st.effects.filter Effect.isSendEvent =
        [.sendEvent { Device := acv.DeviceName, Readings := st.readings, Origin := 0 }] := by
  obtain ⟨hr, _⟩ := asyncValuesLoop_spec env acv.CommandValues
    { readings := [], transformsOK := true, device := device, effects := [] }
  have hs := asyncValuesLoop_sendEvents env acv.CommandValues
    { readings := [], transformsOK := true, device := device, effects := [] }
  simp only [List.nil_append] at hr
  have hb : processAsyncBatch env acv =
      some { asyncValuesLoop env acv.CommandValues
              { readings := [], transformsOK := true, device := device, effects := [] } with
        effects :=
          (asyncValuesLoop env acv.CommandValues
            { readings := [], transformsOK := true, device := device, effects := [] }).effects ++
          [.sendEvent
            { Device := acv.DeviceName,
              Readings :=
                (asyncValuesLoop env acv.CommandValues
                  { readings := [], transformsOK := true, device := device,
                    effects := [] }).readings,
              Origin := 0 }] } := by
    simp only [processAsyncBatch, h]
  refine ⟨_, hb, hr, ?_, ?_⟩
  · simp only [hr, length_filterMap_readingFor]
  · simp only [List.filter_append, hs]
    rfl

/-- Witness of C35: a batch for `thermostat` of three values whose second
names the undeclared object `humidity`; the event has the readings of the
first and the third. -/
theorem processAsyncBatch_readings_witness :
    (sampleEnv 5 true).Devices.ForName batchMixed.DeviceName = some devThermostat ∧
    (processAsyncBatch (sampleEnv 5 true) batchMixed).map (fun st => st.readings) =
      some [{ Device := "thermostat", Name := "switch", Value := "OFF", Origin := 1 },
            { Device := "thermostat", Name := "switch", Value := "ON", Origin := 1 }] ∧
    (∃ st, processAsyncBatch (sampleEnv 5 true) batchMixed = some st ∧
      st.readings =
        batchMixed.CommandValues.filterMap
          (readingFor (sampleEnv 5 true) devThermostat.ProfileName devThermostat.Name) ∧
      st.readings.length =
        batchMixed.CommandValues.countP
          (fun cv => ((sampleEnv 5 true).Profiles.DeviceObject devThermostat.ProfileName
            cv.RO.Object).isSome) ∧
      st.effects.filter Effect.isSendEvent =
        [.sendEvent { Device := batchMixed.DeviceName, Readings := st.readings, Origin := 0 }]) :=
  ⟨by decide, by decide,
    processAsyncBatch_readings (sampleEnv 5 true) batchMixed devThermostat (by decide)⟩

/-! ## Fan-out: outcomes that carry an error -/

/-- C39: in CommandAllHandler on a read, every outcome that carries an error
is counted as failed, whether or not it also carries an event, and the list
returned holds exactly the events of the outcomes with a nil error, in
completion order; so a fan-out over a single eligible device whose read
returns an event together with an error returns the empty list and that
error. -/
theorem commandAllHandler_error_outcome_dropped (env : Env) (cmd body method : String)
    (completion : List Device) (hm : ToLower method = "get") :
    (drainResults (completion.map (dispatchToDevice env cmd body method))
        { errCount := 0, getResults := [], appErr := none }).errCount =
      completion.countP (fun d => (execReadCmd env d cmd).err.isSome) ∧
    (CommandAllHandler env cmd body method completion).1.map some =
      (completion.filter (fun d => (execReadCmd env d cmd).err.isNone)).map
        (fun d => (execReadCmd env d cmd).event) ∧
    (∀ d e, completion = [d] → filterOperationalDevices env.Devices.All = [d] →
      (execReadCmd env d cmd).err = some e →
      CommandAllHandler env cmd body method completion = ([], some e)) := by
  have hmap : completion.map (dispatchToDevice env cmd body method) =
      completion.map (readOutcome env cmd) :=
    List.map_congr_left (fun d _ => dispatchToDevice_get env cmd body method hm d)
  obtain ⟨hcount, hres⟩ := drainResults_counts (completion.map (readOutcome env cmd))
    { errCount := 0, getResults := [], appErr := none }
  refine ⟨?_, ?_, ?_⟩
  · rw [hmap, hcount, List.countP_map]
    simp [Function.comp_def, readOutcome]
  · simp only [CommandAllHandler, hmap, hres, List.nil_append]
    exact filterMap_success_events env cmd completion
  · intro d e hc hf he
    subst hc
    have hd : dispatchToDevice env cmd body method d = readOutcome env cmd d :=
      dispatchToDevice_get env cmd body method hm d
    simp [CommandAllHandler, hf, hd, drainResults, readOutcome, he]

/-- Witness of C39: the only device is `thermostat`, whose read of `power`
returns an event and the error of the failed assertion. -/
theorem commandAllHandler_error_outcome_dropped_witness :
    (execReadCmd { sampleEnv 5 true with Devices := newDeviceCache [devThermostat] }
      devThermostat "power").event.isSome = true ∧
    (execReadCmd { sampleEnv 5 true with Devices := newDeviceCache [devThermostat] }
      devThermostat "power").err = some .ServerError ∧
    CommandAllHandler { sampleEnv 5 true with Devices := newDeviceCache [devThermostat] }
      "power" "" "get" [devThermostat] = ([], some .ServerError) :=
  ⟨by decide, by decide,
    (commandAllHandler_error_outcome_dropped
      { sampleEnv 5 true with Devices := newDeviceCache [devThermostat] }
      "power" "" "get" [devThermostat] (by decide)).2.2 devThermostat .ServerError rfl
      (by decide) (by decide)⟩

/-! ## Write dispatch: keys that match no operation -/

theorem roSliceToMap_get (ros : List ResourceOperation) (k : String) (ro : ResourceOperation)
    (h : GoMap.get (roSliceToMap ros) k = some ro) : ro.Parameter = k ∧ ro ∈ ros := by
  unfold roSliceToMap at h
  rw [foldl_set_get (fun r : ResourceOperation => r.Parameter) (fun r => r) ros [] k] at h
  cases hf : ros.reverse.find? (fun x => decide (x.Parameter = k)) with
  | none => rw [hf] at h; cases h
  | some x =>
    rw [hf] at h
    have hx : x = ro := Option.some.inj h
    subst hx
    obtain ⟨hmem, hq⟩ := find_reverse_some ros _ x hf
    exact ⟨of_decide_eq_true hq, hmem⟩

theorem newCommandValue_RO (ro : ResourceOperation) (origin : Int) (value : ParamValue)
    (t : ValueType) (cv : CommandValue) (h : NewCommandValue ro origin value t = .ok cv) :
    cv.RO = ro := by
  unfold NewCommandValue at h
  split at h <;> first | (cases h; rfl) | cases h

theorem createCommandValueForParam_RO (env : Env) (ro : ResourceOperation) (v : String)
    (cv : CommandValue) (h : createCommandValueForParam env ro v = .ok cv) : cv.RO = ro := by
  unfold createCommandValueForParam at h
  split at h
  · cases h
  · split at h
    · cases h
    · exact newCommandValue_RO _ _ _ _ _ h

theorem parseWriteParamsLoop_ok (env : Env) (roMap : GoMap ResourceOperation)
    (entries : List (String × String)) :
    ∀ result,
      (∀ kv ∈ entries, ∀ ro, GoMap.get roMap kv.1 = some ro →
        ∃ cv, createCommandValueForParam env ro kv.2 = .ok cv) →
      parseWriteParamsLoop env roMap entries result =
        (result ++ entries.filterMap (paramValueFor env roMap), none) := by
  induction entries with
  | nil => intro result _; simp [parseWriteParamsLoop]
  | cons kv rest ih =>
    intro result hok
    obtain ⟨k, v⟩ := kv
    have hrest : ∀ kv ∈ rest, ∀ ro, GoMap.get roMap kv.1 = some ro →
        ∃ cv, createCommandValueForParam env ro kv.2 = .ok cv :=
      fun kv hkv => hok kv (List.mem_cons_of_mem _ hkv)
    cases hg : GoMap.get roMap k with
    | none =>
      rw [parseWriteParamsLoop, hg, ih result hrest]
      simp [List.filterMap_cons, paramValueFor, hg]
    | some ro =>
      obtain ⟨cv, hcv⟩ := hok (k, v) (List.mem_cons_self _ _) ro hg
      rw [parseWriteParamsLoop, hg]
      simp only [hcv]
      rw [ih (result ++ [cv]) hrest]
      simp [List.filterMap_cons, paramValueFor, hg, hcv]

theorem paramValueFor_keys (env : Env) (roMap : GoMap ResourceOperation)
    (hkey : ∀ k ro, GoMap.get roMap k = some ro → ro.Parameter = k)
    (entries : List (String × String)) :
    (∀ kv ∈ entries, ∀ ro, GoMap.get roMap kv.1 = some ro →
      ∃ cv, createCommandValueForParam env ro kv.2 = .ok cv) →
    (entries.filterMap (paramValueFor env roMap)).map (fun cv => cv.RO.Parameter) =
      (entries.filter (fun kv => (GoMap.get roMap kv.1).isSome)).map (fun kv => kv.1) := by
  induction entries with
  | nil => intro _; rfl
  | cons kv rest ih =>
    intro hok
    have hrest := ih (fun kv hkv => hok kv (List.mem_cons_of_mem _ hkv))
    cases hg : GoMap.get roMap kv.1 with
    | none => simp [List.filterMap_cons, List.filter_cons, paramValueFor, hg, hrest]
    | some ro =>
      obtain ⟨cv, hcv⟩ := hok kv (List.mem_cons_self _ _) ro hg
      have hro : cv.RO = ro := createCommandValueForParam_RO env ro kv.2 cv hcv
      have hp : cv.RO.Parameter = kv.1 := by rw [hro]; exact hkey kv.1 ro hg
      simp [List.filterMap_cons, List.filter_cons, paramValueFor, hg, hcv, hrest, hp]

/-! ## Value transforms: what one step does -/

theorem replace_outcome (P : Platform) (c : CommandValue) (f : F64) :
    StepOutcome False c (replaceCommandValueFromFloat64 P c f) := by
  refine ⟨?_, ?_, ?_, ?_⟩
  · intro h
    unfold replaceCommandValueFromFloat64 at h ⊢
    split at h
    · rename_i e he
      simp only [he]
    · cases h
  · unfold replaceCommandValueFromFloat64
    split <;> exact ⟨rfl, rfl, rfl⟩
  · intro hn _ _
    obtain ⟨value, _, h2, h3⟩ := replaceCommandValue_numeric P c f hn
    rw [h2]
    exact ⟨_, h3⟩
  · intro hn _
    obtain ⟨value, _, h2, _⟩ := replaceCommandValue_numeric P c f hn
    rw [h2]
    simp

theorem stepOutcome_unchanged_error (fails : Prop) (c : CommandValue) (e : String)
    (hf : c.Decodes → fails) : StepOutcome fails c (c, some e) :=
  ⟨fun _ => rfl, ⟨rfl, rfl, rfl⟩, fun _ _ h => (by cases h),
    fun _ hd => ⟨fun _ => hf hd, fun _ => rfl⟩⟩

theorem stepOutcome_unchanged_ok (fails : Prop) (c : CommandValue) (hf : ¬ fails) :
    StepOutcome fails c (c, none) :=
  ⟨fun h => (by cases h), ⟨rfl, rfl, rfl⟩, fun _ hd _ => hd,
    fun _ _ => ⟨fun h => (by cases h), fun h => absurd h hf⟩⟩

theorem stepOutcome_replace (fails : Prop) (P : Platform) (c : CommandValue) (f : F64)
    (hf : ¬ fails) : StepOutcome fails c (replaceCommandValueFromFloat64 P c f) := by
  obtain ⟨h1, h2, h3, h4⟩ := replace_outcome P c f
  exact ⟨h1, h2, h3, fun hn hd => ⟨fun h => absurd ((h4 hn hd).1 h) id,
    fun h => absurd h hf⟩⟩

theorem decode_error_not_decodes (c : CommandValue) (e : String)
    (h : commandValueToFloat64 c = .error e) (hd : c.Decodes) : False := by
  obtain ⟨v, hv⟩ := hd
  rw [h] at hv
  cases hv

theorem transformReadBase_outcome (P : Platform) (c : CommandValue) (s : String) :
    StepOutcome (∃ e, P.ParseFloat s = .error e) c (transformReadBase P c s) := by
  unfold transformReadBase
  cases hv : commandValueToFloat64 c with
  | error e =>
    exact stepOutcome_unchanged_error _ c e (fun hd => (decode_error_not_decodes c e hv hd).elim)
  | ok v =>
    cases hp : P.ParseFloat s with
    | error e => exact stepOutcome_unchanged_error _ c e (fun _ => ⟨e, rfl⟩)
    | ok b =>
      have hnf : ¬ ∃ e, (Except.ok b : Except String F64) = .error e := by
        rintro ⟨e, he⟩
        cases he
      by_cases hz : b.isZero = true
      · simp only [hz, if_true]
        exact stepOutcome_unchanged_ok _ c hnf
      · simp only [hz, if_false]
        exact stepOutcome_replace _ P c _ hnf

theorem transformReadScale_outcome (P : Platform) (c : CommandValue) (s : String) :
    StepOutcome (∃ e, P.ParseFloat s = .error e) c (transformReadScale P c s) := by
  unfold transformReadScale
  cases hv : commandValueToFloat64 c with
  | error e =>
    exact stepOutcome_unchanged_error _ c e (fun hd => (decode_error_not_decodes c e hv hd).elim)
  | ok v =>
    cases hp : P.ParseFloat s with
    | error e => exact stepOutcome_unchanged_error _ c e (fun _ => ⟨e, rfl⟩)
    | ok b =>
      have hnf : ¬ ∃ e, (Except.ok b : Except String F64) = .error e := by
        rintro ⟨e, he⟩
        cases he
      exact stepOutcome_replace _ P c _ hnf

theorem transformReadOffset_outcome (P : Platform) (c : CommandValue) (s : String) :
    StepOutcome (∃ e, P.ParseFloat s = .error e) c (transformReadOffset P c s) := by
  unfold transformReadOffset
  cases hv : commandValueToFloat64 c with
  | error e =>
    exact stepOutcome_unchanged_error _ c e (fun hd => (decode_error_not_decodes c e hv hd).elim)
  | ok v =>
    cases hp : P.ParseFloat s with
    | error e => exact stepOutcome_unchanged_error _ c e (fun _ => ⟨e, rfl⟩)
    | ok b =>
      have hnf : ¬ ∃ e, (Except.ok b : Except String F64) = .error e := by
        rintro ⟨e, he⟩
        cases he
      exact stepOutcome_replace _ P c _ hnf

theorem transformWriteOffset_outcome (P : Platform) (c : CommandValue) (s : String) :
    StepOutcome (∃ e, P.ParseFloat s = .error e) c (transformWriteOffset P c s) := by
  unfold transformWriteOffset
  cases hv : commandValueToFloat64 c with
  | error e =>
    exact stepOutcome_unchanged_error _ c e (fun hd => (decode_error_not_decodes c e hv hd).elim)
  | ok v =>
    cases hp : P.ParseFloat s with
    | error e => exact stepOutcome_unchanged_error _ c e (fun _ => ⟨e, rfl⟩)
    | ok b =>
      have hnf : ¬ ∃ e, (Except.ok b : Except String F64) = .error e := by
        rintro ⟨e, he⟩
        cases he
      exact stepOutcome_replace _ P c _ hnf

theorem transformWriteScale_outcome (P : Platform) (c : CommandValue) (s : String) :
    StepOutcome ((∃ e, P.ParseFloat s = .error e) ∨
        ∃ z, P.ParseFloat s = .ok z ∧ z.isZero = true) c (transformWriteScale P c s) := by
  unfold transformWriteScale
  cases hv : commandValueToFloat64 c with
  | error e =>
    exact stepOutcome_unchanged_error _ c e (fun hd => (decode_error_not_decodes c e hv hd).elim)
  | ok v =>
    cases hp : P.ParseFloat s with
    | error e => exact stepOutcome_unchanged_error _ c e (fun _ => Or.inl ⟨e, rfl⟩)
    | ok b =>
      by_cases hz : b.isZero = true
      · simp only [hz, if_true]
        exact stepOutcome_unchanged_error _ c _ (fun _ => Or.inr ⟨b, rfl, hz⟩)
      · simp only [hz, if_false]
        refine stepOutcome_replace _ P c _ ?_
        rintro (⟨e, he⟩ | ⟨z, hz1, hz2⟩)
        · cases he
        · cases hz1
          exact hz hz2

theorem transformWriteBase_outcome (P : Platform) (c : CommandValue) (s : String) :
    StepOutcome (∃ e, P.ParseFloat s = .error e) c (transformWriteBase P c s) := by
  unfold transformWriteBase
  cases hv : commandValueToFloat64 c with
  | error e =>
    exact stepOutcome_unchanged_error _ c e (fun hd => (decode_error_not_decodes c e hv hd).elim)
  | ok v =>
    cases hp : P.ParseFloat s with
    | error e => exact stepOutcome_unchanged_error _ c e (fun _ => ⟨e, rfl⟩)
    | ok b =>
      have hnf : ¬ ∃ e, (Except.ok b : Except String F64) = .error e := by
        rintro ⟨e, he⟩
        cases he
      by_cases hz : b.isZero = true
      · simp only [hz, if_true]
        exact stepOutcome_unchanged_ok _ c hnf
      · simp only [hz, if_false]
        exact stepOutcome_replace _ P c _ hnf

theorem stepOutcome_optional (fails : Prop) (c : CommandValue) (param : String)
    (r : CommandValue × Option String) (h : StepOutcome fails c r) :
    StepOutcome (param ≠ "" ∧ fails) c (if param ≠ "" then r else (c, none)) := by
  by_cases hp : param ≠ ""
  · rw [if_pos hp]
    obtain ⟨h1, h2, h3, h4⟩ := h
    exact ⟨h1, h2, h3, fun hn hd => ⟨fun hs => ⟨hp, (h4 hn hd).1 hs⟩,
      fun hf => (h4 hn hd).2 hf.2⟩⟩
  · rw [if_neg hp]
    exact stepOutcome_unchanged_ok _ c (fun hf => hp hf.1)

theorem stepOutcome_numeric (fails : Prop) (c : CommandValue)
    (r : CommandValue × Option String) (h : StepOutcome fails c r) (hn : c.IsNumeric) :
    r.1.IsNumeric := by
  obtain ⟨_, ⟨_, _, ht⟩, _, _⟩ := h
  unfold CommandValue.IsNumeric at hn ⊢
  rw [ht]
  exact hn

/-! ## Value transforms: the three steps in sequence -/

theorem transformReadResult_steps (P : Platform) (cv : CommandValue) (pv : PropertyValue)
    (hn : cv.IsNumeric) : TransformReadResult P cv pv = readSteps P pv cv := by
  have ht : ¬ (cv.Type_ = .String ∨ cv.Type_ = .Bool) := by
    rintro (h | h)
    · exact hn.1 h
    · exact hn.2 h
  unfold TransformReadResult readSteps threeSteps
  rw [if_neg ht]

theorem transformWriteParameter_steps (P : Platform) (cv : CommandValue)
    (pv : PropertyValue) (hn : cv.IsNumeric) :
    TransformWriteParameter P cv pv = writeSteps P pv cv := by
  have ht : ¬ (cv.Type_ = .String ∨ cv.Type_ = .Bool) := by
    rintro (h | h)
    · exact hn.1 h
    · exact hn.2 h
  unfold TransformWriteParameter writeSteps threeSteps
  rw [if_neg ht]

theorem threeSteps_outcome (f1 f2 f3 : Prop)
    (s1 s2 s3 : CommandValue → CommandValue × Option String)
    (h1 : ∀ c, StepOutcome f1 c (s1 c)) (h2 : ∀ c, StepOutcome f2 c (s2 c))
    (h3 : ∀ c, StepOutcome f3 c (s3 c)) (cv : CommandValue) :
    ((threeSteps s1 s2 s3 cv).1.RO = cv.RO ∧ (threeSteps s1 s2 s3 cv).1.Origin = cv.Origin ∧
      (threeSteps s1 s2 s3 cv).1.Type_ = cv.Type_) ∧
    (cv.IsNumeric → cv.Decodes →
      ((threeSteps s1 s2 s3 cv).2.isSome = true ↔ f1 ∨ f2 ∨ f3)) ∧
    ((threeSteps s1 s2 s3 cv).2.isSome = true →
      (threeSteps s1 s2 s3 cv).1 = cv ∨
      ((s1 cv).2 = none ∧ (threeSteps s1 s2 s3 cv).1 = (s1 cv).1) ∨
      ((s1 cv).2 = none ∧ (s2 (s1 cv).1).2 = none ∧
        (threeSteps s1 s2 s3 cv).1 = (s2 (s1 cv).1).1)) := by
  obtain ⟨a1, ⟨a2, a2o, a2t⟩, a3, a4⟩ := h1 cv
  obtain ⟨b1, ⟨b2, b2o, b2t⟩, b3, b4⟩ := h2 (s1 cv).1
  obtain ⟨c1, ⟨c2, c2o, c2t⟩, c3, c4⟩ := h3 (s2 (s1 cv).1).1
  unfold threeSteps
  cases e1 : (s1 cv).2 with
  | some err =>
    refine ⟨⟨a2, a2o, a2t⟩, fun hn hd => ?_, fun _ => Or.inl (a1 (by rw [e1]; rfl))⟩
    have hf1 : f1 := (a4 hn hd).1 (by rw [e1]; rfl)
    exact ⟨fun _ => Or.inl hf1, fun _ => rfl⟩
  | none =>
    have hnf1 : cv.IsNumeric → cv.Decodes → ¬ f1 := by
      intro hn hd hf
      have := (a4 hn hd).2 hf
      rw [e1] at this
      cases this
    cases e2 : (s2 (s1 cv).1).2 with
    | some err =>
      refine ⟨⟨b2.trans a2, b2o.trans a2o, b2t.trans a2t⟩, fun hn hd => ?_,
        fun _ => Or.inr (Or.inl ⟨rfl, b1 (by rw [e2]; rfl)⟩)⟩
      have hn1 := stepOutcome_numeric f1 cv _ (h1 cv) hn
      have hf2 : f2 := (b4 hn1 (a3 hn hd e1)).1 (by rw [e2]; rfl)
      exact ⟨fun _ => Or.inr (Or.inl hf2), fun _ => rfl⟩
    | none =>
      refine ⟨⟨c2.trans (b2.trans a2), c2o.trans (b2o.trans a2o),
        c2t.trans (b2t.trans a2t)⟩, fun hn hd => ?_, fun he => ?_⟩
      · have hn1 := stepOutcome_numeric f1 cv _ (h1 cv) hn
        have hd1 := a3 hn hd e1
        have hn2 := stepOutcome_numeric f2 _ _ (h2 (s1 cv).1) hn1
        have hd2 := b3 hn1 hd1 e2
        have hnf2 : ¬ f2 := by
          intro hf
          have := (b4 hn1 hd1).2 hf
          rw [e2] at this
          cases this
        constructor
        · intro he
          exact Or.inr (Or.inr ((c4 hn2 hd2).1 he))
        · rintro (hf | hf | hf)
          · exact absurd hf (hnf1 hn hd)
          · exact absurd hf hnf2
          · exact (c4 hn2 hd2).2 hf
      · exact Or.inr (Or.inr ⟨rfl, rfl, c1 he⟩)

theorem readSteps_outcome (P : Platform) (pv : PropertyValue) (cv : CommandValue) :
    ((readSteps P pv cv).1.RO = cv.RO ∧ (readSteps P pv cv).1.Origin = cv.Origin ∧
      (readSteps P pv cv).1.Type_ = cv.Type_) ∧
    (cv.IsNumeric → cv.Decodes →
      ((readSteps P pv cv).2.isSome = true ↔
        ParseFails P pv.Base ∨ ParseFails P pv.Scale ∨ ParseFails P pv.Offset)) :=
  ⟨(threeSteps_outcome _ _ _ _ _ _
      (fun c => stepOutcome_optional _ c pv.Base _ (transformReadBase_outcome P c pv.Base))
      (fun c => stepOutcome_optional _ c pv.Scale _ (transformReadScale_outcome P c pv.Scale))
      (fun c => stepOutcome_optional _ c pv.Offset _
        (transformReadOffset_outcome P c pv.Offset)) cv).1,
    (threeSteps_outcome _ _ _ _ _ _
      (fun c => stepOutcome_optional _ c pv.Base _ (transformReadBase_outcome P c pv.Base))
      (fun c => stepOutcome_optional _ c pv.Scale _ (transformReadScale_outcome P c pv.Scale))
      (fun c => stepOutcome_optional _ c pv.Offset _
        (transformReadOffset_outcome P c pv.Offset)) cv).2.1⟩

theorem writeSteps_outcome (P : Platform) (pv : PropertyValue) (cv : CommandValue) :
    (writeSteps P pv cv).1.RO = cv.RO ∧ (writeSteps P pv cv).1.Origin = cv.Origin ∧
      (writeSteps P pv cv).1.Type_ = cv.Type_ :=
  (threeSteps_outcome _ _ _ _ _ _
    (fun c => stepOutcome_optional _ c pv.Offset _ (transformWriteOffset_outcome P c pv.Offset))
    (fun c => stepOutcome_optional _ c pv.Scale _ (transformWriteScale_outcome P c pv.Scale))
    (fun c => stepOutcome_optional _ c pv.Base _ (transformWriteBase_outcome P c pv.Base))
    cv).1

theorem transformWriteParameter_RO (P : Platform) (cv : CommandValue) (pv : PropertyValue) :
    (TransformWriteParameter P cv pv).1.RO = cv.RO := by
  by_cases ht : cv.Type_ = .String ∨ cv.Type_ = .Bool
  · unfold TransformWriteParameter
    rw [if_pos ht]
  · have hn : cv.IsNumeric := ⟨fun h => ht (Or.inl h), fun h => ht (Or.inr h)⟩
    rw [transformWriteParameter_steps P cv pv hn]
    exact (writeSteps_outcome P pv cv).1

theorem writeValuesLoop_ok_RO (env : Env) (device : Device) (cvs : List CommandValue) :
    ∀ reqs cvs1, writeValuesLoop env device cvs = .ok (reqs, cvs1) →
      cvs1.map (fun cv => cv.RO) = cvs.map (fun cv => cv.RO) ∧
      reqs.map (fun r => r.RO) = cvs.map (fun cv => cv.RO) := by
  induction cvs with
  | nil =>
    intro reqs cvs1 h
    simp only [writeValuesLoop, Except.ok.injEq, Prod.mk.injEq] at h
    obtain ⟨h1, h2⟩ := h
    subst h1 h2
    exact ⟨rfl, rfl⟩
  | cons cv rest ih =>
    intro reqs cvs1 h
    unfold writeValuesLoop at h
    split at h
    · cases h
    · rename_i devObj hdo
      simp only [] at h
      split at h
      · cases h
      · split at h
        · cases h
        · rename_i reqs0 cvs0 hrest
          simp only [Except.ok.injEq, Prod.mk.injEq] at h
          obtain ⟨h1, h2⟩ := h
          subst h1 h2
          obtain ⟨i1, i2⟩ := ih reqs0 cvs0 hrest
          have hro : (if env.DataTransform then TransformWriteParameter env.P cv devObj.Value
              else (cv, none)).1.RO = cv.RO := by
            split
            · exact transformWriteParameter_RO env.P cv devObj.Value
            · rfl
          simp only [List.map_cons, i1, i2, hro, and_self]

/-- C31: on a write dispatch whose set operations resolve within the ceiling
and whose body decodes, the entries whose key matches no operation's Parameter
name are skipped without error: when every matching entry yields a value,
parseWriteParams returns, without an error, exactly the values built from the
matching entries, in body order, and the values and requests handed to the
driver carry the operations of the matching keys in that order; a body whose
keys all match nothing still invokes the driver, with an empty batch, and
succeeds exactly when the driver does. -/
theorem execWriteCmd_unmatched_keys_skipped (env : Env) (device : Device)
    (cmd body : String) (ros : List ResourceOperation) (maps : List (GoMap String))
    (hros : env.Profiles.ResourceOperations device.ProfileName cmd "set" = .ok ros)
    (hmax : ros.length ≤ env.MaxCmdOps) (hun : env.P.Unmarshal body = .ok maps) :
    ((∀ kv ∈ maps.flatten, ∀ ro, GoMap.get (roSliceToMap ros) kv.1 = some ro →
        ∃ cv, createCommandValueForParam env ro kv.2 = .ok cv) →
      parseWriteParams env (roSliceToMap ros) body =
        (maps.flatten.filterMap (paramValueFor env (roSliceToMap ros)), none) ∧
      (maps.flatten.filterMap (paramValueFor env (roSliceToMap ros))).map
          (fun cv => cv.RO.Parameter) =
        (maps.flatten.filter (fun kv => (GoMap.get (roSliceToMap ros) kv.1).isSome)).map
          (fun kv => kv.1) ∧
      (∀ reqs cvs1,
        writeValuesLoop env device
          (maps.flatten.filterMap (paramValueFor env (roSliceToMap ros))) = .ok (reqs, cvs1) →
        (execWriteCmd env device cmd body).2 = [.driverWrite device.Addressable reqs cvs1] ∧
        cvs1.map (fun cv => cv.RO) =
          (maps.flatten.filterMap (paramValueFor env (roSliceToMap ros))).map
            (fun cv => cv.RO) ∧
        reqs.map (fun r => r.RO) =
          (maps.flatten.filterMap (paramValueFor env (roSliceToMap ros))).map
            (fun cv => cv.RO))) ∧
    ((∀ kv ∈ maps.flatten, GoMap.get (roSliceToMap ros) kv.1 = none) →
      execWriteCmd env device cmd body =
        ((match env.Driver.HandleWriteCommands device.Addressable [] [] with
          | some _ => some .ServerError
          | none => none),
         [.driverWrite device.Addressable [] []])) := by
  have hmax1 : ¬ (ros.length > env.MaxCmdOps) := not_lt.mpr hmax
  have hparse : (∀ kv ∈ maps.flatten, ∀ ro, GoMap.get (roSliceToMap ros) kv.1 = some ro →
        ∃ cv, createCommandValueForParam env ro kv.2 = .ok cv) →
      parseWriteParams env (roSliceToMap ros) body =
        (maps.flatten.filterMap (paramValueFor env (roSliceToMap ros)), none) := by
    intro hok
    simp only [parseWriteParams, hun]
    rw [parseWriteParamsLoop_ok env _ maps.flatten [] hok, List.nil_append]
  constructor
  · intro hok
    refine ⟨hparse hok, ?_, ?_⟩
    · exact paramValueFor_keys env _
        (fun k ro h => (roSliceToMap_get ros k ro h).1) maps.flatten hok
    · intro reqs cvs1 hw
      obtain ⟨h1, h2⟩ := writeValuesLoop_ok_RO env device _ reqs cvs1 hw
      refine ⟨?_, h1, h2⟩
      cases hdrv : env.Driver.HandleWriteCommands device.Addressable reqs cvs1 with
      | none => simp only [execWriteCmd, hros, hmax1, if_false, hparse hok, hw, hdrv]
      | some e => simp only [execWriteCmd, hros, hmax1, if_false, hparse hok, hw, hdrv]
  · intro hnone
    have hok : ∀ kv ∈ maps.flatten, ∀ ro, GoMap.get (roSliceToMap ros) kv.1 = some ro →
        ∃ cv, createCommandValueForParam env ro kv.2 = .ok cv := by
      intro kv hkv ro hro
      rw [hnone kv hkv] at hro
      cases hro
    have hempty : maps.flatten.filterMap (paramValueFor env (roSliceToMap ros)) = [] := by
      rw [List.filterMap_eq_nil_iff]
      intro kv hkv
      simp only [paramValueFor, hnone kv hkv]
    have hp := hparse hok
    rw [hempty] at hp
    cases hdrv : env.Driver.HandleWriteCommands device.Addressable [] [] with
    | none => simp only [execWriteCmd, hros, hmax1, if_false, hp, writeValuesLoop, hdrv]
    | some e => simp only [execWriteCmd, hros, hmax1, if_false, hp, writeValuesLoop, hdrv]

/-- Witness of C31: the body `[{"fan":"1"},{"switch":"1"}]` hands the driver
the one value of the key `switch`; the body `[{"fan":"1"}]` hands it an empty
batch and the write succeeds. -/
theorem execWriteCmd_unmatched_keys_skipped_witness :
    execWriteCmd { sampleEnv 5 true with P := samplePlatformKeys } devThermostat "power"
        "[\x7b\"fan\":\"1\"\x7d,\x7b\"switch\":\"1\"\x7d]" =
      (none,
        [.driverWrite "addr-1"
          [{ RO := roSwitch,
             DeviceObject :=
              { Name := "switch",
                Value := { Base := "", Scale := "", Offset := "", Assertion := "0" } } }]
          [switchValue 1]]) ∧
    execWriteCmd { sampleEnv 5 true with P := samplePlatformKeys } devThermostat "power"
        "[\x7b\"fan\":\"1\"\x7d]" =
      ((match ({ sampleEnv 5 true with P := samplePlatformKeys }
            : Env).Driver.HandleWriteCommands devThermostat.Addressable [] [] with
        | some _ => some .ServerError
        | none => none),
       [.driverWrite devThermostat.Addressable [] []]) ∧
    execWriteCmd { sampleEnv 5 true with P := samplePlatformKeys } devThermostat "power"
        "[\x7b\"fan\":\"1\"\x7d]" = (none, [.driverWrite "addr-1" [] []]) :=
  ⟨by decide,
    (execWriteCmd_unmatched_keys_skipped { sampleEnv 5 true with P := samplePlatformKeys }
      devThermostat "power" "[\x7b\"fan\":\"1\"\x7d]" [roSwitch] [[("fan", "1")]]
      (by decide) (by decide) (by decide)).2 (by decide),
    by decide⟩

/-! ## Value transforms: a Base of zero -/

theorem transformReadBase_zero (P : Platform) (c : CommandValue) (base : String) (z : F64)
    (hd : c.Decodes) (hb : P.ParseFloat base = .ok z) (hz : z.isZero = true) :
    transformReadBase P c base = (c, none) := by
  obtain ⟨v, hv⟩ := hd
  simp only [transformReadBase, hv, hb, hz, if_true]

theorem transformWriteBase_zero (P : Platform) (c : CommandValue) (base : String) (z : F64)
    (hd : c.Decodes) (hb : P.ParseFloat base = .ok z) (hz : z.isZero = true) :
    transformWriteBase P c base = (c, none) := by
  obtain ⟨v, hv⟩ := hd
  simp only [transformWriteBase, hv, hb, hz, if_true]

/-- C32: for every numeric value whose stored value decodes to its declared
type, a Base string that parses to zero makes the base step a no-op in both
directions: TransformReadResult and TransformWriteParameter return the same
value and the same error as with an empty Base, the Scale and Offset steps
being applied as they are without a Base. -/
theorem transform_base_zero_noop (P : Platform) (cv : CommandValue) (pv : PropertyValue)
    (z : F64) (hn : cv.IsNumeric) (hd : cv.Decodes)
    (hb : P.ParseFloat pv.Base = .ok z) (hz : z.isZero = true) :
    TransformReadResult P cv pv = TransformReadResult P cv { pv with Base := "" } ∧
    TransformWriteParameter P cv pv = TransformWriteParameter P cv { pv with Base := "" } := by
  constructor
  · rw [transformReadResult_steps P cv pv hn, transformReadResult_steps P cv _ hn]
    have h1 : (if pv.Base ≠ "" then transformReadBase P cv pv.Base else (cv, none))
        = (cv, none) := by
      split
      · exact transformReadBase_zero P cv pv.Base z hd hb hz
      · rfl
    simp only [readSteps, threeSteps, h1, ne_eq, not_true_eq_false, if_false]
  · rw [transformWriteParameter_steps P cv pv hn, transformWriteParameter_steps P cv _ hn]
    have o1 := stepOutcome_optional _ cv pv.Offset _
      (transformWriteOffset_outcome P cv pv.Offset)
    have o2 := stepOutcome_optional _
      (if pv.Offset ≠ "" then transformWriteOffset P cv pv.Offset else (cv, none)).1 pv.Scale _
      (transformWriteScale_outcome P
        (if pv.Offset ≠ "" then transformWriteOffset P cv pv.Offset else (cv, none)).1 pv.Scale)
    simp only [writeSteps, threeSteps, ne_eq, not_true_eq_false, if_false]
    cases e1 : (if ¬ pv.Offset = "" then transformWriteOffset P cv pv.Offset
        else (cv, none)).2 with
    | some err => rfl
    | none =>
      simp only []
      cases e2 : (if ¬ pv.Scale = "" then
          transformWriteScale P
            (if ¬ pv.Offset = "" then transformWriteOffset P cv pv.Offset else (cv, none)).1
            pv.Scale
          else ((if ¬ pv.Offset = "" then transformWriteOffset P cv pv.Offset
            else (cv, none)).1, none)).2 with
      | some err => rfl
      | none =>
        simp only []
        have hn1 := stepOutcome_numeric _ cv _ o1 hn
        have hd1 := o1.2.2.1 hn hd e1
        have hd2 := o2.2.2.1 hn1 hd1 e2
        split
        · exact transformWriteBase_zero P _ pv.Base z hd2 hb hz
        · rfl

/-- Witness of C32: the value 5 with Scale 2 and Offset 1 under the Bases
`-0` (read) and `0.0` (write). -/
theorem transform_base_zero_noop_witness :
    samplePlatform.ParseFloat "-0" = .ok (.fin true 0 0) ∧
    samplePlatform.ParseFloat "0.0" = .ok (.fin false 0 0) ∧
    TransformReadResult samplePlatform (int32Value 5)
        { Base := "-0", Scale := "2", Offset := "1", Assertion := "" } =
      TransformReadResult samplePlatform (int32Value 5)
        { Base := "", Scale := "2", Offset := "1", Assertion := "" } ∧
    TransformWriteParameter samplePlatform (int32Value 5)
        { Base := "0.0", Scale := "2", Offset := "1", Assertion := "" } =
      TransformWriteParameter samplePlatform (int32Value 5)
        { Base := "", Scale := "2", Offset := "1", Assertion := "" } ∧
    TransformReadResult samplePlatform (int32Value 5)
        { Base := "-0", Scale := "2", Offset := "1", Assertion := "" } =
      (int32Value 11, none) :=
  ⟨by decide, by decide,
    (transform_base_zero_noop samplePlatform (int32Value 5)
      { Base := "-0", Scale := "2", Offset := "1", Assertion := "" } (.fin true 0 0)
      ⟨by decide, by decide⟩ ⟨_, rfl⟩ (by decide) (by decide)).1,
    (transform_base_zero_noop samplePlatform (int32Value 5)
      { Base := "0.0", Scale := "2", Offset := "1", Assertion := "" } (.fin false 0 0)
      ⟨by decide, by decide⟩ ⟨_, rfl⟩ (by decide) (by decide)).2,
    by decide⟩

/-! ## Value transforms: when the read transform fails -/

theorem wellFormed_decodes (cv : CommandValue) (hw : cv.WellFormed) : cv.Decodes := by
  unfold CommandValue.WellFormed at hw
  unfold CommandValue.Decodes commandValueToFloat64
  cases ht : cv.Type_ <;> cases hv : cv.NumericValue <;>
    simp only [ht, hv, ValueType.intRange] at hw ⊢ <;>
    exact ⟨_, rfl⟩

/-- C33: for every well-formed numeric command value, TransformReadResult
returns an error if and only if some non-empty Base, Scale or Offset string
fails to parse as a float64; and in a read dispatch whose driver call succeeds
and whose results resolve, whatever the transforms of the values return, the
event holds one reading per value, in order, each built from that value alone
(its own transform result, then the mapping). -/
theorem transformReadResult_error_iff (env : Env) (cv : CommandValue) (pv : PropertyValue)
    (hn : cv.IsNumeric) (hw : cv.WellFormed) :
    ((TransformReadResult env.P cv pv).2.isSome = true ↔
      ParseFails env.P pv.Base ∨ ParseFails env.P pv.Scale ∨ ParseFails env.P pv.Offset) ∧
    (∀ (device : Device) (cmd : String) (ros : List ResourceOperation)
        (reqs : List CommandRequest) (results : List CommandValue),
      env.Profiles.ResourceOperations device.ProfileName cmd "get" = .ok ros →
      ros.length ≤ env.MaxCmdOps →
      buildReadRequests env device ros = some reqs →
      env.Driver.HandleReadCommands device.Addressable reqs = .ok results →
      (∀ r ∈ results,
        (env.Profiles.DeviceObject device.ProfileName r.RO.Object).isSome = true) →
      ∃ event, (execReadCmd env device cmd).event = some event ∧
        event.Readings.length = results.length ∧
        event.Readings.map some =
          results.map (readingFor env device.ProfileName device.Name)) := by
  constructor
  · rw [transformReadResult_steps env.P cv pv hn]
    exact (readSteps_outcome env.P pv cv).2 hn (wellFormed_decodes cv hw)
  · intro device cmd ros reqs results hros hmax hreqs hdrv hobj
    obtain ⟨event, h1, _, h3, _⟩ :=
      execReadCmd_resolved env device cmd ros reqs results hros hmax hreqs hdrv hobj
    refine ⟨event, h1, ?_, h3⟩
    have := congrArg List.length h3
    simpa only [List.length_map] using this

/-- Witness of C33: the object `temperature` declares the Scale 2 and an
Offset that does not parse; the transform of 21 fails, and a read that
delivers 21 and 22 still yields the two readings. -/
theorem transformReadResult_error_iff_witness :
    (TransformReadResult samplePlatformJson (int32Value 21)
      { Base := "", Scale := "2", Offset := "x", Assertion := "" }).2.isSome = true ∧
    (execReadCmd
        { sampleEnv 5 true with
          Profiles := newProfileCache [profileHvacBadOffset], Driver := sampleDriverPair }
        devThermostat "temp").event.map (fun e => e.Readings.map (fun r => r.Value))
      = some ["42", "44"] ∧
    (execReadCmd
        { sampleEnv 5 true with
          Profiles := newProfileCache [profileHvacBadOffset], Driver := sampleDriverPair }
        devThermostat "temp").err = some .ServerError :=
  ⟨(transformReadResult_error_iff
      { sampleEnv 5 true with
        Profiles := newProfileCache [profileHvacBadOffset], Driver := sampleDriverPair }
      (int32Value 21) { Base := "", Scale := "2", Offset := "x", Assertion := "" }
      ⟨by decide, by decide⟩
      (by simp [CommandValue.WellFormed, int32Value, ValueType.intRange])).1.2
      (Or.inr (Or.inr ⟨by decide, "strconv.ParseFloat: invalid syntax", by decide⟩)),
    by decide, by decide⟩

/-! ## Value transforms: the value after a failed transform -/

theorem GoMap.get_modify {α : Type} (m : GoMap α) (key k : String) (f : α → α) :
    GoMap.get (GoMap.modify m key f) k
      = if key = k then (GoMap.get m k).map f else GoMap.get m k := by
  induction m with
  | nil => simp [GoMap.modify, GoMap.get]
  | cons kv rest ih =>
    obtain ⟨a, v⟩ := kv
    unfold GoMap.modify
    by_cases hak : a = key
    · rw [if_pos hak]
      by_cases hk : key = k
      · have hak2 : a = k := hak.trans hk
        simp only [GoMap.get, hak2, hk, if_true, Option.map_some']
      · have hak2 : ¬ (a = k) := fun e => hk (hak.symm.trans e)
        simp only [GoMap.get, hak2, hk, if_false, ih]
    · rw [if_neg hak]
      by_cases hak2 : a = k
      · have hk : ¬ (key = k) := fun e => hak (hak2.trans e.symm)
        simp only [GoMap.get, hak2, hk, if_true, if_false]
      · simp only [GoMap.get, hak2, if_false, ih]

/-- C37 at the failing input: the devices `thermostat` (id 5b1) and `valve`
(id 5b2) are added, the device 5b1 is updated under the name `valve`, and the
device 5b1 is removed; every call returns no error.  The id index then still
maps 5b2 to `valve`, a name the name-keyed map no longer holds, and
UpdateAdminState of 5b2, which assigns through `dMap[name]` without the
presence check that Update and ForId make, dereferences the missing entry. -/
theorem deviceCache_updateAdminState_missing_entry :
    ((newDeviceCache []).Add devThermostat).2 = none ∧
    (((newDeviceCache []).run [.add devThermostat]).Add devValve).2 = none ∧
    (((newDeviceCache []).run [.add devThermostat, .add devValve]).Update
      devThermostatAsValve).2 = none ∧
    (((newDeviceCache []).run
      [.add devThermostat, .add devValve, .update devThermostatAsValve]).Remove "5b1").2
        = none ∧
    GoMap.get ((newDeviceCache []).run
      [.add devThermostat, .add devValve, .update devThermostatAsValve,
        .remove "5b1"]).nameMap "5b2" = some "valve" ∧
    GoMap.get ((newDeviceCache []).run
      [.add devThermostat, .add devValve, .update devThermostatAsValve,
        .remove "5b1"]).dMap "valve" = none ∧
    ((newDeviceCache []).run
      [.add devThermostat, .add devValve, .update devThermostatAsValve,
        .remove "5b1"]).UpdateAdminState "5b2" .Locked = none := by
  decide

/-! ## Profile cache: the reverse lookup ResourceOperation -/

theorem retrieveFirstRObyObject_some (object : String) (ro : ResourceOperation) :
    ∀ lists : List (List ResourceOperation),
      retrieveFirstRObyObject lists object = some ro →
      ∃ ros ∈ lists, ro ∈ ros ∧ ro.Object = object := by
  intro lists
  induction lists with
  | nil => intro h; cases h
  | cons ros rest ih =>
    intro h
    unfold retrieveFirstRObyObject at h
    cases hf : ros.find? (fun ro => decide (ro.Object = object)) with
    | some r =>
      rw [hf] at h
      have hr : r = ro := Option.some.inj h
      have hmem : r ∈ ros := List.mem_of_find?_eq_some hf
      have hq := List.find?_some hf
      have hq2 : r.Object = object := of_decide_eq_true hq
      rw [hr] at hmem hq2
      exact ⟨ros, List.mem_cons_self _ _, hmem, hq2⟩
    | none =>
      rw [hf] at h
      obtain ⟨l, hl, hro⟩ := ih h
      exact ⟨l, List.mem_cons_of_mem _ hl, hro⟩

theorem retrieveFirstRObyObject_none (object : String) :
    ∀ lists : List (List ResourceOperation),
      retrieveFirstRObyObject lists object = none →
      ∀ ros ∈ lists, ∀ ro ∈ ros, ro.Object ≠ object := by
  intro lists
  induction lists with
  | nil => intro _ ros hros; cases hros
  | cons l rest ih =>
    intro h ros hros ro hro
    unfold retrieveFirstRObyObject at h
    cases hf : l.find? (fun ro => decide (ro.Object = object)) with
    | some r => rw [hf] at h; cases h
    | none =>
      rw [hf] at h
      rcases List.mem_cons.1 hros with he | hin
      · subst he
        have := List.find?_eq_none.1 hf ro hro
        simpa using this
      · exact ih h ros hin ro hro

theorem GoMap.mem_keys_of_get {α : Type} (m : GoMap α) (k : String) (v : α)
    (h : GoMap.get m k = some v) : k ∈ GoMap.keys m := by
  induction m with
  | nil => cases h
  | cons kv rest ih =>
    obtain ⟨a, w⟩ := kv
    unfold GoMap.get at h
    by_cases hak : a = k
    · simp [GoMap.keys, hak]
    · rw [if_neg hak] at h
      have := ih h
      simp only [GoMap.keys, List.map_cons, List.mem_cons] at this ⊢
      exact Or.inr this

theorem resourceOperation_known (p : profileCache)
    (prfName object method : String) (visit : List String)
    (rosMap : GoMap (List ResourceOperation))
    (h : GoMap.get (if ToLower method = "get" then p.getOpMap else p.setOpMap) prfName
      = some rosMap) :
    p.ResourceOperation prfName object method visit =
      match retrieveFirstRObyObject (visit.filterMap (GoMap.get rosMap)) object with
      | none =>
        .error ("profiles: specified ResourceOperation by object " ++ object ++ " not found")
      | some ro => .ok ro := by
  unfold profileCache.ResourceOperation
  by_cases hm : ToLower method = "get"
  · simp only [hm, if_true] at h ⊢
    simp only [h]
  · simp only [hm, if_false] at h ⊢
    simp only [h]

theorem resourceOperation_first (p : profileCache) (prfName object method : String)
    (rosMap : GoMap (List ResourceOperation))
    (h : GoMap.get (if ToLower method = "get" then p.getOpMap else p.setOpMap) prfName
      = some rosMap)
    (c : String) (ros : List ResourceOperation) (r : ResourceOperation)
    (hc : GoMap.get rosMap c = some ros)
    (hr : ros.find? (fun ro => decide (ro.Object = object)) = some r) :
    (c :: (GoMap.keys rosMap).erase c).Perm (GoMap.keys rosMap) ∧
    p.ResourceOperation prfName object method (c :: (GoMap.keys rosMap).erase c) = .ok r := by
  constructor
  · exact (List.perm_cons_erase (GoMap.mem_keys_of_get rosMap c ros hc)).symm
  · rw [resourceOperation_known p prfName object method _ rosMap h]
    simp only [List.filterMap_cons, hc, retrieveFirstRObyObject, hr]

/-- C36, the claim as stated fails: in the profile `hvac` the commands `power`
and `toggle` both reference the object `switch`, through equal operations, and
both enumeration orders of the two commands give the same result. -/
theorem resourceOperation_same_in_every_order :
    (newProfileCache [profileHvacSameSwitch]).ResourceOperations "hvac" "power" "get"
      = .ok [roSwitch] ∧
    (newProfileCache [profileHvacSameSwitch]).ResourceOperations "hvac" "toggle" "get"
      = .ok [roSwitch] ∧
    (GoMap.get (newProfileCache [profileHvacSameSwitch]).getOpMap "hvac").map GoMap.keys
      = some ["toggle", "power"] ∧
    (newProfileCache [profileHvacSameSwitch]).ResourceOperation "hvac" "switch" "get"
      ["toggle", "power"] = .ok roSwitch ∧
    (newProfileCache [profileHvacSameSwitch]).ResourceOperation "hvac" "switch" "get"
      ["power", "toggle"] = .ok roSwitch := by
  decide

/-- C36 as amended: ResourceOperation(profile, object, direction) fails when
the direction's index has no entry for the profile; when it has one, then for
every enumeration order of its commands the call succeeds if and only if some
operation in the command lists has Object equal to the requested name, and the
operation returned is one of those; when all operations that reference the
object are one and the same operation (in particular when exactly one does),
the result is that operation for every enumeration order; and when two
commands reference it through first matching operations that differ, there
are enumeration orders that give different results, one for each. -/
theorem resourceOperation_lookup (p : profileCache) (prfName object method : String) :
    (GoMap.get (if ToLower method = "get" then p.getOpMap else p.setOpMap) prfName = none →
      ∀ visit, ∃ e, p.ResourceOperation prfName object method visit = .error e) ∧
    (∀ rosMap,
      GoMap.get (if ToLower method = "get" then p.getOpMap else p.setOpMap) prfName
        = some rosMap →
      (∀ visit, visit.Perm (GoMap.keys rosMap) →
        ((∃ ro, p.ResourceOperation prfName object method visit = .ok ro) ↔
          ∃ c ros ro, GoMap.get rosMap c = some ros ∧ ro ∈ ros ∧ ro.Object = object) ∧
        (∀ ro, p.ResourceOperation prfName object method visit = .ok ro →
          ∃ c ros, GoMap.get rosMap c = some ros ∧ ro ∈ ros ∧ ro.Object = object)) ∧
      (∀ ro0,
        (∃ c ros, GoMap.get rosMap c = some ros ∧ ro0 ∈ ros ∧ ro0.Object = object) →
        (∀ c ros r, GoMap.get rosMap c = some ros → r ∈ ros → r.Object = object → r = ro0) →
        ∀ visit, visit.Perm (GoMap.keys rosMap) →
          p.ResourceOperation prfName object method visit = .ok ro0) ∧
      (∀ c1 c2 ros1 ros2 r1 r2,
        GoMap.get rosMap c1 = some ros1 → GoMap.get rosMap c2 = some ros2 →
        ros1.find? (fun ro => decide (ro.Object = object)) = some r1 →
        ros2.find? (fun ro => decide (ro.Object = object)) = some r2 →
        r1 ≠ r2 →
        ∃ visit1 visit2,
          visit1.Perm (GoMap.keys rosMap) ∧ visit2.Perm (GoMap.keys rosMap) ∧
          p.ResourceOperation prfName object method visit1 = .ok r1 ∧
          p.ResourceOperation prfName object method visit2 = .ok r2 ∧
          p.ResourceOperation prfName object method visit1 ≠
            p.ResourceOperation prfName object method visit2)) := by
  constructor
  · intro hnone visit
    unfold profileCache.ResourceOperation
    by_cases hm : ToLower method = "get"
    · simp only [hm, if_true] at hnone ⊢
      simp only [hnone]
      exact ⟨_, rfl⟩
    · simp only [hm, if_false] at hnone ⊢
      simp only [hnone]
      exact ⟨_, rfl⟩
  · intro rosMap hmap
    have hsome : ∀ visit ro, p.ResourceOperation prfName object method visit = .ok ro →
        ∃ c ros, GoMap.get rosMap c = some ros ∧ ro ∈ ros ∧ ro.Object = object := by
      intro visit ro hok
      rw [resourceOperation_known p prfName object method visit rosMap hmap] at hok
      cases hr : retrieveFirstRObyObject (visit.filterMap (GoMap.get rosMap)) object with
      | none => rw [hr] at hok; cases hok
      | some r =>
        rw [hr] at hok
        have hrr : r = ro := Except.ok.inj hok
        obtain ⟨ros, hros, hmem, hobj⟩ := retrieveFirstRObyObject_some object r _ hr
        obtain ⟨c, _, hc⟩ := List.mem_filterMap.1 hros
        rw [hrr] at hmem hobj
        exact ⟨c, ros, hc, hmem, hobj⟩
    have hfound : ∀ visit, visit.Perm (GoMap.keys rosMap) →
        (∃ c ros ro, GoMap.get rosMap c = some ros ∧ ro ∈ ros ∧ ro.Object = object) →
        ∃ ro, p.ResourceOperation prfName object method visit = .ok ro := by
      intro visit hperm hex
      obtain ⟨c, ros, ro, hc, hmem, hobj⟩ := hex
      rw [resourceOperation_known p prfName object method visit rosMap hmap]
      cases hr : retrieveFirstRObyObject (visit.filterMap (GoMap.get rosMap)) object with
      | none =>
        have hcv : c ∈ visit := hperm.mem_iff.2 (GoMap.mem_keys_of_get rosMap c ros hc)
        have hin : ros ∈ visit.filterMap (GoMap.get rosMap) :=
          List.mem_filterMap.2 ⟨c, hcv, hc⟩
        exact absurd hobj (retrieveFirstRObyObject_none object _ hr ros hin ro hmem)
      | some r => exact ⟨r, rfl⟩
    refine ⟨fun visit hperm => ⟨⟨?_, hfound visit hperm⟩, hsome visit⟩, ?_, ?_⟩
    · rintro ⟨ro, hok⟩
      obtain ⟨c, ros, h1, h2, h3⟩ := hsome visit ro hok
      exact ⟨c, ros, ro, h1, h2, h3⟩
    · intro ro0 hex huniq visit hperm
      obtain ⟨c, ros, hc, hmem, hobj⟩ := hex
      obtain ⟨ro, hok⟩ := hfound visit hperm ⟨c, ros, ro0, hc, hmem, hobj⟩
      obtain ⟨c1, ros1, h1, h2, h3⟩ := hsome visit ro hok
      rw [hok, huniq c1 ros1 ro h1 h2 h3]
    · intro c1 c2 ros1 ros2 r1 r2 hc1 hc2 hr1 hr2 hne
      obtain ⟨p1, q1⟩ := resourceOperation_first p prfName object method rosMap hmap c1 ros1 r1
        hc1 hr1
      obtain ⟨p2, q2⟩ := resourceOperation_first p prfName object method rosMap hmap c2 ros2 r2
        hc2 hr2
      refine ⟨_, _, p1, p2, q1, q2, ?_⟩
      rw [q1, q2]
      intro he
      exact hne (Except.ok.inj he)

/-- Witness of C36 as amended: in a profile whose commands `power` and
`toggle` reference `switch` through different operations, the two enumeration
orders return the one and the other. -/
theorem resourceOperation_lookup_witness :
    (newProfileCache [profileHvacTwoSwitch]).ResourceOperation "hvac" "switch" "get"
      ["power", "toggle"] = .ok roSwitch ∧
    (newProfileCache [profileHvacTwoSwitch]).ResourceOperation "hvac" "switch" "get"
      ["toggle", "power"] = .ok roSwitchPlain ∧
    (∀ visit, ∃ e,
      (newProfileCache [profileHvacTwoSwitch]).ResourceOperation "ghost" "switch" "get" visit
        = .error e) ∧
    (∃ visit1 visit2,
      visit1.Perm (GoMap.keys [("toggle", [roSwitchPlain]), ("power", [roSwitch])]) ∧
      visit2.Perm (GoMap.keys [("toggle", [roSwitchPlain]), ("power", [roSwitch])]) ∧
      (newProfileCache [profileHvacTwoSwitch]).ResourceOperation "hvac" "switch" "get" visit1
        = .ok roSwitch ∧
      (newProfileCache [profileHvacTwoSwitch]).ResourceOperation "hvac" "switch" "get" visit2
        = .ok roSwitchPlain ∧
      (newProfileCache [profileHvacTwoSwitch]).ResourceOperation "hvac" "switch" "get" visit1 ≠
        (newProfileCache [profileHvacTwoSwitch]).ResourceOperation "hvac" "switch" "get"
          visit2) :=
  ⟨by decide, by decide,
    (resourceOperation_lookup (newProfileCache [profileHvacTwoSwitch]) "ghost" "switch"
      "get").1 (by decide),
    ((resourceOperation_lookup (newProfileCache [profileHvacTwoSwitch]) "hvac" "switch"
      "get").2 [("toggle", [roSwitchPlain]), ("power", [roSwitch])] (by decide)).2.2
        "power" "toggle" [roSwitch] [roSwitchPlain] roSwitch roSwitchPlain
        (by decide) (by decide) (by decide) (by decide) (by decide)⟩

end DeviceSdk
